import Mathlib

/-!
Aquifers of opm-common: a shallow embedding.

The definitions below follow the C++ sources

* `src/opm/parser/eclipse/EclipseState/Aqucon.cpp`
* `src/opm/parser/eclipse/EclipseState/NumericalAquifer.cpp`
* `src/opm/parser/eclipse/EclipseState/Aquifer/NumericalAquifer/NumericalAquiferCell.cpp`
* `src/opm/parser/eclipse/EclipseState/Aquifer/AquiferConfig.cpp`
* `src/opm/input/eclipse/EclipseState/Aquifer/AquiferConstantFlux.cpp`
* `src/opm/parser/eclipse/EclipseState/Schedule/MSW/Valve.cpp`
* `opm/output/data/Aquifer.hpp`

Conventions.  `size_t` values are `Nat`, `int` values are `Int`; the conversion of an
`int` to `size_t` is `toSizeT` (reduction modulo `2^64`).  `double` values are read as exact
rationals.  A `std::vector` is a `List`; the unchecked `v[i]` has no defined value beyond the
end of the vector, which is the outcome `Error.undefined`.  A `std::map` is an association list
kept in ascending key order (`StdMap`), a `std::set` is a `Finset`.  Code that can throw, abort or
loop for ever returns `Except Error`.
-/

namespace Opm

/-! ## Outcomes -/

/-- The ways in which the embedded code can end without a value. -/
inductive Error where
  /-- the bare `throw;` of `NumericalAquifers::NumericalAquifers` (NumericalAquifer.cpp:57): no
  exception is being handled where it stands, so it calls `std::terminate`; the program ends
  there and no exception reaches a caller -/
  | rethrow
  /-- the `std::logic_error` "declared more than once" of Aqucon.cpp:53-56, with the
  one-based cell and the aquifer id that the message prints -/
  | declaredTwice (i j k aquifer_id : Nat)
  /-- the `std::logic_error` "does not have any connections" of Aqucon.cpp:67-69 -/
  | noConnections (aqu_id : Nat)
  /-- the exception of `EclipseGrid::activeIndex` for a cell without an active index -/
  | notActive (global_index : Nat)
  /-- an unchecked vector access beyond the end of the vector, or a read from a message buffer
  that does not hold a value of the type read at its front -/
  | undefined
  /-- a loop whose condition can never become false -/
  | diverges
  deriving DecidableEq, Repr

/-- The largest `size_t`. -/
def SIZE_MAX : Nat := 2 ^ 64 - 1

/-- Conversion of an `int` to `size_t`. -/
def toSizeT (x : Int) : Nat := (x % 2 ^ 64).toNat

/-- Conversion of a `size_t` to `int`: the value modulo `2^32`, in the range of `int`. -/
def toInt (x : Nat) : Int := ((x : Int) + 2 ^ 31) % 2 ^ 32 - 2 ^ 31

/-- The unchecked `v[i]` of a `std::vector`. -/
def vecGet {α : Type} (v : List α) (i : Nat) : Except Error α :=
  match v[i]? with
  | some a => .ok a
  | none => .error .undefined

/-- The unchecked write `v[i] = x` of a `std::vector`. -/
def vecSet {α : Type} (v : List α) (i : Nat) (x : α) : Except Error (List α) :=
  if i < v.length then .ok (v.set i x) else .error .undefined

/-- The pattern `if (!item.defaultApplied(0)) x = item.get(0); else x = array[index];` of the
two cell constructors: the explicit value of the item, or the array entry. -/
def itemOr {α : Type} (item : Option α) (array : List α) (index : Nat) : Except Error α :=
  match item with
  | some v => .ok v
  | none => vecGet array index

/-- The values the counter takes in `for (size_t x = lo; x <= hi; ++x)`.  With `hi = SIZE_MAX`
the condition `x <= hi` holds for every `size_t`, and the loop never ends. -/
def sizeLoop (lo hi : Nat) : Except Error (List Nat) :=
  if hi = SIZE_MAX then .error .diverges else .ok (List.range' lo (hi + 1 - lo))

/-! ## Collaborators: grid, face directions, field properties, deck records -/

/-- The six members of `FaceDir::DirEnum` that the sources name. -/
inductive FaceDir where
  | XPlus | XMinus | YPlus | YMinus | ZPlus | ZMinus
  deriving DecidableEq, Repr

/-- The part of `EclipseGrid` that the sources use.  The class itself is not under `src/`;
its member functions are parameters of the development. -/
structure EclipseGrid where
  /-- the value of `getNX()` -/
  nx : Nat
  /-- the value of `getNY()` -/
  ny : Nat
  /-- the value of `getNZ()` -/
  nz : Nat
  /-- the function `getGlobalIndex(i, j, k)` -/
  getGlobalIndex : Nat → Nat → Nat → Nat
  /-- the function `cellActive(i, j, k)` -/
  cellActive : Nat → Nat → Nat → Bool
  /-- the function `activeIndex(globalIndex)`, `none` where it throws -/
  activeIndexOpt : Nat → Option Nat
  /-- the function `getCellDepth(globalIndex)` -/
  getCellDepth : Nat → ℚ

/-- The throwing `EclipseGrid::activeIndex`. -/
def EclipseGrid.activeIndex (grid : EclipseGrid) (globalIndex : Nat) : Except Error Nat :=
  match grid.activeIndexOpt globalIndex with
  | some a => .ok a
  | none => .error (.notActive globalIndex)

/-- The cell next to `(i, j, k)` across the face `faceDir`. -/
def FaceDir.neighbor (faceDir : FaceDir) (i j k : Int) : Int × Int × Int :=
  match faceDir with
  | .XMinus => (i - 1, j, k)
  | .XPlus => (i + 1, j, k)
  | .YMinus => (i, j - 1, k)
  | .YPlus => (i, j + 1, k)
  | .ZMinus => (i, j, k - 1)
  | .ZPlus => (i, j, k + 1)

namespace AquiferHelpers

/-- Modelled from the spec: `AquiferHelpers.hpp` is not under `src/`.  The cell `(i, j, k)` lies
inside the grid and is active in the bitmap `actnum`. -/
def cellInsideReservoirAndActive (grid : EclipseGrid) (i j k : Int) (actnum : List Int) : Bool :=
  decide (0 ≤ i) && decide (0 ≤ j) && decide (0 ≤ k)
    && decide (i < grid.nx) && decide (j < grid.ny) && decide (k < grid.nz)
    && (actnum.getD (grid.getGlobalIndex i.toNat j.toNat k.toNat) 0 != 0)

/-- Modelled from the spec: `AquiferHelpers.hpp` is not under `src/`.  The adjacency predicate
of the spec (§4.2, §6): the neighbouring cell of `(i, j, k)` in the face direction `faceDir` is
inside the grid and active in `actnum`; at a grid edge there is no such neighbour. -/
def neighborCellInsideReservoirAndActive (grid : EclipseGrid) (i j k : Int) (faceDir : FaceDir)
    (actnum : List Int) : Bool :=
  let n := faceDir.neighbor i j k
  cellInsideReservoirAndActive grid n.1 n.2.1 n.2.2 actnum

/-- Modelled from the spec: `AquiferHelpers.hpp` is not under `src/`.  The overload without a
bitmap: the cell `(i, j, k)` lies inside the grid and `grid.cellActive` holds for it. -/
def cellInsideReservoirAndActiveGrid (grid : EclipseGrid) (i j k : Int) : Bool :=
  decide (0 ≤ i) && decide (0 ≤ j) && decide (0 ≤ k)
    && decide (i < grid.nx) && decide (j < grid.ny) && decide (k < grid.nz)
    && grid.cellActive i.toNat j.toNat k.toNat

/-- Modelled from the spec: `AquiferHelpers.hpp` is not under `src/`.  The adjacency predicate
of the spec for the overload without a bitmap (§4.5: the same predicate as §4.2). -/
def neighborCellInsideReservoirAndActiveGrid (grid : EclipseGrid) (i j k : Int)
    (faceDir : FaceDir) : Bool :=
  let n := faceDir.neighbor i j k
  cellInsideReservoirAndActiveGrid grid n.1 n.2.1 n.2.2

end AquiferHelpers

/-! ## Ordered associative containers -/

/-- A `std::map`: the entries in ascending key order. -/
abbrev StdMap (κ β : Type) := List (κ × β)

namespace StdMap

variable {κ β : Type} [LinearOrder κ]

/-- The lookup `m.find(k)`, `none` for `m.end()`. -/
def find? : StdMap κ β → κ → Option β
  | [], _ => none
  | (k', v) :: m, k => if k' = k then some v else find? m k

/-- The insertion `m.insert({k, v})`: a key that is present keeps its entry. -/
def insert : StdMap κ β → κ → β → StdMap κ β
  | [], k, v => [(k, v)]
  | (k', v') :: m, k, v =>
    if k < k' then (k, v) :: (k', v') :: m
    else if k = k' then (k', v') :: m
    else (k', v') :: insert m k v

/-- The assignment `m[k] = v` through the reference that `m[k]` returns. -/
def set : StdMap κ β → κ → β → StdMap κ β
  | [], k, v => [(k, v)]
  | (k', v') :: m, k, v =>
    if k < k' then (k, v) :: (k', v') :: m
    else if k = k' then (k', v) :: m
    else (k', v') :: set m k v

/-- The in-place update `f(m.at(k))` of the entry of a key that is present. -/
def modify : StdMap κ β → κ → (β → β) → StdMap κ β
  | [], _, _ => []
  | (k', v') :: m, k, f => if k' = k then (k', f v') :: m else (k', v') :: modify m k f

end StdMap

/-- One record of the keyword `AQUCON`, items as the deck holds them: one-based `int`
coordinates, the face direction and the flag already converted from their strings. -/
structure AquconRecord where
  ID : Int
  I1 : Int
  I2 : Int
  J1 : Int
  J2 : Int
  K1 : Int
  K2 : Int
  CONNECT_FACE : FaceDir
  TRANS_MULT : ℚ
  TRANS_OPTION : Int
  ALLOW_INTERNAL_CELLS : Bool
  VEFRAC : ℚ
  VEFRACP : ℚ

/-- One record of the keyword `AQUNUM`: the aquifer id and the one-based cell as `int`, the
three geometry items in SI units, and the five items that may be defaulted (`none` where
`defaultApplied(0)` holds). -/
structure AqunumRecord where
  AQUIFER_ID : Int
  I : Int
  J : Int
  K : Int
  CROSS_SECTION : ℚ
  LENGTH : ℚ
  PERM : ℚ
  PORO : Option ℚ
  DEPTH : Option ℚ
  INITIAL_PRESSURE : Option ℚ
  PVT_TABLE_NUM : Option Int
  SAT_TABLE_NUM : Option Int

/-- One record of the keyword `AQUFLUX`: the aquifer id, the flux and the salt concentration in SI
units, and the two items that may have no value (`none` where `hasValue(0)` is false). -/
structure AqufluxRecord where
  AQUIFER_ID : Int
  FLUX : ℚ
  SC_0 : ℚ
  TEMP : Option ℚ
  PRESSURE : Option ℚ

/-- The part of a `Deck` that the sources read: every occurrence of the keywords `AQUNUM`,
`AQUCON` and `AQUFLUX`, in deck order, each with its records. -/
structure Deck where
  AQUNUM : List (List AqunumRecord)
  AQUCON : List (List AquconRecord)
  AQUFLUX : List (List AqufluxRecord) := []

/-- The part of `FieldPropsManager` that the sources use. -/
structure FieldPropsManager where
  /-- the function `get_double(keyword)` -/
  get_double : String → List ℚ
  /-- the function `get_int(keyword)` -/
  get_int : String → List Int
  /-- the function `cellDepth()` -/
  cellDepth : List ℚ

/-! ## Aqucon.cpp -/

/-- The aggregate `NumAquiferCon`, members in the order of the initialiser of Aqucon.cpp:112. -/
structure NumAquiferCon where
  aquifer_id : Nat
  I : Nat
  J : Nat
  K : Nat
  global_index : Nat
  face_dir : FaceDir
  trans_multi : ℚ
  trans_option : Int
  connect_active_cell : Bool
  ve_frac_relperm : ℚ
  ve_frac_cappress : ℚ
  deriving DecidableEq

/-- The connection that Aqucon.cpp:111-113 builds for the cell `(i, j, k)` of `record`. -/
def NumAquiferCon.ofCell (grid : EclipseGrid) (record : AquconRecord) (i j k : Nat) :
    NumAquiferCon :=
  { aquifer_id := toSizeT record.ID
    I := i
    J := j
    K := k
    global_index := grid.getGlobalIndex i j k
    face_dir := record.CONNECT_FACE
    trans_multi := record.TRANS_MULT
    trans_option := record.TRANS_OPTION
    connect_active_cell := record.ALLOW_INTERNAL_CELLS
    ve_frac_relperm := record.VEFRAC
    ve_frac_cappress := record.VEFRACP }

/-- The body of the innermost loop of `generateConnections` (Aqucon.cpp:102-114). -/
def NumAquiferCon.visitCell (grid : EclipseGrid) (record : AquconRecord) (actnum : List Int)
    (k j : Nat) (cons : List NumAquiferCon) (i : Nat) : Except Error (List NumAquiferCon) := do
  let a ← vecGet actnum (grid.getGlobalIndex i j k)
  if a = 0 then
    pure cons
  else if record.ALLOW_INTERNAL_CELLS ||
      !AquiferHelpers.neighborCellInsideReservoirAndActive grid i j k record.CONNECT_FACE actnum
  then
    pure (cons ++ [NumAquiferCon.ofCell grid record i j k])
  else
    pure cons

/-- The function `NumAquiferCon::generateConnections` (Aqucon.cpp:75-119). -/
def NumAquiferCon.generateConnections (grid : EclipseGrid) (record : AquconRecord)
    (actnum : List Int) : Except Error (List NumAquiferCon) :=
  let i1 := toSizeT (record.I1 - 1)
  let j1 := toSizeT (record.J1 - 1)
  let k1 := toSizeT (record.K1 - 1)
  let i2 := toSizeT (record.I2 - 1)
  let j2 := toSizeT (record.J2 - 1)
  let k2 := toSizeT (record.K2 - 1)
  do
    let ks ← sizeLoop k1 k2
    ks.foldlM (fun cons k => do
      let js ← sizeLoop j1 j2
      js.foldlM (fun cons j => do
        let is ← sizeLoop i1 i2
        is.foldlM (NumAquiferCon.visitCell grid record actnum k j) cons) cons) []

/-- The object `NumericalAquiferConnections`: aquifer id ↦ (global index ↦ connection). -/
structure NumericalAquiferConnections where
  connections_ : StdMap Nat (StdMap Nat NumAquiferCon)

/-- The body of the loop over the connections of one record (Aqucon.cpp:44-58):
`connections_[aqu_id]` is looked up (an absent id has the empty map), the connection is
inserted under its `global_index`, and a key that is present throws. -/
def NumericalAquiferConnections.addConnection (connections : StdMap Nat (StdMap Nat NumAquiferCon))
    (con : NumAquiferCon) : Except Error (StdMap Nat (StdMap Nat NumAquiferCon)) :=
  let aqu_id := con.aquifer_id
  let global_index := con.global_index
  let aqu_cons := (StdMap.find? connections aqu_id).getD []
  match StdMap.find? aqu_cons global_index with
  | none => .ok (StdMap.set connections aqu_id (StdMap.insert aqu_cons global_index con))
  | some _ => .error (.declaredTwice (con.I + 1) (con.J + 1) (con.K + 1) con.aquifer_id)

/-- The body of the loop over the records (Aqucon.cpp:43-58). -/
def NumericalAquiferConnections.addRecord (grid : EclipseGrid) (actnum : List Int)
    (connections : StdMap Nat (StdMap Nat NumAquiferCon)) (record : AquconRecord) :
    Except Error (StdMap Nat (StdMap Nat NumAquiferCon)) := do
  let cons_from_record ← NumAquiferCon.generateConnections grid record actnum
  cons_from_record.foldlM NumericalAquiferConnections.addConnection connections

/-- The constructor `NumericalAquiferConnections::NumericalAquiferConnections`
(Aqucon.cpp:35-61). -/
def NumericalAquiferConnections.construct (deck : Deck) (grid : EclipseGrid)
    (actnum : List Int) : Except Error NumericalAquiferConnections :=
  if deck.AQUCON.isEmpty then .ok ⟨[]⟩
  else do
    let connections ← deck.AQUCON.foldlM
      (fun connections keyword =>
        keyword.foldlM (NumericalAquiferConnections.addRecord grid actnum) connections) []
    pure ⟨connections⟩

/-- The function `NumericalAquiferConnections::getConnections` (Aqucon.cpp:63-73). -/
def NumericalAquiferConnections.getConnections (self : NumericalAquiferConnections)
    (aqu_id : Nat) : Except Error (StdMap Nat NumAquiferCon) :=
  match StdMap.find? self.connections_ aqu_id with
  | none => .error (.noConnections aqu_id)
  | some cons => .ok cons

/-! ## NumericalAquifer.cpp -/

/-- The aggregate `NumericalAquiferCell` as NumericalAquifer.cpp:135-181 fills it. -/
structure NumericalAquiferCell where
  aquifer_id : Int
  I : Int
  J : Int
  K : Int
  area : ℚ
  length : ℚ
  permeability : ℚ
  porosity : ℚ
  depth : ℚ
  init_pressure : Option ℚ
  pvttable : Int
  sattable : Int
  pore_volume : ℚ
  transmissibility : ℚ
  global_index : Nat
  deriving DecidableEq

/-- The constructor `NumericalAquiferCell::NumericalAquiferCell` of NumericalAquifer.cpp:135-181:
a defaulted item is read from the field-property array at `global_index`. -/
def NumericalAquiferCell.construct (record : AqunumRecord) (grid : EclipseGrid)
    (field_props : FieldPropsManager) : Except Error NumericalAquiferCell := do
  let I := record.I - 1
  let J := record.J - 1
  let K := record.K - 1
  let area := record.CROSS_SECTION
  let length := record.LENGTH
  let permeability := record.PERM
  let cell_depth := field_props.cellDepth
  let poro := field_props.get_double "PORO"
  let pvtnum := field_props.get_int "PVTNUM"
  let satnum := field_props.get_int "SATNUM"
  let global_index := grid.getGlobalIndex (toSizeT I) (toSizeT J) (toSizeT K)
  let porosity ← itemOr record.PORO poro global_index
  let depth ← itemOr record.DEPTH cell_depth global_index
  let init_pressure := record.INITIAL_PRESSURE
  let pvttable ← itemOr record.PVT_TABLE_NUM pvtnum global_index
  let sattable ← itemOr record.SAT_TABLE_NUM satnum global_index
  pure
    { aquifer_id := record.AQUIFER_ID
      I := I
      J := J
      K := K
      area := area
      length := length
      permeability := permeability
      porosity := porosity
      depth := depth
      init_pressure := init_pressure
      pvttable := pvttable
      sattable := sattable
      pore_volume := length * area * porosity
      transmissibility := 2 * permeability * area / length
      global_index := global_index }

/-- The function `NumericalAquiferCell::sameCoordinates` (NumericalAquifer.cpp:183-185). -/
def NumericalAquiferCell.sameCoordinates (self : NumericalAquiferCell) (i j k : Int) : Bool :=
  decide (self.I = i) && decide (self.J = j) && decide (self.K = k)

/-- The object `SingleNumericalAquifer`. -/
structure SingleNumericalAquifer where
  id_ : Int
  cells_ : List NumericalAquiferCell
  connections_ : List NumAquiferCon
  deriving DecidableEq

/-- The constructor `SingleNumericalAquifer{id}` (NumericalAquifer.cpp:191-194). -/
def SingleNumericalAquifer.new (aqu_id : Int) : SingleNumericalAquifer :=
  { id_ := aqu_id, cells_ := [], connections_ := [] }

/-- The function `SingleNumericalAquifer::addAquiferCell` (NumericalAquifer.cpp:187-189). -/
def SingleNumericalAquifer.addAquiferCell (self : SingleNumericalAquifer)
    (aqu_cell : NumericalAquiferCell) : SingleNumericalAquifer :=
  { self with cells_ := self.cells_ ++ [aqu_cell] }

/-- The function `SingleNumericalAquifer::addAquiferConnection` (NumericalAquifer.cpp:196-206):
the loop returns at the first cell with the coordinates of `aqu_con`; when no cell has them the
connection is pushed back. -/
def SingleNumericalAquifer.addAquiferConnection (self : SingleNumericalAquifer)
    (aqu_con : NumAquiferCon) : SingleNumericalAquifer :=
  if self.cells_.any (fun cell => cell.sameCoordinates aqu_con.I aqu_con.J aqu_con.K) then self
  else { self with connections_ := self.connections_ ++ [aqu_con] }

/-- The body of the loop of `SingleNumericalAquifer::transToRemove`
(NumericalAquifer.cpp:225-246) for one cell; `trans` holds `trans[0]`, `trans[1]`, `trans[2]`. -/
def SingleNumericalAquifer.transStep (grid : EclipseGrid)
    (trans : Finset Nat × Finset Nat × Finset Nat) (cell : NumericalAquiferCell) :
    Finset Nat × Finset Nat × Finset Nat :=
  let i := cell.I
  let j := cell.J
  let k := cell.K
  let t0 := trans.1
  let t0 := if AquiferHelpers.neighborCellInsideReservoirAndActiveGrid grid (i + 1) j k .XPlus
    then insert cell.global_index t0 else t0
  let t0 := if AquiferHelpers.neighborCellInsideReservoirAndActiveGrid grid (i - 1) j k .XMinus
    then insert (grid.getGlobalIndex (toSizeT (i - 1)) (toSizeT j) (toSizeT k)) t0 else t0
  let t1 := trans.2.1
  let t1 := if AquiferHelpers.neighborCellInsideReservoirAndActiveGrid grid i (j + 1) k .YPlus
    then insert cell.global_index t1 else t1
  let t1 := if AquiferHelpers.neighborCellInsideReservoirAndActiveGrid grid i (j - 1) k .YMinus
    then insert (grid.getGlobalIndex (toSizeT i) (toSizeT (j - 1)) (toSizeT k)) t1 else t1
  let t2 := trans.2.2
  let t2 := if AquiferHelpers.neighborCellInsideReservoirAndActiveGrid grid i j (k + 1) .ZPlus
    then insert cell.global_index t2 else t2
  let t2 := if AquiferHelpers.neighborCellInsideReservoirAndActiveGrid grid i j (k - 1) .ZMinus
    then insert (grid.getGlobalIndex (toSizeT i) (toSizeT j) (toSizeT (k - 1))) t2 else t2
  (t0, t1, t2)

/-- The function `SingleNumericalAquifer::transToRemove` (NumericalAquifer.cpp:222-249). -/
def SingleNumericalAquifer.transToRemove (self : SingleNumericalAquifer) (grid : EclipseGrid) :
    Finset Nat × Finset Nat × Finset Nat :=
  self.cells_.foldl (SingleNumericalAquifer.transStep grid) (∅, ∅, ∅)

/-- The object `NumericalAquifers`: aquifer id ↦ aquifer. -/
structure NumericalAquifers where
  aquifers_ : StdMap Int SingleNumericalAquifer
  deriving DecidableEq

/-- The function `NumericalAquifers::hasAquifer` (NumericalAquifer.cpp:73-75). -/
def NumericalAquifers.hasAquifer (self : NumericalAquifers) (aquifer_id : Int) : Bool :=
  (StdMap.find? self.aquifers_ aquifer_id).isSome

/-- The function `NumericalAquifers::addAquiferCell` (NumericalAquifer.cpp:77-85); `at(id)` is
used on a key that is present in both branches. -/
def NumericalAquifers.addAquiferCell (self : NumericalAquifers)
    (aqu_cell : NumericalAquiferCell) : NumericalAquifers :=
  let id := aqu_cell.aquifer_id
  if self.hasAquifer id then
    ⟨StdMap.modify self.aquifers_ id (fun a => a.addAquiferCell aqu_cell)⟩
  else
    ⟨StdMap.modify (StdMap.insert self.aquifers_ id (SingleNumericalAquifer.new id)) id
      (fun a => a.addAquiferCell aqu_cell)⟩

/-- The loop of NumericalAquifer.cpp:49-63 over the records not yet read: `cell_set` and
`aquifer_cells` are the two local variables.  `cell_set` is a `std::set<int>`, so `find` and
`insert` take the `size_t` member `global_index` converted to `int`; a cell whose converted
`global_index` is in `cell_set` reaches the bare `throw;`. -/
def NumericalAquifers.collectCells (grid : EclipseGrid) (field_props : FieldPropsManager) :
    List AqunumRecord → Finset Int → List NumericalAquiferCell →
      Except Error (List NumericalAquiferCell)
  | [], _, aquifer_cells => .ok aquifer_cells
  | record :: records, cell_set, aquifer_cells =>
    match NumericalAquiferCell.construct record grid field_props with
    | .error e => .error e
    | .ok aqu_cell =>
      if toInt aqu_cell.global_index ∈ cell_set then .error .rethrow
      else NumericalAquifers.collectCells grid field_props records
        (insert (toInt aqu_cell.global_index) cell_set) (aquifer_cells ++ [aqu_cell])

/-- The loop of `NumericalAquifers::addAquiferConnections` (NumericalAquifer.cpp:90-99) over the
entries of `aquifers_` not yet visited: the entries as the loop leaves them, and how it ends. -/
def NumericalAquifers.bindConnections (cons : NumericalAquiferConnections) :
    StdMap Int SingleNumericalAquifer → StdMap Int SingleNumericalAquifer × Except Error Unit
  | [] => ([], .ok ())
  | pair :: rest =>
    let aqu_id := pair.1
    match cons.getConnections (toSizeT aqu_id) with
    | .error e => (pair :: rest, .error e)
    | .ok aqu_cons =>
      let aquifer := aqu_cons.foldl (fun aquifer con => aquifer.addAquiferConnection con.2) pair.2
      let r := NumericalAquifers.bindConnections cons rest
      ((pair.1, aquifer) :: r.1, r.2)

/-- The function `NumericalAquifers::addAquiferConnections` (NumericalAquifer.cpp:87-100): the
object as the call leaves it, and how the call ends.  The bitmap that the constructor of
Aqucon.cpp takes is a parameter. -/
def NumericalAquifers.addAquiferConnections (self : NumericalAquifers) (deck : Deck)
    (grid : EclipseGrid) (actnum : List Int) : NumericalAquifers × Except Error Unit :=
  match NumericalAquiferConnections.construct deck grid actnum with
  | .error e => (self, .error e)
  | .ok cons =>
    let r := NumericalAquifers.bindConnections cons self.aquifers_
    (⟨r.1⟩, r.2)

/-- The constructor `NumericalAquifers::NumericalAquifers` (NumericalAquifer.cpp:37-71), run on
the empty object: the object as the constructor leaves it, and how the constructor ends. -/
def NumericalAquifers.run (deck : Deck) (grid : EclipseGrid) (field_props : FieldPropsManager)
    (actnum : List Int) : NumericalAquifers × Except Error Unit :=
  let self : NumericalAquifers := ⟨[]⟩
  if deck.AQUNUM.isEmpty then (self, .ok ())
  else
    match NumericalAquifers.collectCells grid field_props deck.AQUNUM.flatten ∅ [] with
    | .error e => (self, .error e)
    | .ok aquifer_cells =>
      let self := aquifer_cells.foldl NumericalAquifers.addAquiferCell self
      self.addAquiferConnections deck grid actnum

/-- The registry that `NumericalAquifers::NumericalAquifers` constructs, when it returns. -/
def NumericalAquifers.construct (deck : Deck) (grid : EclipseGrid)
    (field_props : FieldPropsManager) (actnum : List Int) : Except Error NumericalAquifers :=
  match NumericalAquifers.run deck grid field_props actnum with
  | (self, .ok ()) => .ok self
  | (_, .error e) => .error e

/-- The four arrays that `updateCellProps` takes by reference. -/
structure CellProps where
  pore_volume : List ℚ
  satnum : List Int
  pvtnum : List Int
  cell_depth : List ℚ
  deriving DecidableEq

/-- The body of the loop of `SingleNumericalAquifer::updateCellProps`
(NumericalAquifer.cpp:214-218) for one cell. -/
def SingleNumericalAquifer.updateCell (grid : EclipseGrid) (props : CellProps)
    (cell : NumericalAquiferCell) : Except Error CellProps := do
  let activel_index ← grid.activeIndex cell.global_index
  let pore_volume ← vecSet props.pore_volume activel_index cell.pore_volume
  let satnum ← vecSet props.satnum activel_index cell.sattable
  let pvtnum ← vecSet props.pvtnum activel_index cell.pvttable
  let cell_depth ← vecSet props.cell_depth activel_index cell.depth
  pure { pore_volume := pore_volume, satnum := satnum, pvtnum := pvtnum, cell_depth := cell_depth }

/-- The function `SingleNumericalAquifer::updateCellProps` (NumericalAquifer.cpp:208-220): the
four arrays after the call. -/
def SingleNumericalAquifer.updateCellProps (self : SingleNumericalAquifer) (grid : EclipseGrid)
    (props : CellProps) : Except Error CellProps :=
  self.cells_.foldlM (SingleNumericalAquifer.updateCell grid) props

/-- The function `NumericalAquifers::updateCellProps` (NumericalAquifer.cpp:106-114): the four
arrays after the call. -/
def NumericalAquifers.updateCellProps (self : NumericalAquifers) (grid : EclipseGrid)
    (props : CellProps) : Except Error CellProps :=
  self.aquifers_.foldlM (fun props iter => iter.2.updateCellProps grid props) props

/-- The function `NumericalAquifers::transToRemove` (NumericalAquifer.cpp:116-126);
`std::set::merge` leaves in `trans[i]` the union of the two sets. -/
def NumericalAquifers.transToRemove (self : NumericalAquifers) (grid : EclipseGrid) :
    Finset Nat × Finset Nat × Finset Nat :=
  self.aquifers_.foldl (fun trans pair =>
    let trans_aquifer := pair.2.transToRemove grid
    (trans.1 ∪ trans_aquifer.1, trans.2.1 ∪ trans_aquifer.2.1, trans.2.2 ∪ trans_aquifer.2.2))
    (∅, ∅, ∅)

/-! ## NumericalAquiferCell.cpp -/

namespace CellCpp

/-- The aggregate `NumericalAquiferCell` as
Aquifer/NumericalAquifer/NumericalAquiferCell.cpp:30-75 fills it and `operator==` (lines 81-96)
reads it. -/
structure NumericalAquiferCell where
  aquifer_id : Int
  I : Int
  J : Int
  K : Int
  area : ℚ
  length : ℚ
  porosity : ℚ
  permeability : ℚ
  depth : ℚ
  init_pressure : Option ℚ
  pvttable : Int
  sattable : Int
  transmissibility : ℚ
  global_index : Nat
  deriving DecidableEq

/-- The constructor `NumericalAquiferCell::NumericalAquiferCell` of NumericalAquiferCell.cpp:30-75:
a defaulted item is read from the field-property array at `grid.activeIndex(global_index)`, a
defaulted depth from `grid.getCellDepth(global_index)`. -/
def NumericalAquiferCell.construct (record : AqunumRecord) (grid : EclipseGrid)
    (field_props : FieldPropsManager) : Except Error NumericalAquiferCell := do
  let I := record.I - 1
  let J := record.J - 1
  let K := record.K - 1
  let area := record.CROSS_SECTION
  let length := record.LENGTH
  let permeability := record.PERM
  let poro := field_props.get_double "PORO"
  let pvtnum := field_props.get_int "PVTNUM"
  let satnum := field_props.get_int "SATNUM"
  let global_index := grid.getGlobalIndex (toSizeT I) (toSizeT J) (toSizeT K)
  let active_index ← grid.activeIndex global_index
  let porosity ← itemOr record.PORO poro active_index
  let depth := match record.DEPTH with
    | some v => v
    | none => grid.getCellDepth global_index
  let init_pressure := record.INITIAL_PRESSURE
  let pvttable ← itemOr record.PVT_TABLE_NUM pvtnum active_index
  let sattable ← itemOr record.SAT_TABLE_NUM satnum active_index
  pure
    { aquifer_id := record.AQUIFER_ID
      I := I
      J := J
      K := K
      area := area
      length := length
      porosity := porosity
      permeability := permeability
      depth := depth
      init_pressure := init_pressure
      pvttable := pvttable
      sattable := sattable
      transmissibility := 2 * permeability * area / length
      global_index := global_index }

/-- The function `NumericalAquiferCell::cellVolume` (NumericalAquiferCell.cpp:77-79). -/
def NumericalAquiferCell.cellVolume (self : NumericalAquiferCell) : ℚ :=
  self.area * self.length

/-- The function `NumericalAquiferCell::poreVolume` (NumericalAquiferCell.cpp:98-100). -/
def NumericalAquiferCell.poreVolume (self : NumericalAquiferCell) : ℚ :=
  self.porosity * self.cellVolume

/-- The function `NumericalAquiferCell::operator==` (NumericalAquiferCell.cpp:81-96), the
comparisons in the order of the source; `double` values are exact numbers. -/
def NumericalAquiferCell.eq (self other : NumericalAquiferCell) : Bool :=
  decide (self.aquifer_id = other.aquifer_id) &&
    decide (self.I = other.I) &&
    decide (self.J = other.J) &&
    decide (self.K = other.K) &&
    decide (self.area = other.area) &&
    decide (self.length = other.length) &&
    decide (self.porosity = other.porosity) &&
    decide (self.permeability = other.permeability) &&
    decide (self.depth = other.depth) &&
    decide (self.init_pressure = other.init_pressure) &&
    decide (self.pvttable = other.pvttable) &&
    decide (self.sattable = other.sattable) &&
    decide (self.transmissibility = other.transmissibility) &&
    decide (self.global_index = other.global_index)

end CellCpp

/-! ## AquiferConfig.cpp and AquiferConfig.hpp -/

/-- Modelled from the spec: the classes `Aquifetp` and `AquiferCT` are not under `src/`.  One
analytic aquifer (spec §3): its integer id with its strength and PVT parameters. -/
structure AnalyticAquifer where
  id : Int
  parameters : List ℚ
  deriving DecidableEq

/-- Modelled from the spec: `Aquifetp.hpp` is not under `src/`.  The Fetkovich aquifers, one
entry per aquifer (spec §2, §3). -/
structure Aquifetp where
  aquifers : List AnalyticAquifer
  deriving DecidableEq

/-- Modelled from the spec: `Aquifetp.hpp` is not under `src/`.  The number of Fetkovich
aquifers. -/
def Aquifetp.size (self : Aquifetp) : Nat := self.aquifers.length

/-- Modelled from the spec: `Aquifetp.hpp` is not under `src/`.  The model recognises the id:
one of its aquifers has it. -/
def Aquifetp.hasAquifer (self : Aquifetp) (aquID : Int) : Bool :=
  self.aquifers.any fun a => decide (a.id = aquID)

/-- Modelled from the spec: `AquiferCT.hpp` is not under `src/`.  The Carter-Tracy aquifers, one
entry per aquifer (spec §2, §3). -/
structure AquiferCT where
  aquifers : List AnalyticAquifer
  deriving DecidableEq

/-- Modelled from the spec: `AquiferCT.hpp` is not under `src/`.  The number of Carter-Tracy
aquifers. -/
def AquiferCT.size (self : AquiferCT) : Nat := self.aquifers.length

/-- Modelled from the spec: `AquiferCT.hpp` is not under `src/`.  The model recognises the id:
one of its aquifers has it. -/
def AquiferCT.hasAquifer (self : AquiferCT) (aquID : Int) : Bool :=
  self.aquifers.any fun a => decide (a.id = aquID)

/-- Modelled from the spec: `NumericalAquifers::size` is declared in a header that is not under
`src/`.  The number of aquifers of the registry. -/
def NumericalAquifers.size (self : NumericalAquifers) : Nat := self.aquifers_.length

/-- The object `AquiferConfig` (AquiferConfig.hpp:67-71).  The class `Aquancon` of the
connection geometry of the analytic aquifers is not under `src/`; it is a type parameter. -/
structure AquiferConfig (Aquancon : Type) where
  aquifetp : Aquifetp
  aquiferct : AquiferCT
  numerical_aquifers : NumericalAquifers
  aqconn : Aquancon

/-- The default constructor `AquiferConfig()` (AquiferConfig.hpp:37): every member is default
constructed, `conn` being the default constructed `Aquancon`. -/
def AquiferConfig.default {Aquancon : Type} (conn : Aquancon) : AquiferConfig Aquancon :=
  { aquifetp := ⟨[]⟩, aquiferct := ⟨[]⟩, numerical_aquifers := ⟨[]⟩, aqconn := conn }

/-- The function `AquiferConfig::serializeObject` (AquiferConfig.cpp:44-53); the arguments are
the values of `serializeObject()` of the four members. -/
def AquiferConfig.serializeObject {Aquancon : Type} (fetp : Aquifetp) (ct : AquiferCT)
    (conn : Aquancon) (num : NumericalAquifers) : AquiferConfig Aquancon :=
  { aquifetp := fetp, aquiferct := ct, aqconn := conn, numerical_aquifers := num }

/-- The function `AquiferConfig::hasNumericalAquifer` (AquiferConfig.cpp:85-87). -/
def AquiferConfig.hasNumericalAquifer {Aquancon : Type} (self : AquiferConfig Aquancon) : Bool :=
  decide (self.numerical_aquifers.size > 0)

/-- The function `AquiferConfig::hasAnalyticalAquifer` (AquiferConfig.cpp:97-100). -/
def AquiferConfig.hasAnalyticalAquifer {Aquancon : Type} (self : AquiferConfig Aquancon) : Bool :=
  decide (self.aquiferct.size > 0) || decide (self.aquifetp.size > 0)

/-- The function `AquiferConfig::active` (AquiferConfig.cpp:55-58). -/
def AquiferConfig.active {Aquancon : Type} (self : AquiferConfig Aquancon) : Bool :=
  self.hasAnalyticalAquifer || self.hasNumericalAquifer

/-- The function `AquiferConfig::operator==` (AquiferConfig.cpp:60-65); `==` of a member is
equality of its value. -/
def AquiferConfig.eq {Aquancon : Type} [DecidableEq Aquancon] (self other : AquiferConfig Aquancon) :
    Bool :=
  decide (self.aquifetp = other.aquifetp) &&
    decide (self.aquiferct = other.aquiferct) &&
    decide (self.aqconn = other.aqconn) &&
    decide (self.numerical_aquifers = other.numerical_aquifers)

/-- The function `AquiferConfig::hasAquifer` (AquiferConfig.cpp:79-83). -/
def AquiferConfig.hasAquifer {Aquancon : Type} (self : AquiferConfig Aquancon) (aquID : Int) :
    Bool :=
  self.aquifetp.hasAquifer aquID ||
    self.aquiferct.hasAquifer aquID ||
    self.numerical_aquifers.hasAquifer aquID

/-- The function `AquiferConfig::load_connections` (AquiferConfig.cpp:40-42); the constructor
`Aquancon(grid, deck)` of the class that is not under `src/` is the parameter `aquancon`. -/
def AquiferConfig.load_connections {Aquancon : Type} (aquancon : EclipseGrid → Deck → Aquancon)
    (self : AquiferConfig Aquancon) (deck : Deck) (grid : EclipseGrid) : AquiferConfig Aquancon :=
  { self with aqconn := aquancon grid deck }

/-- A serializer, whose class is not under `src/`: it either packs objects into a buffer of
tokens, appending at the end, or unpacks objects from a buffer, consuming it from the front. -/
inductive Serializer (Tok : Type) where
  | packing (buffer : List Tok)
  | unpacking (buffer : List Tok)

/-- What `serializeOp(serializer)` of an object of type `T` does: the object and the serializer
after the call, `none` when the buffer does not hold an object. -/
abbrev SerializeOp (Tok T : Type) := T → Serializer Tok → Option (T × Serializer Tok)

/-- The function template `AquiferConfig::serializeOp` (AquiferConfig.hpp:58-65): the
`serializeOp` of the four members in turn, on the same serializer.  The four operations of the
members are parameters. -/
def AquiferConfig.serializeOp {Tok Aquancon : Type} (opFetp : SerializeOp Tok Aquifetp)
    (opCt : SerializeOp Tok AquiferCT) (opConn : SerializeOp Tok Aquancon)
    (opNum : SerializeOp Tok NumericalAquifers) :
    SerializeOp Tok (AquiferConfig Aquancon) :=
  fun self serializer => do
    let (aquifetp, serializer) ← opFetp self.aquifetp serializer
    let (aquiferct, serializer) ← opCt self.aquiferct serializer
    let (aqconn, serializer) ← opConn self.aqconn serializer
    let (numerical_aquifers, serializer) ← opNum self.numerical_aquifers serializer
    pure ({ aquifetp := aquifetp, aquiferct := aquiferct, aqconn := aqconn,
            numerical_aquifers := numerical_aquifers }, serializer)

/-- The operation `op` round-trips: packing an object leaves the object as it is and appends
its encoding to the buffer, and unpacking from a buffer that starts with the encoding of an
object `x` replaces the target by `x` and consumes exactly that encoding. -/
def SerializeOp.RoundTrips {Tok T : Type} (op : SerializeOp Tok T) : Prop :=
  ∃ encode : T → List Tok,
    (∀ x buffer, op x (.packing buffer) = some (x, .packing (buffer ++ encode x))) ∧
    (∀ x target rest, op target (.unpacking (encode x ++ rest)) = some (x, .unpacking rest))

/-! ## AquiferConstantFlux.cpp and AquiferConstantFlux.hpp -/

/-- The aggregate `SingleAquiferConstantFlux` (AquiferConstantFlux.hpp:32-42). -/
structure SingleAquiferConstantFlux where
  id : Int
  aquifer_flux : ℚ
  salt_concentration : ℚ
  temperature : Option ℚ
  datum_pressure : Option ℚ
  deriving DecidableEq

/-- The constructor `SingleAquiferConstantFlux::SingleAquiferConstantFlux`
(AquiferConstantFlux.cpp:27-39). -/
def SingleAquiferConstantFlux.construct (record : AqufluxRecord) : SingleAquiferConstantFlux :=
  { id := record.AQUIFER_ID
    aquifer_flux := record.FLUX
    salt_concentration := record.SC_0
    temperature := record.TEMP
    datum_pressure := record.PRESSURE }

/-- A `std::unordered_map`: its entries, in an order that no caller may rely on. -/
abbrev UnorderedMap (κ β : Type) := List (κ × β)

/-- The function `m.insert_or_assign(k, v)`: the entry of the key `k` gets the value `v`, a key
that is absent gets a new entry. -/
def UnorderedMap.insert_or_assign {κ β : Type} [DecidableEq κ] :
    UnorderedMap κ β → κ → β → UnorderedMap κ β
  | [], k, v => [(k, v)]
  | (k', v') :: m, k, v =>
    if k' = k then (k', v) :: m else (k', v') :: UnorderedMap.insert_or_assign m k v

/-- The lookup `m.find(k)`, `none` for `m.end()`. -/
def UnorderedMap.find? {κ β : Type} [DecidableEq κ] : UnorderedMap κ β → κ → Option β
  | [], _ => none
  | (k', v) :: m, k => if k' = k then some v else UnorderedMap.find? m k

/-- The object `AquiferConstantFlux` (AquiferConstantFlux.hpp:45-54). -/
structure AquiferConstantFlux where
  m_aquifers : UnorderedMap Int SingleAquiferConstantFlux
  deriving DecidableEq

/-- The function `AquiferConstantFlux::handleAQUFLUX` (AquiferConstantFlux.cpp:54-57). -/
def AquiferConstantFlux.handleAQUFLUX (self : AquiferConstantFlux) (record : AqufluxRecord) :
    AquiferConstantFlux :=
  let aquifer := SingleAquiferConstantFlux.construct record
  ⟨UnorderedMap.insert_or_assign self.m_aquifers aquifer.id aquifer⟩

/-- The constructor `AquiferConstantFlux::AquiferConstantFlux(deck)`
(AquiferConstantFlux.cpp:41-52): the records of `deck.get<AQUFLUX>().front()`. -/
def AquiferConstantFlux.construct (deck : Deck) : AquiferConstantFlux :=
  match deck.AQUFLUX with
  | [] => ⟨[]⟩
  | aquflux_keyword :: _ =>
    aquflux_keyword.foldl (fun self record =>
      let aquifer := SingleAquiferConstantFlux.construct record
      ⟨UnorderedMap.insert_or_assign self.m_aquifers aquifer.id aquifer⟩) ⟨[]⟩

/-! ## Valve.cpp and Valve.hpp -/

/-- One record of the keyword `WSEGVALV`: the trimmed well name, the segment number, the two
items that always have a value, the trimmed status string, and the five items that may be
defaulted (`none` where `defaultApplied(0)` holds). -/
structure WsegvalvRecord where
  WELL : String
  SEGMENT_NUMBER : Int
  CV : ℚ
  AREA : ℚ
  EXTRA_LENGTH : Option ℚ
  PIPE_D : Option ℚ
  ROUGHNESS : Option ℚ
  PIPE_A : Option ℚ
  STATUS : String
  MAX_A : Option ℚ

/-- The enumeration `Valve::Status` (Valve.hpp:35-38). -/
inductive Valve.Status where
  | OPEN
  | SHUT
  deriving DecidableEq, Repr

/-- The object `Valve` (Valve.hpp:64-72). -/
structure Valve where
  m_flow_coef : ℚ
  m_cross_area : ℚ
  m_additional_length : ℚ
  m_pipe_diameter : ℚ
  m_abs_roughness : ℚ
  m_pipe_cross_area : ℚ
  m_status : Valve.Status
  m_max_cross_area : ℚ
  deriving DecidableEq

/-- The constant `value_for_default = -1.e100` of Valve.cpp:34. -/
def Valve.value_for_default : ℚ := -(10 ^ 100)

/-- The pattern `if (item.defaultApplied(0)) x = value_for_default; else x = item.get(0);` of
the constructor. -/
def Valve.orDefault (item : Option ℚ) : ℚ :=
  match item with
  | none => Valve.value_for_default
  | some v => v

/-- The constructor `Valve::Valve` (Valve.cpp:29-74). -/
def Valve.construct (record : WsegvalvRecord) : Valve :=
  { m_flow_coef := record.CV
    m_cross_area := record.AREA
    m_additional_length := Valve.orDefault record.EXTRA_LENGTH
    m_pipe_diameter := Valve.orDefault record.PIPE_D
    m_abs_roughness := Valve.orDefault record.ROUGHNESS
    m_pipe_cross_area := Valve.orDefault record.PIPE_A
    m_status := if record.STATUS = "OPEN" then .OPEN else .SHUT
    m_max_cross_area := Valve.orDefault record.MAX_A }

/-- The function `Valve::status` (Valve.cpp:93-95). -/
def Valve.status (self : Valve) : Valve.Status := self.m_status

/-- The function `Valve::flowCoefficient` (Valve.cpp:97-99). -/
def Valve.flowCoefficient (self : Valve) : ℚ := self.m_flow_coef

/-- The function `Valve::crossArea` (Valve.cpp:101-103). -/
def Valve.crossArea (self : Valve) : ℚ := self.m_cross_area

/-- The function `Valve::additionalLength` (Valve.cpp:105-107). -/
def Valve.additionalLength (self : Valve) : ℚ := self.m_additional_length

/-- The function `Valve::pipeDiameter` (Valve.cpp:109-111). -/
def Valve.pipeDiameter (self : Valve) : ℚ := self.m_pipe_diameter

/-- The function `Valve::absRoughness` (Valve.cpp:113-115). -/
def Valve.absRoughness (self : Valve) : ℚ := self.m_abs_roughness

/-- The function `Valve::pipeCrossArea` (Valve.cpp:117-119). -/
def Valve.pipeCrossArea (self : Valve) : ℚ := self.m_pipe_cross_area

/-- The function `Valve::maxCrossArea` (Valve.cpp:121-123). -/
def Valve.maxCrossArea (self : Valve) : ℚ := self.m_max_cross_area

/-- The body of the loop of `Valve::fromWSEGVAVLV` (Valve.cpp:82-87): `res[well_name]` is looked
up (an absent name has the empty vector) and the pair is pushed back. -/
def Valve.addRecord (res : StdMap String (List (Int × Valve))) (record : WsegvalvRecord) :
    StdMap String (List (Int × Valve)) :=
  let well_name := record.WELL
  let segment_number := record.SEGMENT_NUMBER
  let valve := Valve.construct record
  StdMap.set res well_name ((StdMap.find? res well_name).getD [] ++ [(segment_number, valve)])

/-- The function `Valve::fromWSEGVAVLV` (Valve.cpp:76-91). -/
def Valve.fromWSEGVAVLV (keyword : List WsegvalvRecord) : StdMap String (List (Int × Valve)) :=
  keyword.foldl Valve.addRecord []

/-! ## opm/output/data/Aquifer.hpp -/

namespace data

/-- The enumeration `AquiferType` (Aquifer.hpp:35-38). -/
inductive AquiferType where
  | Fetkovich | CarterTracey | Numerical
  deriving DecidableEq, Repr

/-- The aggregate `FetkovichData` (Aquifer.hpp:40-44). -/
structure FetkovichData where
  initVolume : ℚ
  prodIndex : ℚ
  timeConstant : ℚ
  deriving DecidableEq

/-- The aggregate `AquiferData` (Aquifer.hpp:46-56); the `std::shared_ptr<FetkovichData>` is
`none` when it is null and holds the data it points to otherwise. -/
structure AquiferData where
  aquiferID : Int
  pressure : ℚ
  fluxRate : ℚ
  volume : ℚ
  initPressure : ℚ
  datumDepth : ℚ
  type : AquiferType
  aquFet : Option FetkovichData
  deriving DecidableEq

/-- A default-constructed `AquiferData` (Aquifer.hpp:47-55): the six numbers are zero and the
pointer is null; the member `type` has no initialiser, its value `type` is arbitrary. -/
def AquiferData.default (type : AquiferType) : AquiferData :=
  { aquiferID := 0, pressure := 0, fluxRate := 0, volume := 0, initPressure := 0
    datumDepth := 0, type := type, aquFet := none }

/-- The function `AquiferData::get` (Aquifer.hpp:58-68). -/
def AquiferData.get (self : AquiferData) (key : String) : ℚ :=
  if key = "AAQR" ∨ key = "ANQR" then self.fluxRate
  else if key = "AAQT" ∨ key = "ANQT" then self.volume
  else if key = "AAQP" ∨ key = "ANQP" then self.pressure
  else 0

/-- A value in a message buffer: an `int` or a `double`. -/
inductive BufferValue where
  | int (v : Int)
  | double (v : ℚ)
  deriving DecidableEq

/-- The template parameter `MessageBufferType` of `write` and `read`, for which the source asks
an interface like `Dune::MessageBufferIF`; no such class is under `src/`.  The buffer is a queue:
the values written and not yet read, the oldest first. -/
abbrev MessageBuffer := List BufferValue

/-- The call `buffer.write(v)` for an `int`: the value joins the end of the queue. -/
def MessageBuffer.writeInt (buffer : MessageBuffer) (v : Int) : MessageBuffer :=
  buffer ++ [.int v]

/-- The call `buffer.write(v)` for a `double`. -/
def MessageBuffer.writeDouble (buffer : MessageBuffer) (v : ℚ) : MessageBuffer :=
  buffer ++ [.double v]

/-- The call `buffer.read(v)` for an `int`: the value at the front of the queue and the rest of
the queue.  Reading from an empty buffer, or reading a `double` as an `int`, has no defined
result. -/
def MessageBuffer.readInt (buffer : MessageBuffer) : Except Error (Int × MessageBuffer) :=
  match buffer with
  | .int v :: rest => .ok (v, rest)
  | _ => .error .undefined

/-- The call `buffer.read(v)` for a `double`. -/
def MessageBuffer.readDouble (buffer : MessageBuffer) : Except Error (ℚ × MessageBuffer) :=
  match buffer with
  | .double v :: rest => .ok (v, rest)
  | _ => .error .undefined

/-- The function `AquiferData::write` (Aquifer.hpp:71-86): the buffer after the call. -/
def AquiferData.write (self : AquiferData) (buffer : MessageBuffer) : MessageBuffer :=
  let buffer := MessageBuffer.writeInt buffer self.aquiferID
  let buffer := MessageBuffer.writeDouble buffer self.pressure
  let buffer := MessageBuffer.writeDouble buffer self.fluxRate
  let buffer := MessageBuffer.writeDouble buffer self.volume
  let buffer := MessageBuffer.writeDouble buffer self.initPressure
  let buffer := MessageBuffer.writeDouble buffer self.datumDepth
  let aqu : Int := if self.aquFet.isSome then 1 else 0
  let buffer := MessageBuffer.writeInt buffer aqu
  match self.aquFet with
  | some aquFet =>
    let buffer := MessageBuffer.writeDouble buffer aquFet.initVolume
    let buffer := MessageBuffer.writeDouble buffer aquFet.prodIndex
    MessageBuffer.writeDouble buffer aquFet.timeConstant
  | none => buffer

/-- The function `AquiferData::read` (Aquifer.hpp:89-106): the object and the buffer after the
call.  `std::make_shared<FetkovichData>()` holds three zeros. -/
def AquiferData.read (self : AquiferData) (buffer : MessageBuffer) :
    Except Error (AquiferData × MessageBuffer) := do
  let (aquiferID, buffer) ← MessageBuffer.readInt buffer
  let (pressure, buffer) ← MessageBuffer.readDouble buffer
  let (fluxRate, buffer) ← MessageBuffer.readDouble buffer
  let (volume, buffer) ← MessageBuffer.readDouble buffer
  let (initPressure, buffer) ← MessageBuffer.readDouble buffer
  let (datumDepth, buffer) ← MessageBuffer.readDouble buffer
  let self := { self with
    aquiferID := aquiferID, pressure := pressure, fluxRate := fluxRate, volume := volume
    initPressure := initPressure, datumDepth := datumDepth }
  let (aqu, buffer) ← MessageBuffer.readInt buffer
  if aqu = 1 then
    let aquFet : FetkovichData := match self.aquFet with
      | none => { initVolume := 0, prodIndex := 0, timeConstant := 0 }
      | some aquFet => aquFet
    let (initVolume, buffer) ← MessageBuffer.readDouble buffer
    let aquFet := { aquFet with initVolume := initVolume }
    let (prodIndex, buffer) ← MessageBuffer.readDouble buffer
    let aquFet := { aquFet with prodIndex := prodIndex }
    let (timeConstant, buffer) ← MessageBuffer.readDouble buffer
    let aquFet := { aquFet with timeConstant := timeConstant }
    pure ({ self with aquFet := some aquFet }, buffer)
  else
    pure (self, buffer)

end data

/-! ## Specification-side notions for `generateConnections` -/

/-- The cells of the inclusive range `i1..i2 × j1..j2 × k1..k2`, `k` outermost and `i`
innermost. -/
def rangeCells (i1 i2 j1 j2 k1 k2 : Nat) : List (Nat × Nat × Nat) :=
  (List.range' k1 (k2 + 1 - k1)).flatMap fun k =>
    (List.range' j1 (j2 + 1 - j1)).flatMap fun j =>
      (List.range' i1 (i2 + 1 - i1)).map fun i => (i, j, k)

/-- The zero-based range of a record whose six bounds are at least one. -/
def AquconRecord.cells (record : AquconRecord) : List (Nat × Nat × Nat) :=
  rangeCells (record.I1 - 1).toNat (record.I2 - 1).toNat (record.J1 - 1).toNat
    (record.J2 - 1).toNat (record.K1 - 1).toNat (record.K2 - 1).toNat

/-- The cell `c` is active in `actnum`, and internal cells are allowed or the neighbour of `c`
across the declared face is not an active cell of the grid. -/
def AquconRecord.selects (grid : EclipseGrid) (record : AquconRecord) (actnum : List Int)
    (c : Nat × Nat × Nat) : Bool :=
  (actnum.getD (grid.getGlobalIndex c.1 c.2.1 c.2.2) 0 != 0) &&
    (record.ALLOW_INTERNAL_CELLS ||
      !AquiferHelpers.cellInsideReservoirAndActive grid
        (record.CONNECT_FACE.neighbor c.1 c.2.1 c.2.2).1
        (record.CONNECT_FACE.neighbor c.1 c.2.1 c.2.2).2.1
        (record.CONNECT_FACE.neighbor c.1 c.2.1 c.2.2).2.2 actnum)

/-- The record's one-based bounds are at least one and, as `int`, below `2^31`; its range lies
inside the grid, and the bitmap has an entry for every cell of the grid. -/
structure AquconRecord.InGrid (grid : EclipseGrid) (record : AquconRecord)
    (actnum : List Int) : Prop where
  hI1 : 1 ≤ record.I1 ∧ record.I1 ≤ grid.nx
  hJ1 : 1 ≤ record.J1 ∧ record.J1 ≤ grid.ny
  hK1 : 1 ≤ record.K1 ∧ record.K1 ≤ grid.nz
  hI2 : 1 ≤ record.I2 ∧ record.I2 ≤ grid.nx
  hJ2 : 1 ≤ record.J2 ∧ record.J2 ≤ grid.ny
  hK2 : 1 ≤ record.K2 ∧ record.K2 ≤ grid.nz
  hnx : grid.nx < 2 ^ 31
  hny : grid.ny < 2 ^ 31
  hnz : grid.nz < 2 ^ 31
  hact : ∀ i j k, i < grid.nx → j < grid.ny → k < grid.nz →
    grid.getGlobalIndex i j k < actnum.length

/-- The order of enumeration "`k` outermost, `i` innermost": `a` comes before `b`. -/
def cellBefore (a b : Nat × Nat × Nat) : Prop :=
  a.2.2 < b.2.2 ∨ (a.2.2 = b.2.2 ∧ (a.2.1 < b.2.1 ∨ (a.2.1 = b.2.1 ∧ a.1 < b.1)))

/-- The zero-based coordinates of a connection. -/
def NumAquiferCon.coords (c : NumAquiferCon) : Nat × Nat × Nat := (c.I, c.J, c.K)

/-! ## Concrete inputs -/

/-- A Cartesian grid of `nx × ny × nz` cells with the natural numbering
`i + j * nx + k * nx * ny`, in which the active cells are the ones marked in `actnum` and are
numbered consecutively, and in which the cell with global index `g` has the depth `100 * g`. -/
def cartesianGrid (nx ny nz : Nat) (actnum : List Int) : EclipseGrid :=
  { nx := nx
    ny := ny
    nz := nz
    getGlobalIndex := fun i j k => i + j * nx + k * nx * ny
    cellActive := fun i j k => actnum.getD (i + j * nx + k * nx * ny) 0 != 0
    activeIndexOpt := fun g =>
      if actnum.getD g 0 != 0 then some ((actnum.take g).countP (fun a => a != 0)) else none
    getCellDepth := fun g => 100 * g }

/-- An `AQUCON` record for aquifer `id` with the given one-based range, face and flag; the
multiplier is one and the remaining items are zero. -/
def aquconRecord (id i1 i2 j1 j2 k1 k2 : Int) (face : FaceDir) (allow : Bool) : AquconRecord :=
  { ID := id, I1 := i1, I2 := i2, J1 := j1, J2 := j2, K1 := k1, K2 := k2
    CONNECT_FACE := face, TRANS_MULT := 1, TRANS_OPTION := 0
    ALLOW_INTERNAL_CELLS := allow, VEFRAC := 0, VEFRACP := 0 }

/-- An `AQUNUM` record for aquifer `id` at the one-based cell `(i, j, k)` with unit area,
length and permeability and every other item defaulted. -/
def aqunumRecord (id i j k : Int) : AqunumRecord :=
  { AQUIFER_ID := id, I := i, J := j, K := k
    CROSS_SECTION := 1, LENGTH := 1, PERM := 1
    PORO := none, DEPTH := none, INITIAL_PRESSURE := none
    PVT_TABLE_NUM := none, SAT_TABLE_NUM := none }

/-- Field properties of a grid whose `n` cells are all active: porosity `1/4` and table numbers
`1` everywhere, and the depth `100 * g` for the cell `g`. -/
def uniformProps (n : Nat) : FieldPropsManager :=
  { get_double := fun _ => List.replicate n (1 / 4)
    get_int := fun _ => List.replicate n 1
    cellDepth := (List.range n).map fun g => 100 * (g : ℚ) }

/-- A row of three active cells. -/
def rowGrid : EclipseGrid := cartesianGrid 3 1 1 [1, 1, 1]

/-- A deck for `rowGrid`: aquifer 1 owns the middle cell; one `AQUCON` occurrence connects it to
the last cell of the row across `I+`, a second one to the first cell across `I-`. -/
def rowDeck : Deck :=
  { AQUNUM := [[aqunumRecord 1 2 1 1]]
    AQUCON := [[aquconRecord 1 3 3 1 1 1 1 .XPlus false],
      [aquconRecord 1 1 1 1 1 1 1 .XMinus false]] }

/-- A deck for `rowGrid` in which two `AQUNUM` occurrences give the middle cell to the aquifers
1 and 2. -/
def clashDeck : Deck :=
  { AQUNUM := [[aqunumRecord 1 2 1 1], [aqunumRecord 2 2 1 1]]
    AQUCON := [[aquconRecord 1 3 3 1 1 1 1 .XPlus false]] }

/-- A deck for `rowGrid`: aquifer 1 owns the middle cell, and its one `AQUCON` record declares
the whole row, internal cells allowed. -/
def ownCellDeck : Deck :=
  { AQUNUM := [[aqunumRecord 1 2 1 1]]
    AQUCON := [[aquconRecord 1 1 3 1 1 1 1 .XPlus true]] }

/-- A deck for `rowGrid`: aquifer 1 owns the middle cell, and its one `AQUCON` record declares
the first cell of the row across `I+`, internal cells not allowed; the neighbour of that cell
across `I+` is the active middle cell, so the declared cell is an interior cell. -/
def interiorDeck : Deck :=
  { AQUNUM := [[aqunumRecord 1 2 1 1]]
    AQUCON := [[aquconRecord 1 1 1 1 1 1 1 .XPlus false]] }

/-- A row of two active cells. -/
def pairGrid : EclipseGrid := cartesianGrid 2 1 1 [1, 1]

/-- A deck for `pairGrid`: aquifer 1 owns the first cell and is connected to the second cell
across `I+`. -/
def pairDeck : Deck :=
  { AQUNUM := [[aqunumRecord 1 1 1 1]]
    AQUCON := [[aquconRecord 1 2 2 1 1 1 1 .XPlus false]] }

/-- A row of three cells of which the first is inactive: the cell with global index 1 has the
active index 0, the cell with global index 2 the active index 1. -/
def gapGrid : EclipseGrid := cartesianGrid 3 1 1 [0, 1, 1]

/-- Field properties for `gapGrid`, one entry per active cell: the cell with active index 0 has
porosity `1/4`, tables 1 and depth 100; the cell with active index 1 has porosity `1/2`, tables 2
and depth 200. -/
def gapProps : FieldPropsManager :=
  { get_double := fun _ => [1 / 4, 1 / 2]
    get_int := fun _ => [1, 2]
    cellDepth := [100, 200] }

/-- Four arrays of `n` zeros. -/
def zeroProps (n : Nat) : CellProps :=
  { pore_volume := List.replicate n 0
    satnum := List.replicate n 0
    pvtnum := List.replicate n 0
    cell_depth := List.replicate n 0 }

/-- A cell of NumericalAquiferCell.cpp for aquifer 1 at the zero-based cell `(1, 0, 0)` with unit
geometry and the initial pressure `pressure`. -/
def storageCell (pressure : Option ℚ) : CellCpp.NumericalAquiferCell :=
  { aquifer_id := 1, I := 1, J := 0, K := 0
    area := 1, length := 1, porosity := 1 / 4, permeability := 1, depth := 100
    init_pressure := pressure, pvttable := 1, sattable := 1
    transmissibility := 2, global_index := 1 }

/-- A deck for `rowGrid` with two `AQUNUM` occurrences: aquifer 2 owns the last cell of the row,
aquifer 1 the first; both are connected to the middle cell. -/
def sharedDeck : Deck :=
  { AQUNUM := [[aqunumRecord 2 3 1 1], [aqunumRecord 1 1 1 1]]
    AQUCON := [[aquconRecord 1 2 2 1 1 1 1 .XMinus true,
      aquconRecord 2 2 2 1 1 1 1 .XPlus true]] }

/-- A token that holds one whole member of an `AquiferConfig Nat`. -/
inductive PartToken where
  | fetp (x : Aquifetp)
  | ct (x : AquiferCT)
  | conn (x : Nat)
  | num (x : NumericalAquifers)

/-- A `serializeOp` that packs an object as the one token `inj x` and unpacks the object from
the first token of the buffer. -/
def tokenOp {Tok T : Type} (inj : T → Tok) (proj : Tok → Option T) : SerializeOp Tok T :=
  fun x serializer =>
    match serializer with
    | .packing buffer => some (x, .packing (buffer ++ [inj x]))
    | .unpacking [] => none
    | .unpacking (t :: rest) =>
      match proj t with
      | some y => some (y, .unpacking rest)
      | none => none

/-- The token operation of `Aquifetp`. -/
def fetpOp : SerializeOp PartToken Aquifetp :=
  tokenOp PartToken.fetp fun t =>
    match t with
    | .fetp x => some x
    | _ => none

/-- The token operation of `AquiferCT`. -/
def ctOp : SerializeOp PartToken AquiferCT :=
  tokenOp PartToken.ct fun t =>
    match t with
    | .ct x => some x
    | _ => none

/-- The token operation of the connection geometry. -/
def connOp : SerializeOp PartToken Nat :=
  tokenOp PartToken.conn fun t =>
    match t with
    | .conn x => some x
    | _ => none

/-- The token operation of `NumericalAquifers`. -/
def numOp : SerializeOp PartToken NumericalAquifers :=
  tokenOp PartToken.num fun t =>
    match t with
    | .num x => some x
    | _ => none

/-- The `serializeOp` of `AquiferConfig Nat` over the four token operations. -/
def tokenSerializeOp : SerializeOp PartToken (AquiferConfig Nat) :=
  AquiferConfig.serializeOp fetpOp ctOp connOp numOp

/-- A configuration with the Fetkovich aquifer 1, the Carter-Tracy aquifers 1 and 2, and no
numerical aquifer. -/
def analyticConfig : AquiferConfig Nat :=
  { aquifetp := ⟨[⟨1, [1 / 2]⟩]⟩
    aquiferct := ⟨[⟨1, [3]⟩, ⟨2, [4]⟩]⟩
    numerical_aquifers := ⟨[]⟩
    aqconn := 7 }

/-- An `AQUFLUX` record for aquifer `id` with the flux `flux`, no salt and no temperature or
pressure. -/
def aqufluxRecord (id : Int) (flux : ℚ) : AqufluxRecord :=
  { AQUIFER_ID := id, FLUX := flux, SC_0 := 0, TEMP := none, PRESSURE := none }

/-- A deck whose one `AQUFLUX` occurrence names aquifer 1 twice and aquifer 2 once. -/
def fluxDeck : Deck :=
  { AQUNUM := []
    AQUCON := []
    AQUFLUX := [[aqufluxRecord 1 10, aqufluxRecord 2 20, aqufluxRecord 1 30]] }

/-- A `WSEGVALV` record for the segment `segment` of the well `well`, open, with flow
coefficient `1/2`, area `1/10`, a given pipe diameter and the other items defaulted. -/
def wsegvalvRecord (well : String) (segment : Int) : WsegvalvRecord :=
  { WELL := well, SEGMENT_NUMBER := segment, CV := 1 / 2, AREA := 1 / 10
    EXTRA_LENGTH := none, PIPE_D := some (1 / 5), ROUGHNESS := none, PIPE_A := none
    STATUS := "OPEN", MAX_A := none }

/-- A `WSEGVALV` keyword with two records for the well `W2` around one for the well `W1`. -/
def valveKeyword : List WsegvalvRecord :=
  [wsegvalvRecord "W2" 5, wsegvalvRecord "W1" 3, wsegvalvRecord "W2" 2]

/-! ## Specification-side notions for the containers -/

/-- The connections that the `AQUCON` records generate, record after record. -/
def generatedConnections (grid : EclipseGrid) (actnum : List Int) :
    List AquconRecord → Except Error (List NumAquiferCon)
  | [] => .ok []
  | record :: records =>
    match NumAquiferCon.generateConnections grid record actnum with
    | .error e => .error e
    | .ok cons =>
      match generatedConnections grid actnum records with
      | .error e => .error e
      | .ok rest => .ok (cons ++ rest)

/-- The cells that the `AQUNUM` records resolve to, record after record. -/
def resolvedCells (grid : EclipseGrid) (field_props : FieldPropsManager) :
    List AqunumRecord → Except Error (List NumericalAquiferCell)
  | [] => .ok []
  | record :: records =>
    match NumericalAquiferCell.construct record grid field_props with
    | .error e => .error e
    | .ok cell =>
      match resolvedCells grid field_props records with
      | .error e => .error e
      | .ok rest => .ok (cell :: rest)

/-- The aquifer and the target cell of a connection. -/
def NumAquiferCon.key (c : NumAquiferCon) : Nat × Nat := (c.aquifer_id, c.global_index)

/-- The entries that the connections `cons` of the aquifer `aqu_id` contribute to its map. -/
def entriesOf (cons : List NumAquiferCon) (aqu_id : Nat) : List (Nat × NumAquiferCon) :=
  (cons.filter fun c => decide (c.aquifer_id = aqu_id)).map fun c => (c.global_index, c)

/-- The map that `connections_` holds for `aqu_id`, empty for an absent id. -/
def NumericalAquiferConnections.entries (connections : StdMap Nat (StdMap Nat NumAquiferCon))
    (aqu_id : Nat) : StdMap Nat NumAquiferCon :=
  (StdMap.find? connections aqu_id).getD []

/-- The map `connections` holds exactly the connections `cons`: no two of them share aquifer and
target cell, each aquifer's map consists of the entries of its connections in ascending key
order, and an aquifer has a map exactly when it has a connection. -/
structure NumericalAquiferConnections.Holds
    (connections : StdMap Nat (StdMap Nat NumAquiferCon)) (cons : List NumAquiferCon) : Prop where
  nodup : (cons.map NumAquiferCon.key).Nodup
  perm : ∀ aqu_id, (NumericalAquiferConnections.entries connections aqu_id).Perm
    (entriesOf cons aqu_id)
  sorted : ∀ aqu_id, ((NumericalAquiferConnections.entries connections aqu_id).map
    Prod.fst).Pairwise (· < ·)
  none_iff : ∀ aqu_id, StdMap.find? connections aqu_id = none ↔
    ∀ c ∈ cons, c.aquifer_id ≠ aqu_id

/-- The aquifer `aquifer` after the entries of the map `aqu_cons` have been offered to
`addAquiferConnection` in the order of the map (NumericalAquifer.cpp:96-98). -/
def SingleNumericalAquifer.bind (aquifer : SingleNumericalAquifer)
    (aqu_cons : StdMap Nat NumAquiferCon) : SingleNumericalAquifer :=
  aqu_cons.foldl (fun aquifer con => aquifer.addAquiferConnection con.2) aquifer

/-- The storage cells of a registry, aquifer after aquifer. -/
def NumericalAquifers.cells (self : NumericalAquifers) : List NumericalAquiferCell :=
  self.aquifers_.flatMap fun p => p.2.cells_

/-- The cells of `cells` that the records declare for the aquifer `id`, in the order of `cells`. -/
def cellsOf (cells : List NumericalAquiferCell) (id : Int) : List NumericalAquiferCell :=
  cells.filter fun c => decide (c.aquifer_id = id)

/-- The array `array` after the writes `array[index c] = value c` for the members `c` of a list,
in the order of the list. -/
def overwritten {γ α : Type} (index : γ → Nat) (value : γ → α) (l : List γ) (array : List α) :
    List α :=
  l.foldl (fun v c => v.set (index c) (value c)) array

/-- The active index of a cell, `0` for a cell that has none. -/
def EclipseGrid.activeOf (grid : EclipseGrid) (cell : NumericalAquiferCell) : Nat :=
  (grid.activeIndexOpt cell.global_index).getD 0

/-- The map `aquifers` stores exactly the cells `cells`: its keys ascend, and the aquifer `id`
is present exactly when `cells` has a cell of `id`, with those cells as its cell sequence and no
connection. -/
structure NumericalAquifers.Stores (aquifers : StdMap Int SingleNumericalAquifer)
    (cells : List NumericalAquiferCell) : Prop where
  sorted : (aquifers.map Prod.fst).Pairwise (· < ·)
  absent : ∀ id, cellsOf cells id = [] → StdMap.find? aquifers id = none
  present : ∀ id, cellsOf cells id ≠ [] →
    StdMap.find? aquifers id = some { id_ := id, cells_ := cellsOf cells id, connections_ := [] }

/-- The pairs that the records of `keyword` for the well `well` contribute, in record order. -/
def valvesOf (keyword : List WsegvalvRecord) (well : String) : List (Int × Valve) :=
  (keyword.filter fun r => decide (r.WELL = well)).map fun r =>
    (r.SEGMENT_NUMBER, Valve.construct r)

/-- The map `res` holds exactly the records `keyword`: its keys ascend, and a well is present
exactly when `keyword` has a record of it, with the pairs of those records as its list. -/
structure Valve.Holds (res : StdMap String (List (Int × Valve)))
    (keyword : List WsegvalvRecord) : Prop where
  sorted : (res.map Prod.fst).Pairwise (· < ·)
  absent : ∀ well, (∀ r ∈ keyword, r.WELL ≠ well) → StdMap.find? res well = none
  present : ∀ well, (∃ r ∈ keyword, r.WELL = well) →
    StdMap.find? res well = some (valvesOf keyword well)

/-- The connection `c` is the connection that `record` builds for a cell of its range, the
bounds of the range being the `size_t` values of the loops of `generateConnections`. -/
def NumAquiferCon.FromRecord (grid : EclipseGrid) (record : AquconRecord) (c : NumAquiferCon) :
    Prop :=
  ∃ i j k : Nat,
    (toSizeT (record.I1 - 1) ≤ i ∧ i ≤ toSizeT (record.I2 - 1)) ∧
    (toSizeT (record.J1 - 1) ≤ j ∧ j ≤ toSizeT (record.J2 - 1)) ∧
    (toSizeT (record.K1 - 1) ≤ k ∧ k ≤ toSizeT (record.K2 - 1)) ∧
    c = NumAquiferCon.ofCell grid record i j k

/-- The arrays `out` have the lengths of the arrays `props` and agree with them at every index
that satisfies `keep`. -/
def CellProps.AgreesOn (keep : Nat → Prop) (props out : CellProps) : Prop :=
  (out.pore_volume.length = props.pore_volume.length ∧ out.satnum.length = props.satnum.length ∧
    out.pvtnum.length = props.pvtnum.length ∧
    out.cell_depth.length = props.cell_depth.length) ∧
  ∀ i, keep i →
    out.pore_volume[i]? = props.pore_volume[i]? ∧ out.satnum[i]? = props.satnum[i]? ∧
    out.pvtnum[i]? = props.pvtnum[i]? ∧ out.cell_depth[i]? = props.cell_depth[i]?

/-! ## Specification-side notions for the message buffer -/

/-- The buffer after the calls `x.write(buffer)` for the members `x` of `xs`, in order. -/
def data.writeAll (xs : List data.AquiferData) (buffer : data.MessageBuffer) :
    data.MessageBuffer :=
  xs.foldl (fun buffer x => x.write buffer) buffer

/-- The objects and the buffer after the calls `target.read(buffer)` for the members `target`
of `targets`, in order. -/
def data.readAll : List data.AquiferData → data.MessageBuffer →
    Except Error (List data.AquiferData × data.MessageBuffer)
  | [], buffer => .ok ([], buffer)
  | target :: targets, buffer =>
    match target.read buffer with
    | .error e => .error e
    | .ok (out, buffer) =>
      match data.readAll targets buffer with
      | .error e => .error e
      | .ok (outs, buffer) => .ok (out :: outs, buffer)

/-- The values that `x.write` appends to a buffer. -/
def data.AquiferData.values (x : data.AquiferData) : List data.BufferValue :=
  [.int x.aquiferID, .double x.pressure, .double x.fluxRate, .double x.volume,
    .double x.initPressure, .double x.datumDepth, .int (if x.aquFet.isSome then 1 else 0)] ++
  match x.aquFet with
  | some aquFet =>
    [.double aquFet.initVolume, .double aquFet.prodIndex, .double aquFet.timeConstant]
  | none => []

/-- The object that holds the six numbers of `x`, the type of `target`, and the Fetkovich data of
`x` or, when `x` has none, those of `target`. -/
def data.AquiferData.received (target x : data.AquiferData) : data.AquiferData :=
  { x with
    type := target.type
    aquFet := match x.aquFet with
      | some aquFet => some aquFet
      | none => target.aquFet }

/-- An aquifer with the id `id`, with Fetkovich data when `fet` holds. -/
def aquiferData (id : Int) (fet : Bool) : data.AquiferData :=
  { aquiferID := id, pressure := 200, fluxRate := 3 / 2, volume := 40, initPressure := 250
    datumDepth := 2000, type := .Fetkovich
    aquFet := if fet then some { initVolume := 1000, prodIndex := 1 / 2, timeConstant := 7 }
      else none }

/-- A deck for `rowGrid`: aquifer 1 owns the first cell and is connected to the middle cell; a
second `AQUCON` record connects the last cell to aquifer 7, which has no `AQUNUM` record. -/
def orphanDeck : Deck :=
  { AQUNUM := [[aqunumRecord 1 1 1 1]]
    AQUCON := [[aquconRecord 1 2 2 1 1 1 1 .XMinus true,
      aquconRecord 7 3 3 1 1 1 1 .XPlus true]] }

/-- A deck with two `AQUFLUX` occurrences: the first names aquifer 1 twice, the second names
aquifer 1 again and aquifer 2. -/
def twoFluxDeck : Deck :=
  { AQUNUM := []
    AQUCON := []
    AQUFLUX := [[aqufluxRecord 1 10, aqufluxRecord 1 30],
      [aqufluxRecord 1 99, aqufluxRecord 2 20]] }
/-! ## Lemmas: loops -/

theorem except_bind_ok {α β : Type} (a : α) (f : α → Except Error β) :
    (Except.ok a >>= f) = f a := rfl

theorem except_bind_error {α β : Type} (e : Error) (f : α → Except Error β) :
    ((Except.error e : Except Error α) >>= f) = Except.error e := rfl

theorem foldlM_append {α β : Type} (step : List β → α → Except Error (List β))
    (ys : α → List β) (xs : List α)
    (h : ∀ x ∈ xs, ∀ acc, step acc x = .ok (acc ++ ys x)) (acc : List β) :
    xs.foldlM step acc = .ok (acc ++ xs.flatMap ys) := by
  induction xs generalizing acc with
  | nil => simp [List.foldlM, pure, Except.pure]
  | cons x xs ih =>
    rw [List.foldlM_cons, h x (List.mem_cons_self _ _), except_bind_ok,
      ih (fun y hy => h y (List.mem_cons_of_mem _ hy))]
    simp [List.append_assoc]

theorem flatMap_ite_singleton {α β : Type} (p : α → Bool) (f : α → β) (l : List α) :
    (l.flatMap fun x => if p x then [f x] else []) = (l.filter p).map f := by
  induction l with
  | nil => rfl
  | cons x l ih =>
    rw [List.flatMap_cons, ih]
    by_cases hp : p x <;> simp [hp]

theorem toSizeT_of_nonneg (x : Int) (h0 : 0 ≤ x) (h1 : x < 2 ^ 64) : toSizeT x = x.toNat := by
  unfold toSizeT
  rw [Int.emod_eq_of_lt h0 h1]

theorem sizeLoop_ok (lo hi : Nat) (h : hi < SIZE_MAX) :
    sizeLoop lo hi = .ok (List.range' lo (hi + 1 - lo)) := by
  unfold sizeLoop
  rw [if_neg (Nat.ne_of_lt h)]

theorem vecGet_ok {α : Type} (v : List α) (i : Nat) (h : i < v.length) :
    vecGet v i = .ok v[i] := by
  unfold vecGet
  rw [List.getElem?_eq_getElem h]

/-! ## Lemmas: `generateConnections` -/

theorem toSizeT_pred (x : Int) (n : Nat) (h1 : 1 ≤ x) (h2 : x ≤ n) (hn : n < 2 ^ 31) :
    toSizeT (x - 1) = (x - 1).toNat ∧ (x - 1).toNat < n ∧ (x - 1).toNat < SIZE_MAX := by
  have hx : x - 1 < 2 ^ 64 := by
    have : (n : Int) < 2 ^ 31 := by exact_mod_cast hn
    omega
  refine ⟨toSizeT_of_nonneg _ (by omega) hx, by omega, ?_⟩
  unfold SIZE_MAX
  omega

theorem visitCell_eq (grid : EclipseGrid) (record : AquconRecord) (actnum : List Int)
    (k j i : Nat) (cons : List NumAquiferCon)
    (hlt : grid.getGlobalIndex i j k < actnum.length) :
    NumAquiferCon.visitCell grid record actnum k j cons i =
      .ok (cons ++ if record.selects grid actnum (i, j, k)
        then [NumAquiferCon.ofCell grid record i j k] else []) := by
  unfold NumAquiferCon.visitCell
  rw [vecGet_ok _ _ hlt, except_bind_ok]
  have hget : actnum.getD (grid.getGlobalIndex i j k) 0 = actnum[grid.getGlobalIndex i j k] := by
    simp [List.getD_eq_getElem?_getD, List.getElem?_eq_getElem hlt]
  unfold AquconRecord.selects AquiferHelpers.neighborCellInsideReservoirAndActive
  simp only [hget]
  by_cases ha : actnum[grid.getGlobalIndex i j k] = 0
  · simp [ha, pure, Except.pure]
  · by_cases hb : (record.ALLOW_INTERNAL_CELLS ||
        !AquiferHelpers.cellInsideReservoirAndActive grid
          (record.CONNECT_FACE.neighbor i j k).1 (record.CONNECT_FACE.neighbor i j k).2.1
          (record.CONNECT_FACE.neighbor i j k).2.2 actnum) = true
    · simp only [ha, if_false, hb, if_true, pure, Except.pure]
      simp [ha]
    · simp only [ha, if_false, hb, pure, Except.pure]
      simp [ha, hb]

theorem generateConnections_eq (grid : EclipseGrid) (record : AquconRecord) (actnum : List Int)
    (h : record.InGrid grid actnum) :
    NumAquiferCon.generateConnections grid record actnum =
      .ok ((record.cells.filter (record.selects grid actnum)).map
        fun c => NumAquiferCon.ofCell grid record c.1 c.2.1 c.2.2) := by
  obtain ⟨hi1, -, -⟩ := toSizeT_pred _ _ h.hI1.1 h.hI1.2 h.hnx
  obtain ⟨hj1, -, -⟩ := toSizeT_pred _ _ h.hJ1.1 h.hJ1.2 h.hny
  obtain ⟨hk1, -, -⟩ := toSizeT_pred _ _ h.hK1.1 h.hK1.2 h.hnz
  obtain ⟨hi2, hi2n, hi2m⟩ := toSizeT_pred _ _ h.hI2.1 h.hI2.2 h.hnx
  obtain ⟨hj2, hj2n, hj2m⟩ := toSizeT_pred _ _ h.hJ2.1 h.hJ2.2 h.hny
  obtain ⟨hk2, hk2n, hk2m⟩ := toSizeT_pred _ _ h.hK2.1 h.hK2.2 h.hnz
  unfold NumAquiferCon.generateConnections
  simp only [hi1, hj1, hk1, hi2, hj2, hk2]
  rw [sizeLoop_ok _ _ hk2m, except_bind_ok]
  rw [foldlM_append _ (fun k =>
    (List.range' (record.J1 - 1).toNat ((record.J2 - 1).toNat + 1 - (record.J1 - 1).toNat)).flatMap
      fun j =>
        (List.range' (record.I1 - 1).toNat
          ((record.I2 - 1).toNat + 1 - (record.I1 - 1).toNat)).flatMap
          fun i => if record.selects grid actnum (i, j, k)
            then [NumAquiferCon.ofCell grid record i j k] else [])]
  · rw [List.nil_append]
    unfold AquconRecord.cells rangeCells
    rw [← flatMap_ite_singleton]
    simp only [List.flatMap_assoc, List.flatMap_map]
  · intro k hk acc
    rw [List.mem_range'_1] at hk
    rw [sizeLoop_ok _ _ hj2m, except_bind_ok]
    apply foldlM_append
    intro j hj acc
    rw [List.mem_range'_1] at hj
    rw [sizeLoop_ok _ _ hi2m, except_bind_ok]
    apply foldlM_append
    intro i hi acc
    rw [List.mem_range'_1] at hi
    exact visitCell_eq grid record actnum k j i acc
      (h.hact i j k (by omega) (by omega) (by omega))

theorem mem_rangeCells (i1 i2 j1 j2 k1 k2 : Nat) (c : Nat × Nat × Nat) :
    c ∈ rangeCells i1 i2 j1 j2 k1 k2 ↔
      (i1 ≤ c.1 ∧ c.1 ≤ i2) ∧ (j1 ≤ c.2.1 ∧ c.2.1 ≤ j2) ∧ (k1 ≤ c.2.2 ∧ c.2.2 ≤ k2) := by
  obtain ⟨i, j, k⟩ := c
  unfold rangeCells
  simp only [List.mem_flatMap, List.mem_map, List.mem_range'_1, Prod.mk.injEq]
  constructor
  · rintro ⟨k', hk, j', hj, i', hi, rfl, rfl, rfl⟩
    omega
  · rintro ⟨hi, hj, hk⟩
    exact ⟨k, by omega, j, by omega, i, by omega, rfl, rfl, rfl⟩

theorem pairwise_rangeCells (i1 i2 j1 j2 k1 k2 : Nat) :
    (rangeCells i1 i2 j1 j2 k1 k2).Pairwise cellBefore := by
  unfold rangeCells
  rw [List.pairwise_flatMap]
  constructor
  · intro k _
    rw [List.pairwise_flatMap]
    constructor
    · intro j _
      rw [List.pairwise_map]
      exact (List.pairwise_lt_range' _ _).imp fun hab => Or.inr ⟨rfl, Or.inr ⟨rfl, hab⟩⟩
    · refine (List.pairwise_lt_range' _ _).imp ?_
      intro a b hab x hx y hy
      simp only [List.mem_map] at hx hy
      obtain ⟨_, _, rfl⟩ := hx
      obtain ⟨_, _, rfl⟩ := hy
      exact Or.inr ⟨rfl, Or.inl hab⟩
  · refine (List.pairwise_lt_range' _ _).imp ?_
    intro a b hab x hx y hy
    simp only [List.mem_flatMap, List.mem_map] at hx hy
    obtain ⟨_, _, _, _, rfl⟩ := hx
    obtain ⟨_, _, _, _, rfl⟩ := hy
    exact Or.inl hab

theorem cellBefore_irrefl (a : Nat × Nat × Nat) : ¬ cellBefore a a := by
  unfold cellBefore
  omega

theorem nodup_of_pairwise_cellBefore (l : List (Nat × Nat × Nat))
    (h : l.Pairwise cellBefore) : l.Nodup := by
  refine h.imp ?_
  intro a b hab heq
  subst heq
  exact cellBefore_irrefl a hab

theorem map_coords_ofCell (grid : EclipseGrid) (record : AquconRecord)
    (l : List (Nat × Nat × Nat)) :
    (l.map fun c => NumAquiferCon.ofCell grid record c.1 c.2.1 c.2.2).map NumAquiferCon.coords
      = l := by
  rw [List.map_map]
  conv_rhs => rw [← List.map_id l]
  rfl

/-! ## Lemmas: ordered associative containers -/

namespace StdMap

variable {κ β : Type} [LinearOrder κ]

theorem find?_eq_none_iff (m : StdMap κ β) (k : κ) :
    find? m k = none ↔ k ∉ m.map Prod.fst := by
  induction m with
  | nil => simp [find?]
  | cons e m ih =>
    obtain ⟨k0, v0⟩ := e
    by_cases h : k0 = k
    · simp [find?, h]
    · have h2 : ¬ k = k0 := fun h3 => h h3.symm
      simp [find?, h, h2, ih]

theorem mem_of_find? (m : StdMap κ β) (k : κ) (v : β) (h : find? m k = some v) :
    (k, v) ∈ m := by
  induction m with
  | nil => simp [find?] at h
  | cons e m ih =>
    obtain ⟨k0, v0⟩ := e
    by_cases h0 : k0 = k
    · simp [find?, h0] at h
      simp [h0, h]
    · simp [find?, h0] at h
      exact List.mem_cons_of_mem _ (ih h)

theorem find?_set (m : StdMap κ β) (k : κ) (v : β) (q : κ) :
    find? (set m k v) q = if k = q then some v else find? m q := by
  induction m with
  | nil => simp [set, find?]
  | cons e m ih =>
    obtain ⟨k0, v0⟩ := e
    simp only [set]
    by_cases h1 : k < k0
    · simp [h1, find?]
    · by_cases h2 : k = k0
      · subst h2
        by_cases h3 : k = q <;> simp [find?, h3]
      · simp only [h1, h2, if_false, find?, ih]
        by_cases h3 : k0 = q
        · subst h3
          simp [h2]
        · simp [h3]

theorem mem_keys_insert (m : StdMap κ β) (k : κ) (v : β) (q : κ)
    (h : q ∈ (insert m k v).map Prod.fst) : q = k ∨ q ∈ m.map Prod.fst := by
  induction m with
  | nil =>
    simp [insert] at h
    exact Or.inl h
  | cons e m ih =>
    obtain ⟨k0, v0⟩ := e
    simp only [insert] at h
    by_cases h1 : k < k0
    · simp only [h1, if_true, List.map_cons, List.mem_cons] at h
      simpa using h
    · by_cases h2 : k = k0
      · subst h2
        simp only [lt_irrefl, if_false, if_true] at h
        exact Or.inr h
      · simp only [h1, h2, if_false, List.map_cons, List.mem_cons] at h
        rcases h with h | h
        · exact Or.inr (by simp [h])
        · rcases ih h with h | h
          · exact Or.inl h
          · exact Or.inr (by simp [h])

theorem insert_perm (m : StdMap κ β) (k : κ) (v : β) (h : find? m k = none) :
    (insert m k v).Perm ((k, v) :: m) := by
  induction m with
  | nil => simp [insert]
  | cons e m ih =>
    obtain ⟨k0, v0⟩ := e
    by_cases h0 : k0 = k
    · simp [find?, h0] at h
    · have h2 : ¬ k = k0 := fun h3 => h0 h3.symm
      simp only [find?, h0, if_false] at h
      simp only [insert, h2, if_false]
      by_cases h1 : k < k0
      · simp [h1]
      · simp only [h1, if_false]
        exact ((ih h).cons (k0, v0)).trans (List.Perm.swap _ _ _)

theorem insert_sorted (m : StdMap κ β) (k : κ) (v : β)
    (h : (m.map Prod.fst).Pairwise (· < ·)) :
    ((insert m k v).map Prod.fst).Pairwise (· < ·) := by
  induction m with
  | nil => simp [insert]
  | cons e m ih =>
    obtain ⟨k0, v0⟩ := e
    simp only [List.map_cons, List.pairwise_cons] at h
    simp only [insert]
    by_cases h1 : k < k0
    · simp only [h1, if_true, List.map_cons, List.pairwise_cons, List.mem_cons]
      refine ⟨?_, h.1, h.2⟩
      rintro a (rfl | ha)
      · exact h1
      · exact lt_trans h1 (h.1 a ha)
    · by_cases h2 : k = k0
      · subst h2
        simp only [lt_irrefl, if_false, if_true, List.map_cons, List.pairwise_cons]
        exact h
      · simp only [h1, h2, if_false, List.map_cons, List.pairwise_cons]
        refine ⟨?_, ih h.2⟩
        intro a ha
        rcases mem_keys_insert m k v a ha with rfl | ha
        · exact lt_of_le_of_ne (not_lt.mp h1) (fun h3 => h2 h3.symm)
        · exact h.1 a ha

end StdMap

/-! ## Lemmas: `NumericalAquiferConnections` -/

theorem mem_keys_entriesOf (cons : List NumAquiferCon) (aqu_id g : Nat) :
    g ∈ (entriesOf cons aqu_id).map Prod.fst ↔ (aqu_id, g) ∈ cons.map NumAquiferCon.key := by
  unfold entriesOf NumAquiferCon.key
  simp only [List.map_map, List.mem_map, List.mem_filter, decide_eq_true_eq, Function.comp,
    Prod.mk.injEq]
  constructor
  · rintro ⟨c, ⟨hc, h1⟩, h2⟩
    exact ⟨c, hc, h1, h2⟩
  · rintro ⟨c, hc, h1, h2⟩
    exact ⟨c, ⟨hc, h1⟩, h2⟩

theorem entriesOf_append (l1 l2 : List NumAquiferCon) (aqu_id : Nat) :
    entriesOf (l1 ++ l2) aqu_id = entriesOf l1 aqu_id ++ entriesOf l2 aqu_id := by
  unfold entriesOf
  rw [List.filter_append, List.map_append]

theorem entriesOf_singleton_self (c : NumAquiferCon) :
    entriesOf [c] c.aquifer_id = [(c.global_index, c)] := by
  simp [entriesOf]

theorem entriesOf_singleton_ne (c : NumAquiferCon) (aqu_id : Nat) (h : c.aquifer_id ≠ aqu_id) :
    entriesOf [c] aqu_id = [] := by
  simp [entriesOf, h]

theorem holds_nil : NumericalAquiferConnections.Holds [] [] where
  nodup := List.nodup_nil
  perm := fun _ => List.Perm.refl _
  sorted := fun _ => List.Pairwise.nil
  none_iff := fun _ => by simp [StdMap.find?]

theorem find?_entries_eq_none_iff (connections : StdMap Nat (StdMap Nat NumAquiferCon))
    (cons : List NumAquiferCon) (h : NumericalAquiferConnections.Holds connections cons)
    (c : NumAquiferCon) :
    StdMap.find? (NumericalAquiferConnections.entries connections c.aquifer_id) c.global_index
        = none ↔ c.key ∉ cons.map NumAquiferCon.key := by
  rw [StdMap.find?_eq_none_iff, ((h.perm c.aquifer_id).map Prod.fst).mem_iff,
    mem_keys_entriesOf]
  rfl

theorem addConnection_ok (connections : StdMap Nat (StdMap Nat NumAquiferCon))
    (cons : List NumAquiferCon) (h : NumericalAquiferConnections.Holds connections cons)
    (c : NumAquiferCon) (hc : c.key ∉ cons.map NumAquiferCon.key) :
    ∃ connections2, NumericalAquiferConnections.addConnection connections c = .ok connections2 ∧
      NumericalAquiferConnections.Holds connections2 (cons ++ [c]) := by
  have hnone := (find?_entries_eq_none_iff connections cons h c).mpr hc
  unfold NumericalAquiferConnections.entries at hnone
  refine ⟨StdMap.set connections c.aquifer_id
    (StdMap.insert ((StdMap.find? connections c.aquifer_id).getD []) c.global_index c),
    by unfold NumericalAquiferConnections.addConnection; simp only [hnone], ?_⟩
  have hent : ∀ aqu_id, NumericalAquiferConnections.entries
      (StdMap.set connections c.aquifer_id
        (StdMap.insert ((StdMap.find? connections c.aquifer_id).getD []) c.global_index c)) aqu_id
      = if c.aquifer_id = aqu_id
        then StdMap.insert (NumericalAquiferConnections.entries connections c.aquifer_id)
          c.global_index c
        else NumericalAquiferConnections.entries connections aqu_id := by
    intro aqu_id
    unfold NumericalAquiferConnections.entries
    rw [StdMap.find?_set]
    by_cases h1 : c.aquifer_id = aqu_id <;> simp [h1]
  constructor
  · rw [List.map_append, List.nodup_append]
    refine ⟨h.nodup, by simp, ?_⟩
    intro a ha hb
    simp only [List.map_cons, List.map_nil, List.mem_singleton] at hb
    subst hb
    exact hc ha
  · intro aqu_id
    rw [hent, entriesOf_append]
    by_cases h1 : c.aquifer_id = aqu_id
    · subst h1
      rw [if_pos rfl, entriesOf_singleton_self]
      refine (StdMap.insert_perm _ _ _ hnone).trans ?_
      exact ((h.perm c.aquifer_id).cons _).trans (List.perm_append_singleton _ _).symm
    · rw [if_neg h1, entriesOf_singleton_ne c aqu_id h1, List.append_nil]
      exact h.perm aqu_id
  · intro aqu_id
    rw [hent]
    by_cases h1 : c.aquifer_id = aqu_id
    · rw [if_pos h1]
      exact StdMap.insert_sorted _ _ _ (h.sorted c.aquifer_id)
    · rw [if_neg h1]
      exact h.sorted aqu_id
  · intro aqu_id
    rw [StdMap.find?_set]
    by_cases h1 : c.aquifer_id = aqu_id
    · simp only [h1, if_true, List.mem_append, List.mem_singleton]
      constructor
      · intro h2
        exact Option.noConfusion h2
      · intro h2
        exact absurd h1 (h2 c (Or.inr rfl))
    · simp only [h1, if_false, List.mem_append, List.mem_singleton]
      rw [h.none_iff]
      constructor
      · rintro h2 x (hx | rfl)
        · exact h2 x hx
        · exact h1
      · intro h2 x hx
        exact h2 x (Or.inl hx)

theorem addConnection_dup (connections : StdMap Nat (StdMap Nat NumAquiferCon))
    (cons : List NumAquiferCon) (h : NumericalAquiferConnections.Holds connections cons)
    (c : NumAquiferCon) (hc : c.key ∈ cons.map NumAquiferCon.key) :
    NumericalAquiferConnections.addConnection connections c =
      .error (.declaredTwice (c.I + 1) (c.J + 1) (c.K + 1) c.aquifer_id) := by
  have hsome : StdMap.find? (NumericalAquiferConnections.entries connections c.aquifer_id)
      c.global_index ≠ none := by
    rw [Ne, find?_entries_eq_none_iff connections cons h c]
    exact fun h2 => h2 hc
  unfold NumericalAquiferConnections.entries at hsome
  unfold NumericalAquiferConnections.addConnection
  cases h3 : StdMap.find? ((StdMap.find? connections c.aquifer_id).getD []) c.global_index with
  | none => exact absurd h3 hsome
  | some _ => simp only [h3]

theorem foldlM_addConnection_ok (cons : List NumAquiferCon) :
    ∀ (connections : StdMap Nat (StdMap Nat NumAquiferCon)) (done : List NumAquiferCon),
      NumericalAquiferConnections.Holds connections done →
      ((done ++ cons).map NumAquiferCon.key).Nodup →
      ∃ connections2,
        cons.foldlM NumericalAquiferConnections.addConnection connections = .ok connections2 ∧
        NumericalAquiferConnections.Holds connections2 (done ++ cons) := by
  induction cons with
  | nil =>
    intro connections done h _
    exact ⟨connections, rfl, by rw [List.append_nil]; exact h⟩
  | cons c cs ih =>
    intro connections done h hnd
    have hc : c.key ∉ done.map NumAquiferCon.key := by
      intro hmem
      rw [List.map_append, List.nodup_append] at hnd
      exact hnd.2.2 hmem (by simp)
    obtain ⟨m2, hm2, hh2⟩ := addConnection_ok connections done h c hc
    have hnd2 : (((done ++ [c]) ++ cs).map NumAquiferCon.key).Nodup := by
      rw [List.append_assoc]
      exact hnd
    obtain ⟨m3, hm3, hh3⟩ := ih m2 (done ++ [c]) hh2 hnd2
    refine ⟨m3, ?_, ?_⟩
    · rw [List.foldlM_cons, hm2, except_bind_ok, hm3]
    · rw [List.append_assoc] at hh3
      exact hh3

theorem foldlM_addConnection_dup (cons : List NumAquiferCon) :
    ∀ (connections : StdMap Nat (StdMap Nat NumAquiferCon)) (done : List NumAquiferCon),
      NumericalAquiferConnections.Holds connections done →
      ¬ ((done ++ cons).map NumAquiferCon.key).Nodup →
      ∃ c ∈ cons, cons.foldlM NumericalAquiferConnections.addConnection connections =
        .error (.declaredTwice (c.I + 1) (c.J + 1) (c.K + 1) c.aquifer_id) := by
  induction cons with
  | nil =>
    intro connections done h hnd
    rw [List.append_nil] at hnd
    exact absurd h.nodup hnd
  | cons c cs ih =>
    intro connections done h hnd
    by_cases hc : c.key ∈ done.map NumAquiferCon.key
    · refine ⟨c, List.mem_cons_self _ _, ?_⟩
      rw [List.foldlM_cons, addConnection_dup connections done h c hc, except_bind_error]
    · obtain ⟨m2, hm2, hh2⟩ := addConnection_ok connections done h c hc
      have hnd2 : ¬ (((done ++ [c]) ++ cs).map NumAquiferCon.key).Nodup := by
        rw [List.append_assoc]
        exact hnd
      obtain ⟨d, hd, hfold⟩ := ih m2 (done ++ [c]) hh2 hnd2
      refine ⟨d, List.mem_cons_of_mem _ hd, ?_⟩
      rw [List.foldlM_cons, hm2, except_bind_ok, hfold]

theorem foldlM_flatten {α β : Type} (f : β → α → Except Error β) (ls : List (List α)) :
    ∀ b : β, ls.foldlM (fun b l => l.foldlM f b) b = ls.flatten.foldlM f b := by
  induction ls with
  | nil => intro b; rfl
  | cons l ls ih =>
    intro b
    rw [List.foldlM_cons, List.flatten_cons, List.foldlM_append]
    cases h : l.foldlM f b with
    | error e => rfl
    | ok b2 => rw [except_bind_ok, except_bind_ok, ih b2]

theorem foldlM_addRecord (grid : EclipseGrid) (actnum : List Int) :
    ∀ (records : List AquconRecord) (connections : StdMap Nat (StdMap Nat NumAquiferCon))
      (cons : List NumAquiferCon),
      generatedConnections grid actnum records = .ok cons →
      records.foldlM (NumericalAquiferConnections.addRecord grid actnum) connections =
        cons.foldlM NumericalAquiferConnections.addConnection connections := by
  intro records
  induction records with
  | nil =>
    intro connections cons h
    simp only [generatedConnections, Except.ok.injEq] at h
    subst h
    rfl
  | cons r rs ih =>
    intro connections cons h
    simp only [generatedConnections] at h
    cases hg : NumAquiferCon.generateConnections grid r actnum with
    | error e => simp [hg] at h
    | ok cr =>
      cases hrest : generatedConnections grid actnum rs with
      | error e => simp [hg, hrest] at h
      | ok rest =>
        simp only [hg, hrest, Except.ok.injEq] at h
        subst h
        have hrec : NumericalAquiferConnections.addRecord grid actnum connections r =
            cr.foldlM NumericalAquiferConnections.addConnection connections := by
          unfold NumericalAquiferConnections.addRecord
          rw [hg, except_bind_ok]
        rw [List.foldlM_cons, List.foldlM_append, hrec]
        cases hf : cr.foldlM NumericalAquiferConnections.addConnection connections with
        | error e => rfl
        | ok m2 => rw [except_bind_ok, except_bind_ok, ih m2 rest hrest]

theorem generated_of_foldlM_addRecord (grid : EclipseGrid) (actnum : List Int) :
    ∀ (records : List AquconRecord) (connections connections2 : StdMap Nat (StdMap Nat NumAquiferCon)),
      records.foldlM (NumericalAquiferConnections.addRecord grid actnum) connections
        = .ok connections2 →
      ∃ cons, generatedConnections grid actnum records = .ok cons := by
  intro records
  induction records with
  | nil => intro _ _ _; exact ⟨[], rfl⟩
  | cons r rs ih =>
    intro connections connections2 h
    rw [List.foldlM_cons] at h
    cases hg : NumAquiferCon.generateConnections grid r actnum with
    | error e =>
      have hrec : NumericalAquiferConnections.addRecord grid actnum connections r = .error e := by
        unfold NumericalAquiferConnections.addRecord
        rw [hg, except_bind_error]
      rw [hrec] at h
      exact Except.noConfusion h
    | ok cr =>
      have hrec : NumericalAquiferConnections.addRecord grid actnum connections r =
          cr.foldlM NumericalAquiferConnections.addConnection connections := by
        unfold NumericalAquiferConnections.addRecord
        rw [hg, except_bind_ok]
      rw [hrec] at h
      cases hf : cr.foldlM NumericalAquiferConnections.addConnection connections with
      | error e =>
        rw [hf] at h
        exact Except.noConfusion h
      | ok m2 =>
        rw [hf, except_bind_ok] at h
        obtain ⟨rest, hrest⟩ := ih m2 connections2 h
        exact ⟨cr ++ rest, by simp only [generatedConnections, hg, hrest]⟩

theorem construct_connections_eq (deck : Deck) (grid : EclipseGrid) (actnum : List Int) :
    NumericalAquiferConnections.construct deck grid actnum =
      match deck.AQUCON.flatten.foldlM (NumericalAquiferConnections.addRecord grid actnum) [] with
      | .ok connections => .ok ⟨connections⟩
      | .error e => .error e := by
  unfold NumericalAquiferConnections.construct
  cases hd : deck.AQUCON with
  | nil => rfl
  | cons kw kws =>
    simp only [List.isEmpty_cons, Bool.false_eq_true, if_false]
    rw [foldlM_flatten]
    cases (kw :: kws).flatten.foldlM (NumericalAquiferConnections.addRecord grid actnum) [] with
    | error e => rfl
    | ok m => rfl

theorem not_nodup_map_iff {α β : Type} (f : α → β) (l : List α) :
    ¬ (l.map f).Nodup ↔
      ∃ (p q : Nat) (a b : α), p < q ∧ l[p]? = some a ∧ l[q]? = some b ∧ f a = f b := by
  rw [List.nodup_iff_getElem?_ne_getElem?]
  constructor
  · intro h
    push_neg at h
    obtain ⟨p, q, hpq, hq, heq⟩ := h
    rw [List.length_map] at hq
    have hp : p < l.length := lt_trans hpq hq
    refine ⟨p, q, l[p], l[q], hpq, List.getElem?_eq_getElem hp, List.getElem?_eq_getElem hq, ?_⟩
    rw [List.getElem?_map, List.getElem?_map, List.getElem?_eq_getElem hp,
      List.getElem?_eq_getElem hq] at heq
    simpa using heq
  · rintro ⟨p, q, a, b, hpq, ha, hb, hab⟩ h
    have hq : q < l.length := by
      by_contra hcon
      rw [List.getElem?_eq_none (not_lt.mp hcon)] at hb
      exact Option.noConfusion hb
    apply h p q hpq (by rw [List.length_map]; exact hq)
    rw [List.getElem?_map, List.getElem?_map, ha, hb]
    simp [hab]

theorem connections_construct_ok (deck : Deck) (grid : EclipseGrid) (actnum : List Int)
    (cons : List NumAquiferCon)
    (hgen : generatedConnections grid actnum deck.AQUCON.flatten = .ok cons)
    (hnd : (cons.map NumAquiferCon.key).Nodup) :
    ∃ self, NumericalAquiferConnections.construct deck grid actnum = .ok self ∧
      NumericalAquiferConnections.Holds self.connections_ cons := by
  obtain ⟨m, hm, hh⟩ := foldlM_addConnection_ok cons [] [] holds_nil (by simpa using hnd)
  refine ⟨⟨m⟩, ?_, by simpa using hh⟩
  rw [construct_connections_eq, foldlM_addRecord grid actnum _ _ cons hgen, hm]

theorem connections_construct_dup (deck : Deck) (grid : EclipseGrid) (actnum : List Int)
    (cons : List NumAquiferCon)
    (hgen : generatedConnections grid actnum deck.AQUCON.flatten = .ok cons)
    (hnd : ¬ (cons.map NumAquiferCon.key).Nodup) :
    ∃ c ∈ cons, NumericalAquiferConnections.construct deck grid actnum =
      .error (.declaredTwice (c.I + 1) (c.J + 1) (c.K + 1) c.aquifer_id) := by
  obtain ⟨c, hc, hf⟩ := foldlM_addConnection_dup cons [] [] holds_nil (by simpa using hnd)
  refine ⟨c, hc, ?_⟩
  rw [construct_connections_eq, foldlM_addRecord grid actnum _ _ cons hgen, hf]

theorem mem_entries_iff (connections : StdMap Nat (StdMap Nat NumAquiferCon))
    (cons : List NumAquiferCon) (h : NumericalAquiferConnections.Holds connections cons)
    (aqu_id g : Nat) (c : NumAquiferCon) :
    (g, c) ∈ NumericalAquiferConnections.entries connections aqu_id ↔
      c ∈ cons ∧ c.aquifer_id = aqu_id ∧ g = c.global_index := by
  rw [(h.perm aqu_id).mem_iff]
  unfold entriesOf
  simp only [List.mem_map, List.mem_filter, decide_eq_true_eq, Prod.mk.injEq]
  constructor
  · rintro ⟨d, ⟨hd, h1⟩, h2, rfl⟩
    exact ⟨hd, h1, h2.symm⟩
  · rintro ⟨hc, h1, h2⟩
    exact ⟨c, ⟨hc, h1⟩, h2.symm, rfl⟩

/-! ## Lemmas: `NumericalAquifers` -/

theorem collectCells_eq (grid : EclipseGrid) (field_props : FieldPropsManager) :
    ∀ (records : List AqunumRecord) (cells : List NumericalAquiferCell) (cell_set : Finset Int)
      (aquifer_cells : List NumericalAquiferCell),
      resolvedCells grid field_props records = .ok cells →
      (((cells.map fun c => toInt c.global_index).Nodup ∧
          ∀ c ∈ cells, toInt c.global_index ∉ cell_set) →
        NumericalAquifers.collectCells grid field_props records cell_set aquifer_cells
          = .ok (aquifer_cells ++ cells)) ∧
      (¬ ((cells.map fun c => toInt c.global_index).Nodup ∧
          ∀ c ∈ cells, toInt c.global_index ∉ cell_set) →
        NumericalAquifers.collectCells grid field_props records cell_set aquifer_cells
          = .error .rethrow) := by
  intro records
  induction records with
  | nil =>
    intro cells cell_set aquifer_cells h
    simp only [resolvedCells, Except.ok.injEq] at h
    subst h
    simp [NumericalAquifers.collectCells]
  | cons r rs ih =>
    intro cells cell_set aquifer_cells h
    simp only [resolvedCells] at h
    cases hc : NumericalAquiferCell.construct r grid field_props with
    | error e => simp [hc] at h
    | ok cell =>
      cases hrest : resolvedCells grid field_props rs with
      | error e => simp [hc, hrest] at h
      | ok rest =>
        simp only [hc, hrest, Except.ok.injEq] at h
        subst h
        simp only [NumericalAquifers.collectCells, hc]
        by_cases hin : toInt cell.global_index ∈ cell_set
        · simp only [hin, if_true]
          constructor
          · rintro ⟨-, h2⟩
            exact absurd hin (h2 cell (List.mem_cons_self _ _))
          · intro _
            trivial
        · simp only [hin, if_false]
          obtain ⟨ih1, ih2⟩ := ih rest (insert (toInt cell.global_index) cell_set)
            (aquifer_cells ++ [cell]) hrest
          have hiff : ((rest.map fun c => toInt c.global_index).Nodup ∧
              ∀ c ∈ rest, toInt c.global_index ∉ insert (toInt cell.global_index) cell_set) ↔
              (((cell :: rest).map fun c => toInt c.global_index).Nodup ∧
                ∀ c ∈ cell :: rest, toInt c.global_index ∉ cell_set) := by
            simp only [List.map_cons, List.nodup_cons, List.mem_map, Finset.mem_insert,
              List.mem_cons, forall_eq_or_imp, not_or, not_exists, not_and]
            constructor
            · rintro ⟨h1, h2⟩
              exact ⟨⟨fun x hx heq => (h2 x hx).1 heq, h1⟩, hin, fun x hx => (h2 x hx).2⟩
            · rintro ⟨⟨h1, h2⟩, -, h4⟩
              exact ⟨h2, fun x hx => ⟨fun heq => h1 x hx heq, h4 x hx⟩⟩
          constructor
          · intro hgood
            rw [ih1 (hiff.mpr hgood), List.append_assoc]
            rfl
          · intro hbad
            exact ih2 (fun hgood => hbad (hiff.mp hgood))

theorem foldl_addAquiferConnection (l : StdMap Nat NumAquiferCon) :
    ∀ aquifer : SingleNumericalAquifer,
      l.foldl (fun aquifer con => aquifer.addAquiferConnection con.2) aquifer =
        { aquifer with
          connections_ := aquifer.connections_ ++ (l.map Prod.snd).filter fun con =>
            !aquifer.cells_.any fun cell => cell.sameCoordinates con.I con.J con.K } := by
  induction l with
  | nil => intro aquifer; simp
  | cons e l ih =>
    intro aquifer
    rw [List.foldl_cons, ih]
    unfold SingleNumericalAquifer.addAquiferConnection
    by_cases h : (aquifer.cells_.any fun cell => cell.sameCoordinates e.2.I e.2.J e.2.K) = true
    · simp [h]
    · simp [h]

namespace StdMap

variable {κ β : Type} [LinearOrder κ]

theorem keys_modify (m : StdMap κ β) (k : κ) (f : β → β) :
    (modify m k f).map Prod.fst = m.map Prod.fst := by
  induction m with
  | nil => rfl
  | cons e m ih =>
    obtain ⟨k0, v0⟩ := e
    by_cases h : k0 = k <;> simp [modify, h, ih]

theorem forall_modify (P : β → Prop) (m : StdMap κ β) (k : κ) (f : β → β)
    (hm : ∀ p ∈ m, P p.2) (hf : ∀ v, P v → P (f v)) : ∀ p ∈ modify m k f, P p.2 := by
  induction m with
  | nil => intro p hp; simp [modify] at hp
  | cons e m ih =>
    obtain ⟨k0, v0⟩ := e
    have h0 : P v0 := hm (k0, v0) (List.mem_cons_self _ _)
    have hrest : ∀ p ∈ m, P p.2 := fun p hp => hm p (List.mem_cons_of_mem _ hp)
    intro p hp
    by_cases h : k0 = k
    · simp only [modify, h, if_true, List.mem_cons] at hp
      rcases hp with rfl | hp
      · exact hf v0 h0
      · exact hrest p hp
    · simp only [modify, h, if_false, List.mem_cons] at hp
      rcases hp with rfl | hp
      · exact h0
      · exact ih hrest p hp

theorem mem_insert (m : StdMap κ β) (k : κ) (v : β) (p : κ × β) (h : p ∈ insert m k v) :
    p = (k, v) ∨ p ∈ m := by
  induction m with
  | nil =>
    simp only [insert, List.mem_singleton] at h
    exact Or.inl h
  | cons e m ih =>
    obtain ⟨k0, v0⟩ := e
    simp only [insert] at h
    by_cases h1 : k < k0
    · simp only [h1, if_true, List.mem_cons] at h
      rcases h with h | h | h
      · exact Or.inl h
      · exact Or.inr (by simp [h])
      · exact Or.inr (by simp [h])
    · by_cases h2 : k = k0
      · subst h2
        simp only [lt_irrefl, if_false, if_true] at h
        exact Or.inr h
      · simp only [h1, h2, if_false, List.mem_cons] at h
        rcases h with h | h
        · exact Or.inr (by simp [h])
        · rcases ih h with h | h
          · exact Or.inl h
          · exact Or.inr (by simp [h])

theorem keys_insert (m : StdMap κ β) (k : κ) (v : β) (q : κ) :
    q ∈ (insert m k v).map Prod.fst ↔ q = k ∨ q ∈ m.map Prod.fst := by
  refine ⟨mem_keys_insert m k v q, ?_⟩
  induction m with
  | nil =>
    intro h
    simpa [insert] using h
  | cons e m ih =>
    obtain ⟨k0, v0⟩ := e
    intro h
    simp only [insert]
    by_cases h1 : k < k0
    · simp only [h1, if_true, List.map_cons, List.mem_cons]
      simpa using h
    · by_cases h2 : k = k0
      · subst h2
        simp only [lt_irrefl, if_false, if_true, List.map_cons, List.mem_cons]
        rcases h with h | h
        · exact Or.inl h
        · simpa using h
      · simp only [h1, h2, if_false, List.map_cons, List.mem_cons]
        rcases h with h | h
        · exact Or.inr (ih (Or.inl h))
        · simp only [List.map_cons, List.mem_cons] at h
          rcases h with h | h
          · exact Or.inl h
          · exact Or.inr (ih (Or.inr h))

theorem find?_isSome_iff (m : StdMap κ β) (k : κ) :
    (find? m k).isSome = true ↔ k ∈ m.map Prod.fst := by
  rw [← not_iff_not, ← find?_eq_none_iff]
  cases find? m k <;> simp

end StdMap

theorem addAquiferCell_keys (self : NumericalAquifers) (cell : NumericalAquiferCell)
    (id : Int) :
    id ∈ (self.addAquiferCell cell).aquifers_.map Prod.fst ↔
      id = cell.aquifer_id ∨ id ∈ self.aquifers_.map Prod.fst := by
  unfold NumericalAquifers.addAquiferCell
  by_cases h : self.hasAquifer cell.aquifer_id = true
  · rw [if_pos h]
    show id ∈ (StdMap.modify self.aquifers_ cell.aquifer_id _).map Prod.fst ↔ _
    rw [StdMap.keys_modify]
    unfold NumericalAquifers.hasAquifer at h
    rw [StdMap.find?_isSome_iff] at h
    constructor
    · exact Or.inr
    · rintro (rfl | h2)
      · exact h
      · exact h2
  · rw [if_neg h]
    show id ∈ (StdMap.modify (StdMap.insert self.aquifers_ cell.aquifer_id _)
      cell.aquifer_id _).map Prod.fst ↔ _
    rw [StdMap.keys_modify]
    exact StdMap.keys_insert self.aquifers_ _ _ _

theorem addAquiferCell_connections (self : NumericalAquifers) (cell : NumericalAquiferCell)
    (h : ∀ p ∈ self.aquifers_, p.2.connections_ = []) :
    ∀ p ∈ (self.addAquiferCell cell).aquifers_, p.2.connections_ = [] := by
  unfold NumericalAquifers.addAquiferCell
  by_cases hh : self.hasAquifer cell.aquifer_id = true
  · rw [if_pos hh]
    exact StdMap.forall_modify (fun a : SingleNumericalAquifer => a.connections_ = [])
      self.aquifers_ _ _ h (fun v hv => hv)
  · rw [if_neg hh]
    refine StdMap.forall_modify (fun a : SingleNumericalAquifer => a.connections_ = [])
      (StdMap.insert self.aquifers_ cell.aquifer_id (SingleNumericalAquifer.new cell.aquifer_id))
      _ _ ?_ (fun v hv => hv)
    intro p hp
    rcases StdMap.mem_insert self.aquifers_ _ _ _ hp with rfl | hp
    · rfl
    · exact h p hp

theorem foldl_addAquiferCell (cells : List NumericalAquiferCell) :
    ∀ self : NumericalAquifers, (∀ p ∈ self.aquifers_, p.2.connections_ = []) →
      (∀ p ∈ (cells.foldl NumericalAquifers.addAquiferCell self).aquifers_,
        p.2.connections_ = []) ∧
      (∀ id, id ∈ (cells.foldl NumericalAquifers.addAquiferCell self).aquifers_.map Prod.fst ↔
        (∃ c ∈ cells, c.aquifer_id = id) ∨ id ∈ self.aquifers_.map Prod.fst) := by
  induction cells with
  | nil => intro self h; simpa using h
  | cons c cs ih =>
    intro self h
    obtain ⟨h1, h2⟩ := ih (self.addAquiferCell c) (addAquiferCell_connections self c h)
    refine ⟨h1, ?_⟩
    intro id
    rw [List.foldl_cons, h2 id, addAquiferCell_keys]
    simp only [List.mem_cons, exists_eq_or_imp]
    constructor
    · rintro (h3 | h3 | h3)
      · exact Or.inl (Or.inr h3)
      · exact Or.inl (Or.inl h3.symm)
      · exact Or.inr h3
    · rintro ((h3 | h3) | h3)
      · exact Or.inr (Or.inl h3.symm)
      · exact Or.inl h3
      · exact Or.inr (Or.inr h3)

theorem bindConnections_ok (cons : NumericalAquiferConnections) :
    ∀ m : StdMap Int SingleNumericalAquifer,
      (∀ p ∈ m, StdMap.find? cons.connections_ (toSizeT p.1) ≠ none) →
      NumericalAquifers.bindConnections cons m =
        (m.map fun p =>
          (p.1, p.2.bind (NumericalAquiferConnections.entries cons.connections_ (toSizeT p.1))),
         .ok ()) := by
  intro m
  induction m with
  | nil => intro _; rfl
  | cons p m ih =>
    intro h
    have hp := h p (List.mem_cons_self _ _)
    have hm := ih (fun x hx => h x (List.mem_cons_of_mem _ hx))
    unfold NumericalAquifers.bindConnections
    unfold NumericalAquiferConnections.getConnections
    cases hf : StdMap.find? cons.connections_ (toSizeT p.1) with
    | none => exact absurd hf hp
    | some inner =>
      simp only [hm, List.map_cons]
      unfold NumericalAquiferConnections.entries SingleNumericalAquifer.bind
      rw [hf]
      rfl

theorem bindConnections_error (cons : NumericalAquiferConnections) :
    ∀ m : StdMap Int SingleNumericalAquifer,
      (∃ p ∈ m, StdMap.find? cons.connections_ (toSizeT p.1) = none) →
      ∃ m2, ∃ p ∈ m, StdMap.find? cons.connections_ (toSizeT p.1) = none ∧
        NumericalAquifers.bindConnections cons m = (m2, .error (.noConnections (toSizeT p.1))) := by
  intro m
  induction m with
  | nil => rintro ⟨p, hp, -⟩; simp at hp
  | cons p m ih =>
    intro h
    cases hf : StdMap.find? cons.connections_ (toSizeT p.1) with
    | none =>
      refine ⟨p :: m, p, List.mem_cons_self _ _, hf, ?_⟩
      unfold NumericalAquifers.bindConnections NumericalAquiferConnections.getConnections
      simp only [hf]
    | some inner =>
      have h2 : ∃ x ∈ m, StdMap.find? cons.connections_ (toSizeT x.1) = none := by
        obtain ⟨x, hx, hxn⟩ := h
        rcases List.mem_cons.mp hx with rfl | hx
        · rw [hf] at hxn
          exact Option.noConfusion hxn
        · exact ⟨x, hx, hxn⟩
      obtain ⟨m2, x, hx, hxn, hb⟩ := ih h2
      refine ⟨(p.1, inner.foldl (fun aquifer con => aquifer.addAquiferConnection con.2) p.2)
        :: m2, x, List.mem_cons_of_mem _ hx, hxn, ?_⟩
      unfold NumericalAquifers.bindConnections NumericalAquiferConnections.getConnections
      simp only [hf, hb]

theorem connections_construct_holds (deck : Deck) (grid : EclipseGrid) (actnum : List Int)
    (conns : NumericalAquiferConnections)
    (h : NumericalAquiferConnections.construct deck grid actnum = .ok conns) :
    ∃ cons, generatedConnections grid actnum deck.AQUCON.flatten = .ok cons ∧
      NumericalAquiferConnections.Holds conns.connections_ cons := by
  have h0 := h
  rw [construct_connections_eq] at h0
  cases hf : deck.AQUCON.flatten.foldlM (NumericalAquiferConnections.addRecord grid actnum) [] with
  | error e =>
    rw [hf] at h0
    exact Except.noConfusion h0
  | ok m =>
    obtain ⟨cons, hgen⟩ := generated_of_foldlM_addRecord grid actnum _ _ _ hf
    refine ⟨cons, hgen, ?_⟩
    by_cases hnd : (cons.map NumAquiferCon.key).Nodup
    · obtain ⟨self, hs, hh⟩ := connections_construct_ok deck grid actnum cons hgen hnd
      rw [h] at hs
      cases hs
      exact hh
    · obtain ⟨c, -, hc⟩ := connections_construct_dup deck grid actnum cons hgen hnd
      rw [h] at hc
      exact Except.noConfusion hc

theorem addAquiferConnections_ok (self reg : NumericalAquifers) (deck : Deck)
    (grid : EclipseGrid) (actnum : List Int)
    (h : self.addAquiferConnections deck grid actnum = (reg, .ok ())) :
    ∃ conns, NumericalAquiferConnections.construct deck grid actnum = .ok conns ∧
      (∀ p ∈ self.aquifers_, StdMap.find? conns.connections_ (toSizeT p.1) ≠ none) ∧
      reg.aquifers_ = self.aquifers_.map fun p =>
        (p.1, p.2.bind (NumericalAquiferConnections.entries conns.connections_ (toSizeT p.1))) := by
  unfold NumericalAquifers.addAquiferConnections at h
  cases hc : NumericalAquiferConnections.construct deck grid actnum with
  | error e =>
    rw [hc] at h
    simp only [Prod.mk.injEq] at h
    exact Except.noConfusion h.2
  | ok conns =>
    rw [hc] at h
    simp only [Prod.mk.injEq] at h
    have hall : ∀ p ∈ self.aquifers_, StdMap.find? conns.connections_ (toSizeT p.1) ≠ none := by
      by_contra hcon
      push_neg at hcon
      obtain ⟨m2, x, -, -, hb⟩ := bindConnections_error conns self.aquifers_ hcon
      rw [hb] at h
      exact Except.noConfusion h.2
    refine ⟨conns, rfl, hall, ?_⟩
    rw [bindConnections_ok conns self.aquifers_ hall] at h
    rw [← h.1]

theorem construct_ok_cases (deck : Deck) (grid : EclipseGrid) (field_props : FieldPropsManager)
    (actnum : List Int) (reg : NumericalAquifers)
    (h : NumericalAquifers.construct deck grid field_props actnum = .ok reg) :
    reg.aquifers_ = [] ∨
    ∃ (aquifer_cells : List NumericalAquiferCell) (conns : NumericalAquiferConnections),
      NumericalAquiferConnections.construct deck grid actnum = .ok conns ∧
      (∀ p ∈ (aquifer_cells.foldl NumericalAquifers.addAquiferCell ⟨[]⟩).aquifers_,
        StdMap.find? conns.connections_ (toSizeT p.1) ≠ none) ∧
      reg.aquifers_ =
        (aquifer_cells.foldl NumericalAquifers.addAquiferCell ⟨[]⟩).aquifers_.map fun p =>
          (p.1, p.2.bind (NumericalAquiferConnections.entries conns.connections_ (toSizeT p.1))) := by
  unfold NumericalAquifers.construct at h
  have hrun : NumericalAquifers.run deck grid field_props actnum = (reg, .ok ()) := by
    cases hr : NumericalAquifers.run deck grid field_props actnum with
    | mk s o =>
      rw [hr] at h
      cases o with
      | error e => exact Except.noConfusion h
      | ok u =>
        simp only [Except.ok.injEq] at h
        rw [h]
  unfold NumericalAquifers.run at hrun
  by_cases hne : deck.AQUNUM.isEmpty = true
  · left
    simp only [hne, if_true, Prod.mk.injEq] at hrun
    rw [← hrun.1]
  · right
    simp only [hne, Bool.false_eq_true, if_false] at hrun
    cases hc : NumericalAquifers.collectCells grid field_props deck.AQUNUM.flatten ∅ [] with
    | error e =>
      rw [hc] at hrun
      simp only [Prod.mk.injEq] at hrun
      exact Except.noConfusion hrun.2
    | ok aquifer_cells =>
      rw [hc] at hrun
      obtain ⟨conns, h1, h2, h3⟩ := addAquiferConnections_ok _ reg deck grid actnum hrun
      exact ⟨aquifer_cells, conns, h1, h2, h3⟩

theorem construct_ok_entries (deck : Deck) (grid : EclipseGrid)
    (field_props : FieldPropsManager) (actnum : List Int) (reg : NumericalAquifers)
    (h : NumericalAquifers.construct deck grid field_props actnum = .ok reg) :
    ∀ p ∈ reg.aquifers_, ∃ (cons : List NumAquiferCon) (inner : StdMap Nat NumAquiferCon),
      generatedConnections grid actnum deck.AQUCON.flatten = .ok cons ∧
      (∀ g c, (g, c) ∈ inner ↔ c ∈ cons ∧ c.aquifer_id = toSizeT p.1 ∧ g = c.global_index) ∧
      (inner.map Prod.fst).Pairwise (· < ·) ∧
      p.2.connections_ = (inner.map Prod.snd).filter fun con =>
        !p.2.cells_.any fun cell => cell.sameCoordinates con.I con.J con.K := by
  intro p hp
  rcases construct_ok_cases deck grid field_props actnum reg h with h0 | ⟨cells, conns, h1, h2, h3⟩
  · rw [h0] at hp
    simp at hp
  · obtain ⟨cons, hgen, hh⟩ := connections_construct_holds deck grid actnum conns h1
    rw [h3, List.mem_map] at hp
    obtain ⟨p0, hp0, rfl⟩ := hp
    have hempty := (foldl_addAquiferCell cells ⟨[]⟩ (by simp)).1 p0 hp0
    refine ⟨cons, NumericalAquiferConnections.entries conns.connections_ (toSizeT p0.1), hgen,
      fun g c => mem_entries_iff _ _ hh _ g c, hh.sorted _, ?_⟩
    unfold SingleNumericalAquifer.bind
    rw [foldl_addAquiferConnection, hempty]
    rfl

theorem construct_of_run_ok (deck : Deck) (grid : EclipseGrid)
    (field_props : FieldPropsManager) (actnum : List Int) (self : NumericalAquifers)
    (h : NumericalAquifers.run deck grid field_props actnum = (self, .ok ())) :
    NumericalAquifers.construct deck grid field_props actnum = .ok self := by
  unfold NumericalAquifers.construct
  rw [h]

theorem construct_of_run_error (deck : Deck) (grid : EclipseGrid)
    (field_props : FieldPropsManager) (actnum : List Int) (self : NumericalAquifers)
    (e : Error) (h : NumericalAquifers.run deck grid field_props actnum = (self, .error e)) :
    NumericalAquifers.construct deck grid field_props actnum = .error e := by
  unfold NumericalAquifers.construct
  rw [h]

theorem run_of_resolved (deck : Deck) (grid : EclipseGrid) (field_props : FieldPropsManager)
    (actnum : List Int) (cells : List NumericalAquiferCell) (cons : List NumAquiferCon)
    (hres : resolvedCells grid field_props deck.AQUNUM.flatten = .ok cells)
    (hcells : (cells.map fun c => toInt c.global_index).Nodup)
    (hgen : generatedConnections grid actnum deck.AQUCON.flatten = .ok cons)
    (hcons : (cons.map NumAquiferCon.key).Nodup)
    (hne : deck.AQUNUM.isEmpty = false) :
    ∃ conns, NumericalAquiferConnections.Holds conns.connections_ cons ∧
      NumericalAquifers.run deck grid field_props actnum =
        (⟨(NumericalAquifers.bindConnections conns
            (cells.foldl NumericalAquifers.addAquiferCell ⟨[]⟩).aquifers_).1⟩,
          (NumericalAquifers.bindConnections conns
            (cells.foldl NumericalAquifers.addAquiferCell ⟨[]⟩).aquifers_).2) := by
  obtain ⟨conns, hc, hh⟩ := connections_construct_ok deck grid actnum cons hgen hcons
  have hcollect := (collectCells_eq grid field_props deck.AQUNUM.flatten cells ∅ [] hres).1
    ⟨hcells, fun c _ => Finset.not_mem_empty _⟩
  refine ⟨conns, hh, ?_⟩
  unfold NumericalAquifers.run NumericalAquifers.addAquiferConnections
  simp only [hne, Bool.false_eq_true, if_false, hcollect, List.nil_append, hc]

/-! ## Lemmas: the cell constructors -/

theorem itemOr_some {α : Type} (v : α) (array : List α) (index : Nat) :
    itemOr (some v) array index = .ok v := rfl

theorem itemOr_none_ok {α : Type} (array : List α) (index : Nat) (x : α)
    (h : itemOr none array index = .ok x) : array[index]? = some x := by
  unfold itemOr vecGet at h
  cases hg : array[index]? with
  | none =>
    rw [hg] at h
    exact Except.noConfusion h
  | some a =>
    rw [hg] at h
    simp only [Except.ok.injEq] at h
    rw [h]

theorem itemOr_ok {α : Type} (item : Option α) (array : List α) (index : Nat) (x : α)
    (h : itemOr item array index = .ok x) :
    (∀ v, item = some v → x = v) ∧ (item = none → array[index]? = some x) := by
  cases item with
  | none => exact ⟨fun v hv => Option.noConfusion hv, fun _ => itemOr_none_ok _ _ _ h⟩
  | some w =>
    rw [itemOr_some] at h
    simp only [Except.ok.injEq] at h
    exact ⟨fun v hv => by rw [← h]; exact Option.some.inj hv, fun hn => Option.noConfusion hn⟩

theorem construct_cell_ok (record : AqunumRecord) (grid : EclipseGrid)
    (field_props : FieldPropsManager) (c : NumericalAquiferCell)
    (h : NumericalAquiferCell.construct record grid field_props = .ok c) :
    ∃ porosity depth pvttable sattable,
      itemOr record.PORO (field_props.get_double "PORO")
        (grid.getGlobalIndex (toSizeT (record.I - 1)) (toSizeT (record.J - 1))
          (toSizeT (record.K - 1))) = .ok porosity ∧
      itemOr record.DEPTH field_props.cellDepth
        (grid.getGlobalIndex (toSizeT (record.I - 1)) (toSizeT (record.J - 1))
          (toSizeT (record.K - 1))) = .ok depth ∧
      itemOr record.PVT_TABLE_NUM (field_props.get_int "PVTNUM")
        (grid.getGlobalIndex (toSizeT (record.I - 1)) (toSizeT (record.J - 1))
          (toSizeT (record.K - 1))) = .ok pvttable ∧
      itemOr record.SAT_TABLE_NUM (field_props.get_int "SATNUM")
        (grid.getGlobalIndex (toSizeT (record.I - 1)) (toSizeT (record.J - 1))
          (toSizeT (record.K - 1))) = .ok sattable ∧
      c = { aquifer_id := record.AQUIFER_ID
            I := record.I - 1
            J := record.J - 1
            K := record.K - 1
            area := record.CROSS_SECTION
            length := record.LENGTH
            permeability := record.PERM
            porosity := porosity
            depth := depth
            init_pressure := record.INITIAL_PRESSURE
            pvttable := pvttable
            sattable := sattable
            pore_volume := record.LENGTH * record.CROSS_SECTION * porosity
            transmissibility := 2 * record.PERM * record.CROSS_SECTION / record.LENGTH
            global_index := grid.getGlobalIndex (toSizeT (record.I - 1))
              (toSizeT (record.J - 1)) (toSizeT (record.K - 1)) } := by
  unfold NumericalAquiferCell.construct at h
  simp only [bind, Except.bind, pure, Except.pure] at h
  split at h
  · exact Except.noConfusion h
  · rename_i porosity hporo
    split at h
    · exact Except.noConfusion h
    · rename_i depth hdepth
      split at h
      · exact Except.noConfusion h
      · rename_i pvttable hpvt
        split at h
        · exact Except.noConfusion h
        · rename_i sattable hsat
          simp only [Except.ok.injEq] at h
          exact ⟨porosity, depth, pvttable, sattable, hporo, hdepth, hpvt, hsat, h.symm⟩

theorem construct_cellcpp_ok (record : AqunumRecord) (grid : EclipseGrid)
    (field_props : FieldPropsManager) (c : CellCpp.NumericalAquiferCell)
    (h : CellCpp.NumericalAquiferCell.construct record grid field_props = .ok c) :
    ∃ active_index porosity pvttable sattable,
      grid.activeIndex (grid.getGlobalIndex (toSizeT (record.I - 1)) (toSizeT (record.J - 1))
        (toSizeT (record.K - 1))) = .ok active_index ∧
      itemOr record.PORO (field_props.get_double "PORO") active_index = .ok porosity ∧
      itemOr record.PVT_TABLE_NUM (field_props.get_int "PVTNUM") active_index = .ok pvttable ∧
      itemOr record.SAT_TABLE_NUM (field_props.get_int "SATNUM") active_index = .ok sattable ∧
      c = { aquifer_id := record.AQUIFER_ID
            I := record.I - 1
            J := record.J - 1
            K := record.K - 1
            area := record.CROSS_SECTION
            length := record.LENGTH
            porosity := porosity
            permeability := record.PERM
            depth := match record.DEPTH with
              | some v => v
              | none => grid.getCellDepth (grid.getGlobalIndex (toSizeT (record.I - 1))
                  (toSizeT (record.J - 1)) (toSizeT (record.K - 1)))
            init_pressure := record.INITIAL_PRESSURE
            pvttable := pvttable
            sattable := sattable
            transmissibility := 2 * record.PERM * record.CROSS_SECTION / record.LENGTH
            global_index := grid.getGlobalIndex (toSizeT (record.I - 1))
              (toSizeT (record.J - 1)) (toSizeT (record.K - 1)) } := by
  unfold CellCpp.NumericalAquiferCell.construct at h
  simp only [bind, Except.bind, pure, Except.pure] at h
  split at h
  · exact Except.noConfusion h
  · rename_i active_index hactive
    split at h
    · exact Except.noConfusion h
    · rename_i porosity hporo
      split at h
      · exact Except.noConfusion h
      · rename_i pvttable hpvt
        split at h
        · exact Except.noConfusion h
        · rename_i sattable hsat
          simp only [Except.ok.injEq] at h
          exact ⟨active_index, porosity, pvttable, sattable, hactive, hporo, hpvt, hsat, h.symm⟩

/-- The constructor of NumericalAquiferCell.cpp resolves a defaulted porosity and defaulted
table numbers at the active index of the cell, a defaulted depth through the grid, and leaves a
defaulted initial pressure unset. -/
theorem construct_cellcpp_resolves (record : AqunumRecord)
    (grid : EclipseGrid) (field_props : FieldPropsManager) (c : CellCpp.NumericalAquiferCell)
    (h : CellCpp.NumericalAquiferCell.construct record grid field_props = .ok c) :
    ∃ active_index, grid.activeIndex c.global_index = .ok active_index ∧
      (∀ v, record.PORO = some v → c.porosity = v) ∧
      (record.PORO = none → (field_props.get_double "PORO")[active_index]? = some c.porosity) ∧
      (∀ v, record.PVT_TABLE_NUM = some v → c.pvttable = v) ∧
      (record.PVT_TABLE_NUM = none →
        (field_props.get_int "PVTNUM")[active_index]? = some c.pvttable) ∧
      (∀ v, record.SAT_TABLE_NUM = some v → c.sattable = v) ∧
      (record.SAT_TABLE_NUM = none →
        (field_props.get_int "SATNUM")[active_index]? = some c.sattable) ∧
      (∀ v, record.DEPTH = some v → c.depth = v) ∧
      (record.DEPTH = none → c.depth = grid.getCellDepth c.global_index) ∧
      c.init_pressure = record.INITIAL_PRESSURE := by
  obtain ⟨a, porosity, pvttable, sattable, ha, hporo, hpvt, hsat, rfl⟩ :=
    construct_cellcpp_ok record grid field_props c h
  have h1 := itemOr_ok _ _ _ _ hporo
  have h2 := itemOr_ok _ _ _ _ hpvt
  have h3 := itemOr_ok _ _ _ _ hsat
  refine ⟨a, ha, h1.1, h1.2, h2.1, h2.2, h3.1, h3.2, ?_, ?_, rfl⟩
  · intro v hv
    simp only [hv]
  · intro hn
    simp only [hn]

/-! ## Lemmas: `updateCellProps` -/

theorem vecSet_ok {α : Type} (v : List α) (i : Nat) (x : α) (h : i < v.length) :
    vecSet v i x = .ok (v.set i x) := by
  unfold vecSet
  rw [if_pos h]

theorem length_overwritten {γ α : Type} (index : γ → Nat) (value : γ → α) (l : List γ) :
    ∀ array : List α, (overwritten index value l array).length = array.length := by
  induction l with
  | nil => intro array; rfl
  | cons c l ih =>
    intro array
    unfold overwritten at ih ⊢
    rw [List.foldl_cons, ih, List.length_set]

theorem overwritten_frame {γ α : Type} (index : γ → Nat) (value : γ → α) (l : List γ) (i : Nat)
    (h : i ∉ l.map index) :
    ∀ array : List α, (overwritten index value l array)[i]? = array[i]? := by
  induction l with
  | nil => intro array; rfl
  | cons c l ih =>
    intro array
    simp only [List.map_cons, List.mem_cons, not_or] at h
    unfold overwritten at ih ⊢
    rw [List.foldl_cons, ih h.2, List.getElem?_set_ne (fun h2 => h.1 h2.symm)]

theorem overwritten_at {γ α : Type} (index : γ → Nat) (value : γ → α) (l : List γ)
    (hnd : (l.map index).Nodup) (c : γ) (hc : c ∈ l) :
    ∀ array : List α, index c < array.length →
      (overwritten index value l array)[index c]? = some (value c) := by
  induction l with
  | nil => simp at hc
  | cons d l ih =>
    intro array hlt
    simp only [List.map_cons, List.nodup_cons] at hnd
    have hstep : overwritten index value (d :: l) array =
        overwritten index value l (array.set (index d) (value d)) := rfl
    rw [hstep]
    rcases List.mem_cons.mp hc with rfl | hc2
    · rw [overwritten_frame index value l (index c) hnd.1, List.getElem?_set_self hlt]
    · exact ih hnd.2 hc2 _ (by rw [List.length_set]; exact hlt)

theorem updateCell_ok (grid : EclipseGrid) (props : CellProps) (cell : NumericalAquiferCell)
    (a : Nat) (ha : grid.activeIndexOpt cell.global_index = some a)
    (h1 : a < props.pore_volume.length) (h2 : a < props.satnum.length)
    (h3 : a < props.pvtnum.length) (h4 : a < props.cell_depth.length) :
    SingleNumericalAquifer.updateCell grid props cell =
      .ok { pore_volume := props.pore_volume.set (grid.activeOf cell) cell.pore_volume
            satnum := props.satnum.set (grid.activeOf cell) cell.sattable
            pvtnum := props.pvtnum.set (grid.activeOf cell) cell.pvttable
            cell_depth := props.cell_depth.set (grid.activeOf cell) cell.depth } := by
  have hact : grid.activeIndex cell.global_index = .ok a := by
    unfold EclipseGrid.activeIndex
    rw [ha]
  have hof : grid.activeOf cell = a := by
    unfold EclipseGrid.activeOf
    rw [ha]
    rfl
  unfold SingleNumericalAquifer.updateCell
  rw [hact, except_bind_ok, vecSet_ok _ _ _ h1, except_bind_ok, vecSet_ok _ _ _ h2,
    except_bind_ok, vecSet_ok _ _ _ h3, except_bind_ok, vecSet_ok _ _ _ h4, except_bind_ok, hof]
  rfl

theorem foldlM_updateCell (grid : EclipseGrid) (cells : List NumericalAquiferCell) :
    ∀ props : CellProps,
      (∀ c ∈ cells, ∃ a, grid.activeIndexOpt c.global_index = some a ∧
        a < props.pore_volume.length ∧ a < props.satnum.length ∧
        a < props.pvtnum.length ∧ a < props.cell_depth.length) →
      cells.foldlM (SingleNumericalAquifer.updateCell grid) props =
        .ok { pore_volume := overwritten grid.activeOf (fun c => c.pore_volume) cells
                props.pore_volume
              satnum := overwritten grid.activeOf (fun c => c.sattable) cells props.satnum
              pvtnum := overwritten grid.activeOf (fun c => c.pvttable) cells props.pvtnum
              cell_depth := overwritten grid.activeOf (fun c => c.depth) cells
                props.cell_depth } := by
  induction cells with
  | nil => intro props _; rfl
  | cons c cs ih =>
    intro props h
    obtain ⟨a, ha, h1, h2, h3, h4⟩ := h c (List.mem_cons_self _ _)
    rw [List.foldlM_cons, updateCell_ok grid props c a ha h1 h2 h3 h4, except_bind_ok, ih]
    · rfl
    · intro d hd
      obtain ⟨b, hb, g1, g2, g3, g4⟩ := h d (List.mem_cons_of_mem _ hd)
      exact ⟨b, hb, by simpa using g1, by simpa using g2, by simpa using g3, by simpa using g4⟩

theorem updateCellProps_eq (grid : EclipseGrid) (m : StdMap Int SingleNumericalAquifer) :
    ∀ props : CellProps,
      m.foldlM (fun props iter => iter.2.updateCellProps grid props) props =
        (m.flatMap fun p => p.2.cells_).foldlM (SingleNumericalAquifer.updateCell grid) props := by
  induction m with
  | nil => intro props; rfl
  | cons p m ih =>
    intro props
    rw [List.foldlM_cons, List.flatMap_cons, List.foldlM_append]
    unfold SingleNumericalAquifer.updateCellProps at ih ⊢
    cases p.2.cells_.foldlM (SingleNumericalAquifer.updateCell grid) props with
    | error e => rfl
    | ok props2 => rw [except_bind_ok, except_bind_ok, ih props2]

/-! ## Lemmas: the cells of a registry -/

namespace StdMap

variable {κ β : Type} [LinearOrder κ]

theorem find?_modify (m : StdMap κ β) (k : κ) (f : β → β) (q : κ) :
    find? (modify m k f) q = if q = k then (find? m k).map f else find? m q := by
  induction m with
  | nil => simp [modify, find?]
  | cons e m ih =>
    obtain ⟨k0, v0⟩ := e
    by_cases h : k0 = k
    · subst h
      by_cases hq : q = k0
      · subst hq
        simp [modify, find?]
      · have hq2 : ¬ k0 = q := fun h2 => hq h2.symm
        simp [modify, find?, hq, hq2]
    · by_cases hq : q = k
      · subst hq
        simp [modify, find?, h, ih]
      · by_cases h0 : k0 = q
        · simp [modify, find?, h, h0, hq]
        · simp [modify, find?, h, h0, ih, hq]

theorem find?_insert_of_none (m : StdMap κ β) (k : κ) (v : β) (h : find? m k = none) (q : κ) :
    find? (insert m k v) q = if q = k then some v else find? m q := by
  induction m with
  | nil =>
    by_cases hq : q = k
    · subst hq
      simp [insert, find?]
    · have hq2 : ¬ k = q := fun h2 => hq h2.symm
      simp [insert, find?, hq, hq2]
  | cons e m ih =>
    obtain ⟨k0, v0⟩ := e
    have h0 : ¬ k0 = k := by
      intro h2
      simp [find?, h2] at h
    have h0b : ¬ k = k0 := fun h2 => h0 h2.symm
    have hm : find? m k = none := by
      simpa [find?, h0] using h
    by_cases h1 : k < k0
    · by_cases hq : q = k
      · subst hq
        simp [insert, find?, h1]
      · have hq2 : ¬ k = q := fun h2 => hq h2.symm
        simp [insert, find?, h1, hq, hq2]
    · by_cases hq : q = k
      · subst hq
        simp [insert, find?, h1, h0, h0b, ih hm]
      · simp [insert, find?, h1, h0b, ih hm, hq]

theorem find?_of_mem (m : StdMap κ β) (h : (m.map Prod.fst).Nodup) (k : κ) (v : β)
    (hm : (k, v) ∈ m) : find? m k = some v := by
  induction m with
  | nil => simp at hm
  | cons e m ih =>
    obtain ⟨k0, v0⟩ := e
    simp only [List.map_cons, List.nodup_cons] at h
    rcases List.mem_cons.mp hm with heq | hm2
    · simp only [Prod.mk.injEq] at heq
      simp [find?, heq.1, heq.2]
    · have hne : ¬ k0 = k := by
        intro h2
        apply h.1
        rw [h2]
        exact List.mem_map.mpr ⟨(k, v), hm2, rfl⟩
      simp [find?, hne, ih h.2 hm2]

end StdMap

theorem cellsOf_append_singleton (cells : List NumericalAquiferCell) (c : NumericalAquiferCell)
    (id : Int) :
    cellsOf (cells ++ [c]) id = cellsOf cells id ++ if c.aquifer_id = id then [c] else [] := by
  unfold cellsOf
  rw [List.filter_append]
  by_cases h : c.aquifer_id = id <;> simp [h]

theorem stores_nil : NumericalAquifers.Stores [] [] where
  sorted := List.Pairwise.nil
  absent := fun _ _ => rfl
  present := fun _ h => absurd rfl h

theorem stores_addAquiferCell (self : NumericalAquifers) (cells : List NumericalAquiferCell)
    (c : NumericalAquiferCell) (h : NumericalAquifers.Stores self.aquifers_ cells) :
    NumericalAquifers.Stores (self.addAquiferCell c).aquifers_ (cells ++ [c]) := by
  by_cases hh : self.hasAquifer c.aquifer_id = true
  · have hmap : (self.addAquiferCell c).aquifers_ =
        StdMap.modify self.aquifers_ c.aquifer_id (fun a => a.addAquiferCell c) := by
      unfold NumericalAquifers.addAquiferCell
      rw [if_pos hh]
    have hne : cellsOf cells c.aquifer_id ≠ [] := by
      intro h0
      unfold NumericalAquifers.hasAquifer at hh
      rw [h.absent _ h0] at hh
      exact Bool.noConfusion hh
    rw [hmap]
    refine ⟨?_, ?_, ?_⟩
    · rw [StdMap.keys_modify]
      exact h.sorted
    · intro id h0
      rw [cellsOf_append_singleton] at h0
      have hid : ¬ c.aquifer_id = id := by
        intro h1
        rw [if_pos h1] at h0
        simp at h0
      rw [if_neg hid, List.append_nil] at h0
      rw [StdMap.find?_modify, if_neg (fun h2 => hid h2.symm)]
      exact h.absent id h0
    · intro id h0
      rw [StdMap.find?_modify, cellsOf_append_singleton]
      by_cases hid : id = c.aquifer_id
      · subst hid
        rw [if_pos rfl, if_pos rfl, h.present _ hne]
        rfl
      · rw [if_neg hid, if_neg (fun h2 => hid h2.symm), List.append_nil]
        rw [cellsOf_append_singleton, if_neg (fun h2 => hid h2.symm), List.append_nil] at h0
        exact h.present id h0
  · have hmap : (self.addAquiferCell c).aquifers_ =
        StdMap.modify (StdMap.insert self.aquifers_ c.aquifer_id
          (SingleNumericalAquifer.new c.aquifer_id)) c.aquifer_id
          (fun a => a.addAquiferCell c) := by
      unfold NumericalAquifers.addAquiferCell
      rw [if_neg hh]
    have hnone : StdMap.find? self.aquifers_ c.aquifer_id = none := by
      unfold NumericalAquifers.hasAquifer at hh
      cases hf : StdMap.find? self.aquifers_ c.aquifer_id with
      | none => rfl
      | some x =>
        rw [hf] at hh
        exact absurd rfl hh
    have hnil : cellsOf cells c.aquifer_id = [] := by
      by_contra h0
      rw [h.present _ h0] at hnone
      exact Option.noConfusion hnone
    rw [hmap]
    refine ⟨?_, ?_, ?_⟩
    · rw [StdMap.keys_modify]
      exact StdMap.insert_sorted _ _ _ h.sorted
    · intro id h0
      rw [cellsOf_append_singleton] at h0
      have hid : ¬ c.aquifer_id = id := by
        intro h1
        rw [if_pos h1] at h0
        simp at h0
      rw [if_neg hid, List.append_nil] at h0
      rw [StdMap.find?_modify, if_neg (fun h2 => hid h2.symm),
        StdMap.find?_insert_of_none _ _ _ hnone, if_neg (fun h2 => hid h2.symm)]
      exact h.absent id h0
    · intro id h0
      rw [StdMap.find?_modify, cellsOf_append_singleton]
      by_cases hid : id = c.aquifer_id
      · subst hid
        rw [if_pos rfl, if_pos rfl, StdMap.find?_insert_of_none _ _ _ hnone, if_pos rfl, hnil]
        rfl
      · rw [if_neg hid, if_neg (fun h2 => hid h2.symm), List.append_nil,
          StdMap.find?_insert_of_none _ _ _ hnone, if_neg hid]
        rw [cellsOf_append_singleton, if_neg (fun h2 => hid h2.symm), List.append_nil] at h0
        exact h.present id h0

theorem stores_foldl (cells : List NumericalAquiferCell) :
    ∀ (self : NumericalAquifers) (done : List NumericalAquiferCell),
      NumericalAquifers.Stores self.aquifers_ done →
      NumericalAquifers.Stores (cells.foldl NumericalAquifers.addAquiferCell self).aquifers_
        (done ++ cells) := by
  induction cells with
  | nil => intro self done h; simpa using h
  | cons c cs ih =>
    intro self done h
    have := ih (self.addAquiferCell c) (done ++ [c]) (stores_addAquiferCell self done c h)
    rw [List.append_assoc] at this
    exact this

theorem stores_mem (aquifers : StdMap Int SingleNumericalAquifer)
    (cells : List NumericalAquiferCell) (h : NumericalAquifers.Stores aquifers cells)
    (p : Int × SingleNumericalAquifer) (hp : p ∈ aquifers) :
    cellsOf cells p.1 ≠ [] ∧
      p.2 = { id_ := p.1, cells_ := cellsOf cells p.1, connections_ := [] } := by
  have hnd : (aquifers.map Prod.fst).Nodup := h.sorted.imp (fun hab => ne_of_lt hab)
  have hf := StdMap.find?_of_mem aquifers hnd p.1 p.2 hp
  have hne : cellsOf cells p.1 ≠ [] := by
    intro h0
    rw [h.absent _ h0] at hf
    exact Option.noConfusion hf
  rw [h.present _ hne] at hf
  exact ⟨hne, (Option.some.inj hf).symm⟩

theorem stores_key (aquifers : StdMap Int SingleNumericalAquifer)
    (cells : List NumericalAquiferCell) (h : NumericalAquifers.Stores aquifers cells)
    (c : NumericalAquiferCell) (hc : c ∈ cells) :
    ∃ p ∈ aquifers, p.1 = c.aquifer_id := by
  have hne : cellsOf cells c.aquifer_id ≠ [] := by
    intro h0
    have : c ∈ cellsOf cells c.aquifer_id := by
      unfold cellsOf
      exact List.mem_filter.mpr ⟨hc, by simp⟩
    rw [h0] at this
    simp at this
  exact ⟨_, StdMap.mem_of_find? _ _ _ (h.present _ hne), rfl⟩

theorem collectCells_inv (grid : EclipseGrid) (field_props : FieldPropsManager) :
    ∀ (records : List AqunumRecord) (cell_set : Finset Int)
      (aquifer_cells out : List NumericalAquiferCell),
      NumericalAquifers.collectCells grid field_props records cell_set aquifer_cells = .ok out →
      ∃ cells, resolvedCells grid field_props records = .ok cells ∧ out = aquifer_cells ++ cells ∧
        (cells.map fun c => toInt c.global_index).Nodup ∧
        ∀ c ∈ cells, toInt c.global_index ∉ cell_set := by
  intro records
  induction records with
  | nil =>
    intro cell_set aquifer_cells out h
    simp only [NumericalAquifers.collectCells, Except.ok.injEq] at h
    exact ⟨[], rfl, by simp [h], List.nodup_nil, fun c hc => absurd hc (List.not_mem_nil _)⟩
  | cons r rs ih =>
    intro cell_set aquifer_cells out h
    simp only [NumericalAquifers.collectCells] at h
    cases hc : NumericalAquiferCell.construct r grid field_props with
    | error e =>
      rw [hc] at h
      exact Except.noConfusion h
    | ok cell =>
      rw [hc] at h
      simp only at h
      by_cases hin : toInt cell.global_index ∈ cell_set
      · rw [if_pos hin] at h
        exact Except.noConfusion h
      · rw [if_neg hin] at h
        obtain ⟨cells, hres, hout, hnd, hset⟩ := ih _ _ _ h
        refine ⟨cell :: cells, ?_, ?_, ?_, ?_⟩
        · simp only [resolvedCells, hc, hres]
        · rw [hout, List.append_assoc]
          rfl
        · simp only [List.map_cons, List.nodup_cons, List.mem_map, not_exists, not_and]
          refine ⟨fun x hx heq => ?_, hnd⟩
          exact hset x hx (by rw [heq]; exact Finset.mem_insert_self _ _)
        · intro c hcm
          rcases List.mem_cons.mp hcm with rfl | hcm
          · exact hin
          · exact fun h2 => hset c hcm (Finset.mem_insert_of_mem h2)

theorem resolvedCells_forall₂ (grid : EclipseGrid) (field_props : FieldPropsManager) :
    ∀ (records : List AqunumRecord) (cells : List NumericalAquiferCell),
      resolvedCells grid field_props records = .ok cells →
      List.Forall₂ (fun r c => NumericalAquiferCell.construct r grid field_props = .ok c ∧
        c.aquifer_id = r.AQUIFER_ID) records cells := by
  intro records
  induction records with
  | nil =>
    intro cells h
    simp only [resolvedCells, Except.ok.injEq] at h
    subst h
    exact List.Forall₂.nil
  | cons r rs ih =>
    intro cells h
    simp only [resolvedCells] at h
    cases hc : NumericalAquiferCell.construct r grid field_props with
    | error e => simp [hc] at h
    | ok cell =>
      cases hrest : resolvedCells grid field_props rs with
      | error e => simp [hc, hrest] at h
      | ok rest =>
        simp only [hc, hrest, Except.ok.injEq] at h
        subst h
        refine List.Forall₂.cons ⟨hc, ?_⟩ (ih rest hrest)
        obtain ⟨_, _, _, _, _, _, _, _, rfl⟩ := construct_cell_ok r grid field_props cell hc
        rfl

theorem bind_cells (aquifer : SingleNumericalAquifer) (aqu_cons : StdMap Nat NumAquiferCon) :
    (aquifer.bind aqu_cons).cells_ = aquifer.cells_ ∧ (aquifer.bind aqu_cons).id_ = aquifer.id_ := by
  unfold SingleNumericalAquifer.bind
  rw [foldl_addAquiferConnection]
  exact ⟨rfl, rfl⟩

theorem construct_ok_cells (deck : Deck) (grid : EclipseGrid) (field_props : FieldPropsManager)
    (actnum : List Int) (reg : NumericalAquifers)
    (h : NumericalAquifers.construct deck grid field_props actnum = .ok reg) :
    ∃ cells, resolvedCells grid field_props deck.AQUNUM.flatten = .ok cells ∧
      (cells.map fun c => c.global_index).Nodup ∧
      (reg.aquifers_.map Prod.fst).Pairwise (· < ·) ∧
      (∀ p ∈ reg.aquifers_, p.2.cells_ = cellsOf cells p.1 ∧ p.2.id_ = p.1 ∧
        cellsOf cells p.1 ≠ []) ∧
      (∀ c ∈ cells, ∃ p ∈ reg.aquifers_, p.1 = c.aquifer_id) := by
  unfold NumericalAquifers.construct at h
  have hrun : NumericalAquifers.run deck grid field_props actnum = (reg, .ok ()) := by
    cases hr : NumericalAquifers.run deck grid field_props actnum with
    | mk s o =>
      rw [hr] at h
      cases o with
      | error e => exact Except.noConfusion h
      | ok u =>
        simp only [Except.ok.injEq] at h
        rw [h]
  unfold NumericalAquifers.run at hrun
  by_cases hne : deck.AQUNUM.isEmpty = true
  · simp only [hne, if_true, Prod.mk.injEq] at hrun
    have hd : deck.AQUNUM = [] := List.isEmpty_iff.mp hne
    refine ⟨[], by rw [hd]; rfl, List.nodup_nil, ?_, ?_, ?_⟩
    · rw [← hrun.1]
      exact List.Pairwise.nil
    · intro p hp
      rw [← hrun.1] at hp
      simp at hp
    · intro c hc
      simp at hc
  · simp only [hne, Bool.false_eq_true, if_false] at hrun
    cases hc : NumericalAquifers.collectCells grid field_props deck.AQUNUM.flatten ∅ [] with
    | error e =>
      rw [hc] at hrun
      simp only [Prod.mk.injEq] at hrun
      exact Except.noConfusion hrun.2
    | ok aquifer_cells =>
      rw [hc] at hrun
      obtain ⟨conns, -, -, h3⟩ := addAquiferConnections_ok _ reg deck grid actnum hrun
      obtain ⟨cells, hres, hout, hndInt, -⟩ := collectCells_inv grid field_props _ _ _ _ hc
      have hnd : (cells.map fun c => c.global_index).Nodup := by
        have hmap : (cells.map fun c => toInt c.global_index) =
            (cells.map fun c => c.global_index).map toInt := by
          rw [List.map_map]
          rfl
        rw [hmap] at hndInt
        exact List.Nodup.of_map toInt hndInt
      rw [List.nil_append] at hout
      subst hout
      have hst := stores_foldl aquifer_cells ⟨[]⟩ [] stores_nil
      rw [List.nil_append] at hst
      refine ⟨aquifer_cells, hres, hnd, ?_, ?_, ?_⟩
      · rw [h3, List.map_map]
        exact hst.sorted
      · intro p hp
        rw [h3, List.mem_map] at hp
        obtain ⟨p0, hp0, rfl⟩ := hp
        obtain ⟨hne0, hp2⟩ := stores_mem _ _ hst p0 hp0
        have hb := bind_cells p0.2
          (NumericalAquiferConnections.entries conns.connections_ (toSizeT p0.1))
        refine ⟨?_, ?_, hne0⟩
        · show (p0.2.bind _).cells_ = _
          rw [hb.1, hp2]
        · show (p0.2.bind _).id_ = _
          rw [hb.2, hp2]
      · intro c hcm
        obtain ⟨p0, hp0, hid⟩ := stores_key _ _ hst c hcm
        refine ⟨(p0.1, p0.2.bind
          (NumericalAquiferConnections.entries conns.connections_ (toSizeT p0.1))), ?_, hid⟩
        rw [h3]
        exact List.mem_map.mpr ⟨p0, hp0, rfl⟩

theorem sum_indicator_absent (keys : List Int) (k0 : Int) (h : k0 ∉ keys) :
    (keys.map fun k => if k0 = k then 1 else 0).sum = 0 := by
  induction keys with
  | nil => rfl
  | cons k ks ih =>
    simp only [List.mem_cons, not_or] at h
    rw [List.map_cons, List.sum_cons, if_neg h.1, ih h.2]

theorem sum_indicator_present (keys : List Int) (hnd : keys.Nodup) (k0 : Int) (h : k0 ∈ keys) :
    (keys.map fun k => if k0 = k then 1 else 0).sum = 1 := by
  induction keys with
  | nil => simp at h
  | cons k ks ih =>
    simp only [List.nodup_cons] at hnd
    rw [List.map_cons, List.sum_cons]
    by_cases hk : k0 = k
    · subst hk
      rw [if_pos rfl, sum_indicator_absent ks k0 hnd.1]
    · rw [if_neg hk]
      rcases List.mem_cons.mp h with h1 | h1
      · exact absurd h1 hk
      · rw [ih hnd.2 h1]

theorem sum_length_cellsOf (keys : List Int) (hnd : keys.Nodup) :
    ∀ cells : List NumericalAquiferCell, (∀ c ∈ cells, c.aquifer_id ∈ keys) →
      (keys.map fun k => (cellsOf cells k).length).sum = cells.length := by
  intro cells
  induction cells with
  | nil =>
    intro _
    unfold cellsOf
    simp
  | cons c cs ih =>
    intro h
    have hstep : ∀ k, (cellsOf (c :: cs) k).length =
        (if c.aquifer_id = k then 1 else 0) + (cellsOf cs k).length := by
      intro k
      unfold cellsOf
      by_cases hk : c.aquifer_id = k
      · simp [hk, Nat.add_comm]
      · simp [hk]
    simp only [hstep]
    rw [List.sum_map_add, sum_indicator_present keys hnd _ (h c (List.mem_cons_self _ _)),
      ih (fun d hd => h d (List.mem_cons_of_mem _ hd)), List.length_cons, Nat.add_comm]

/-! ## Lemmas: `NumericalAquifers::transToRemove` -/

theorem foldl_transToRemove (grid : EclipseGrid) (m : StdMap Int SingleNumericalAquifer) :
    ∀ init : Finset Nat × Finset Nat × Finset Nat,
      (∀ i, i ∈ (m.foldl (fun trans pair =>
          (trans.1 ∪ (pair.2.transToRemove grid).1,
            trans.2.1 ∪ (pair.2.transToRemove grid).2.1,
            trans.2.2 ∪ (pair.2.transToRemove grid).2.2)) init).1 ↔
        i ∈ init.1 ∨ ∃ p ∈ m, i ∈ (p.2.transToRemove grid).1) ∧
      (∀ i, i ∈ (m.foldl (fun trans pair =>
          (trans.1 ∪ (pair.2.transToRemove grid).1,
            trans.2.1 ∪ (pair.2.transToRemove grid).2.1,
            trans.2.2 ∪ (pair.2.transToRemove grid).2.2)) init).2.1 ↔
        i ∈ init.2.1 ∨ ∃ p ∈ m, i ∈ (p.2.transToRemove grid).2.1) ∧
      (∀ i, i ∈ (m.foldl (fun trans pair =>
          (trans.1 ∪ (pair.2.transToRemove grid).1,
            trans.2.1 ∪ (pair.2.transToRemove grid).2.1,
            trans.2.2 ∪ (pair.2.transToRemove grid).2.2)) init).2.2 ↔
        i ∈ init.2.2 ∨ ∃ p ∈ m, i ∈ (p.2.transToRemove grid).2.2) := by
  induction m with
  | nil => intro init; simp
  | cons p m ih =>
    intro init
    rw [List.foldl_cons]
    obtain ⟨h1, h2, h3⟩ := ih (init.1 ∪ (p.2.transToRemove grid).1,
      init.2.1 ∪ (p.2.transToRemove grid).2.1, init.2.2 ∪ (p.2.transToRemove grid).2.2)
    refine ⟨fun i => ?_, fun i => ?_, fun i => ?_⟩
    · rw [h1 i]
      simp only [Finset.mem_union, List.mem_cons, exists_eq_or_imp]
      tauto
    · rw [h2 i]
      simp only [Finset.mem_union, List.mem_cons, exists_eq_or_imp]
      tauto
    · rw [h3 i]
      simp only [Finset.mem_union, List.mem_cons, exists_eq_or_imp]
      tauto

/-! ## Lemmas: `AquiferConfig` -/

theorem option_bind_some {α β : Type} (a : α) (f : α → Option β) : (some a >>= f) = f a := rfl

theorem tokenOp_roundTrips {Tok T : Type} (inj : T → Tok) (proj : Tok → Option T)
    (h : ∀ x, proj (inj x) = some x) : (tokenOp inj proj).RoundTrips := by
  refine ⟨fun x => [inj x], fun x buffer => rfl, fun x target rest => ?_⟩
  show (match proj (inj x) with
    | some y => some (y, Serializer.unpacking rest)
    | none => none) = _
  rw [h x]

theorem serializeOp_roundTrips {Tok Aquancon : Type} (opFetp : SerializeOp Tok Aquifetp)
    (opCt : SerializeOp Tok AquiferCT) (opConn : SerializeOp Tok Aquancon)
    (opNum : SerializeOp Tok NumericalAquifers)
    (hFetp : opFetp.RoundTrips) (hCt : opCt.RoundTrips) (hConn : opConn.RoundTrips)
    (hNum : opNum.RoundTrips) :
    (AquiferConfig.serializeOp opFetp opCt opConn opNum).RoundTrips := by
  obtain ⟨eF, pF, uF⟩ := hFetp
  obtain ⟨eC, pC, uC⟩ := hCt
  obtain ⟨eA, pA, uA⟩ := hConn
  obtain ⟨eN, pN, uN⟩ := hNum
  refine ⟨fun c => eF c.aquifetp ++ (eC c.aquiferct ++ (eA c.aqconn ++ eN c.numerical_aquifers)),
    ?_, ?_⟩
  · intro x buffer
    unfold AquiferConfig.serializeOp
    simp only [pF, pC, pA, pN, option_bind_some, pure, List.append_assoc]
  · intro x target rest
    unfold AquiferConfig.serializeOp
    simp only [List.append_assoc, uF, uC, uA, uN, option_bind_some, pure]

theorem eq_true_iff {Aquancon : Type} [DecidableEq Aquancon] (c d : AquiferConfig Aquancon) :
    c.eq d = true ↔
      c.aquifetp = d.aquifetp ∧ c.aquiferct = d.aquiferct ∧ c.aqconn = d.aqconn ∧
        c.numerical_aquifers = d.numerical_aquifers := by
  unfold AquiferConfig.eq
  simp only [Bool.and_eq_true, decide_eq_true_eq, and_assoc]

theorem any_id_pos (l : List AnalyticAquifer) (aquID : Int)
    (h : (l.any fun a => decide (a.id = aquID)) = true) : l.length > 0 := by
  cases l with
  | nil => simp at h
  | cons a l => simp

theorem numerical_hasAquifer_pos (reg : NumericalAquifers) (aquID : Int)
    (h : reg.hasAquifer aquID = true) : reg.size > 0 := by
  unfold NumericalAquifers.hasAquifer at h
  unfold NumericalAquifers.size
  cases hm : reg.aquifers_ with
  | nil =>
    rw [hm] at h
    simp [StdMap.find?] at h
  | cons a l => simp

/-! ## Lemmas: `AquiferConstantFlux` -/

namespace UnorderedMap

variable {κ β : Type} [DecidableEq κ]

theorem find?_insert_or_assign (m : UnorderedMap κ β) (k : κ) (v : β) (q : κ) :
    find? (insert_or_assign m k v) q = if q = k then some v else find? m q := by
  induction m with
  | nil =>
    by_cases hq : q = k
    · subst hq
      simp [insert_or_assign, find?]
    · have hq2 : ¬ k = q := fun h => hq h.symm
      simp [insert_or_assign, find?, hq, hq2]
  | cons e m ih =>
    obtain ⟨k0, v0⟩ := e
    by_cases h0 : k0 = k
    · subst h0
      by_cases hq : q = k0
      · subst hq
        simp [insert_or_assign, find?]
      · have hq2 : ¬ k0 = q := fun h => hq h.symm
        simp [insert_or_assign, find?, hq, hq2]
    · by_cases hq : q = k
      · subst hq
        simp [insert_or_assign, find?, h0, ih]
      · by_cases h1 : k0 = q
        · subst h1
          simp [insert_or_assign, find?, h0]
        · simp [insert_or_assign, find?, h0, h1, ih, hq]

theorem keys_insert_or_assign (m : UnorderedMap κ β) (k : κ) (v : β) :
    (insert_or_assign m k v).map Prod.fst =
      if k ∈ m.map Prod.fst then m.map Prod.fst else m.map Prod.fst ++ [k] := by
  induction m with
  | nil => simp [insert_or_assign]
  | cons e m ih =>
    obtain ⟨k0, v0⟩ := e
    by_cases h0 : k0 = k
    · subst h0
      simp [insert_or_assign]
    · have h0b : ¬ k = k0 := fun h => h0 h.symm
      simp only [insert_or_assign, h0, if_false, List.map_cons, ih, List.mem_cons, h0b, false_or]
      by_cases hk : k ∈ m.map Prod.fst
      · rw [if_pos hk, if_pos hk]
      · rw [if_neg hk, if_neg hk]
        rfl

theorem nodup_insert_or_assign (m : UnorderedMap κ β) (k : κ) (v : β)
    (h : (m.map Prod.fst).Nodup) : ((insert_or_assign m k v).map Prod.fst).Nodup := by
  rw [keys_insert_or_assign]
  by_cases hk : k ∈ m.map Prod.fst
  · rw [if_pos hk]
    exact h
  · rw [if_neg hk]
    rw [List.nodup_append]
    refine ⟨h, List.nodup_singleton _, ?_⟩
    intro a ha hb
    rw [List.mem_singleton] at hb
    subst hb
    exact hk ha

theorem length_insert_or_assign (m : UnorderedMap κ β) (k : κ) (v : β) :
    (insert_or_assign m k v).length =
      if k ∈ m.map Prod.fst then m.length else m.length + 1 := by
  have h := congrArg List.length (keys_insert_or_assign m k v)
  rw [List.length_map] at h
  rw [h]
  by_cases hk : k ∈ m.map Prod.fst
  · rw [if_pos hk, if_pos hk, List.length_map]
  · rw [if_neg hk, if_neg hk, List.length_append, List.length_map]
    rfl

theorem mem_insert_or_assign_of_ne (m : UnorderedMap κ β) (k : κ) (v : β) (p : κ × β)
    (hp : p.1 ≠ k) : p ∈ insert_or_assign m k v ↔ p ∈ m := by
  induction m with
  | nil =>
    simp only [insert_or_assign, List.mem_singleton, List.not_mem_nil, iff_false]
    intro h
    rw [h] at hp
    exact hp rfl
  | cons e m ih =>
    obtain ⟨k0, v0⟩ := e
    by_cases h0 : k0 = k
    · subst h0
      simp only [insert_or_assign, if_true, List.mem_cons]
      constructor
      · rintro (h | h)
        · rw [h] at hp
          exact absurd rfl hp
        · exact Or.inr h
      · rintro (h | h)
        · rw [h] at hp
          exact absurd rfl hp
        · exact Or.inr h
    · simp only [insert_or_assign, h0, if_false, List.mem_cons, ih]

theorem find?_of_mem_unordered (m : UnorderedMap κ β) (h : (m.map Prod.fst).Nodup) (k : κ) (v : β)
    (hm : (k, v) ∈ m) : find? m k = some v := by
  induction m with
  | nil => simp at hm
  | cons e m ih =>
    obtain ⟨k0, v0⟩ := e
    simp only [List.map_cons, List.nodup_cons] at h
    rcases List.mem_cons.mp hm with heq | hm2
    · simp only [Prod.mk.injEq] at heq
      simp [find?, heq.1, heq.2]
    · have hne : ¬ k0 = k := by
        intro h2
        apply h.1
        rw [h2]
        exact List.mem_map.mpr ⟨(k, v), hm2, rfl⟩
      simp [find?, hne, ih h.2 hm2]

end UnorderedMap

theorem handleAQUFLUX_keys (self : AquiferConstantFlux) (record : AqufluxRecord)
    (h : (self.m_aquifers.map Prod.fst).Nodup) :
    ((self.handleAQUFLUX record).m_aquifers.map Prod.fst).Nodup ∧
    ∀ p ∈ (self.handleAQUFLUX record).m_aquifers, p.1 = record.AQUIFER_ID →
      p.2 = SingleAquiferConstantFlux.construct record := by
  have hnd : ((self.handleAQUFLUX record).m_aquifers.map Prod.fst).Nodup :=
    UnorderedMap.nodup_insert_or_assign _ _ _ h
  refine ⟨hnd, ?_⟩
  intro p hp hid
  have h1 := UnorderedMap.find?_of_mem_unordered _ hnd p.1 p.2 hp
  have h2 : UnorderedMap.find? (self.handleAQUFLUX record).m_aquifers p.1 =
      some (SingleAquiferConstantFlux.construct record) := by
    unfold AquiferConstantFlux.handleAQUFLUX
    simp only [SingleAquiferConstantFlux.construct]
    rw [UnorderedMap.find?_insert_or_assign, if_pos hid]
  rw [h1] at h2
  exact Option.some.inj h2

theorem handleAQUFLUX_inv (self : AquiferConstantFlux) (record : AqufluxRecord)
    (h : (self.m_aquifers.map Prod.fst).Nodup ∧ ∀ p ∈ self.m_aquifers, p.1 = p.2.id) :
    ((self.handleAQUFLUX record).m_aquifers.map Prod.fst).Nodup ∧
      ∀ p ∈ (self.handleAQUFLUX record).m_aquifers, p.1 = p.2.id := by
  obtain ⟨h1, h2⟩ := handleAQUFLUX_keys self record h.1
  refine ⟨h1, ?_⟩
  intro p hp
  by_cases hid : p.1 = record.AQUIFER_ID
  · rw [h2 p hp hid, hid]
    rfl
  · apply h.2 p
    have hp2 : p ∈ UnorderedMap.insert_or_assign self.m_aquifers record.AQUIFER_ID
        (SingleAquiferConstantFlux.construct record) := hp
    exact (UnorderedMap.mem_insert_or_assign_of_ne _ _ _ p hid).mp hp2

theorem foldl_handleAQUFLUX_inv (records : List AqufluxRecord) :
    ∀ self : AquiferConstantFlux,
      ((self.m_aquifers.map Prod.fst).Nodup ∧ ∀ p ∈ self.m_aquifers, p.1 = p.2.id) →
      (((records.foldl AquiferConstantFlux.handleAQUFLUX self).m_aquifers.map Prod.fst).Nodup ∧
        ∀ p ∈ (records.foldl AquiferConstantFlux.handleAQUFLUX self).m_aquifers,
          p.1 = p.2.id) := by
  induction records with
  | nil => intro self h; exact h
  | cons r rs ih =>
    intro self h
    exact ih _ (handleAQUFLUX_inv self r h)

theorem constantFlux_construct_eq (deck : Deck) :
    AquiferConstantFlux.construct deck =
      (deck.AQUFLUX.headD []).foldl AquiferConstantFlux.handleAQUFLUX ⟨[]⟩ := by
  unfold AquiferConstantFlux.construct
  cases deck.AQUFLUX with
  | nil => rfl
  | cons kw kws => rfl

/-! ## Lemmas: `Valve::fromWSEGVAVLV` -/

namespace StdMap

variable {κ β : Type} [LinearOrder κ]

theorem mem_keys_set (m : StdMap κ β) (k : κ) (v : β) (q : κ)
    (h : q ∈ (set m k v).map Prod.fst) : q = k ∨ q ∈ m.map Prod.fst := by
  induction m with
  | nil =>
    simp [set] at h
    exact Or.inl h
  | cons e m ih =>
    obtain ⟨k0, v0⟩ := e
    simp only [set] at h
    by_cases h1 : k < k0
    · simp only [h1, if_true, List.map_cons, List.mem_cons] at h
      simpa using h
    · by_cases h2 : k = k0
      · subst h2
        simp only [lt_irrefl, if_false, if_true, List.map_cons, List.mem_cons] at h
        exact Or.inr (by simpa using h)
      · simp only [h1, h2, if_false, List.map_cons, List.mem_cons] at h
        rcases h with h | h
        · exact Or.inr (by simp [h])
        · rcases ih h with h | h
          · exact Or.inl h
          · exact Or.inr (by simp [h])

theorem set_sorted (m : StdMap κ β) (k : κ) (v : β)
    (h : (m.map Prod.fst).Pairwise (· < ·)) :
    ((set m k v).map Prod.fst).Pairwise (· < ·) := by
  induction m with
  | nil => simp [set]
  | cons e m ih =>
    obtain ⟨k0, v0⟩ := e
    simp only [List.map_cons, List.pairwise_cons] at h
    simp only [set]
    by_cases h1 : k < k0
    · simp only [h1, if_true, List.map_cons, List.pairwise_cons, List.mem_cons]
      refine ⟨?_, h.1, h.2⟩
      rintro a (rfl | ha)
      · exact h1
      · exact lt_trans h1 (h.1 a ha)
    · by_cases h2 : k = k0
      · subst h2
        simp only [lt_irrefl, if_false, if_true, List.map_cons, List.pairwise_cons]
        exact h
      · simp only [h1, h2, if_false, List.map_cons, List.pairwise_cons]
        refine ⟨?_, ih h.2⟩
        intro a ha
        rcases mem_keys_set m k v a ha with rfl | ha
        · exact lt_of_le_of_ne (not_lt.mp h1) (fun h3 => h2 h3.symm)
        · exact h.1 a ha

end StdMap

theorem valvesOf_append_singleton (keyword : List WsegvalvRecord) (r : WsegvalvRecord)
    (well : String) :
    valvesOf (keyword ++ [r]) well =
      valvesOf keyword well ++
        if r.WELL = well then [(r.SEGMENT_NUMBER, Valve.construct r)] else [] := by
  unfold valvesOf
  rw [List.filter_append, List.map_append]
  by_cases h : r.WELL = well <;> simp [h]

theorem valvesOf_eq_nil (keyword : List WsegvalvRecord) (well : String)
    (h : ∀ r ∈ keyword, r.WELL ≠ well) : valvesOf keyword well = [] := by
  unfold valvesOf
  rw [List.map_eq_nil_iff, List.filter_eq_nil_iff]
  intro r hr
  simpa using h r hr

theorem valve_holds_nil : Valve.Holds [] [] where
  sorted := List.Pairwise.nil
  absent := fun _ _ => rfl
  present := fun _ h => by
    obtain ⟨r, hr, -⟩ := h
    exact absurd hr (List.not_mem_nil _)

theorem valve_holds_addRecord (res : StdMap String (List (Int × Valve)))
    (keyword : List WsegvalvRecord) (r : WsegvalvRecord) (h : Valve.Holds res keyword) :
    Valve.Holds (Valve.addRecord res r) (keyword ++ [r]) := by
  have hlist : (StdMap.find? res r.WELL).getD [] = valvesOf keyword r.WELL := by
    by_cases hex : ∃ x ∈ keyword, x.WELL = r.WELL
    · rw [h.present _ hex]
      rfl
    · have hall : ∀ x ∈ keyword, x.WELL ≠ r.WELL := fun x hx heq => hex ⟨x, hx, heq⟩
      rw [h.absent _ hall, valvesOf_eq_nil keyword _ hall]
      rfl
  refine ⟨?_, ?_, ?_⟩
  · exact StdMap.set_sorted _ _ _ h.sorted
  · intro well hall
    have hne : r.WELL ≠ well := hall r (List.mem_append_right _ (List.mem_singleton.mpr rfl))
    unfold Valve.addRecord
    simp only
    rw [StdMap.find?_set, if_neg hne]
    exact h.absent well (fun x hx => hall x (List.mem_append_left _ hx))
  · intro well hex
    unfold Valve.addRecord
    simp only
    rw [StdMap.find?_set, valvesOf_append_singleton, hlist]
    by_cases hw : r.WELL = well
    · rw [if_pos hw, if_pos hw, hw]
    · rw [if_neg hw, if_neg hw, List.append_nil]
      apply h.present
      obtain ⟨x, hx, hxw⟩ := hex
      rcases List.mem_append.mp hx with hx | hx
      · exact ⟨x, hx, hxw⟩
      · rw [List.mem_singleton] at hx
        subst hx
        exact absurd hxw hw

theorem valve_holds_foldl (keyword : List WsegvalvRecord) :
    ∀ (res : StdMap String (List (Int × Valve))) (done : List WsegvalvRecord),
      Valve.Holds res done → Valve.Holds (keyword.foldl Valve.addRecord res) (done ++ keyword) := by
  induction keyword with
  | nil => intro res done h; simpa using h
  | cons r rs ih =>
    intro res done h
    have := ih (Valve.addRecord res r) (done ++ [r]) (valve_holds_addRecord res done r h)
    rw [List.append_assoc] at this
    exact this

theorem sum_indicator_none {κ : Type} [DecidableEq κ] (keys : List κ) (k0 : κ)
    (h : k0 ∉ keys) : (keys.map fun k => if k0 = k then 1 else 0).sum = 0 := by
  induction keys with
  | nil => rfl
  | cons k ks ih =>
    simp only [List.mem_cons, not_or] at h
    rw [List.map_cons, List.sum_cons, if_neg h.1, ih h.2]

theorem sum_indicator_one {κ : Type} [DecidableEq κ] (keys : List κ) (hnd : keys.Nodup)
    (k0 : κ) (h : k0 ∈ keys) : (keys.map fun k => if k0 = k then 1 else 0).sum = 1 := by
  induction keys with
  | nil => simp at h
  | cons k ks ih =>
    simp only [List.nodup_cons] at hnd
    rw [List.map_cons, List.sum_cons]
    by_cases hk : k0 = k
    · subst hk
      rw [if_pos rfl, sum_indicator_none ks k0 hnd.1]
    · rw [if_neg hk]
      rcases List.mem_cons.mp h with h1 | h1
      · exact absurd h1 hk
      · rw [ih hnd.2 h1]

theorem sum_length_filter {α κ : Type} [DecidableEq κ] (f : α → κ) (keys : List κ)
    (hnd : keys.Nodup) :
    ∀ l : List α, (∀ x ∈ l, f x ∈ keys) →
      (keys.map fun k => (l.filter fun x => decide (f x = k)).length).sum = l.length := by
  intro l
  induction l with
  | nil => intro _; simp
  | cons c cs ih =>
    intro h
    have hstep : ∀ k, ((c :: cs).filter fun x => decide (f x = k)).length =
        (if f c = k then 1 else 0) + (cs.filter fun x => decide (f x = k)).length := by
      intro k
      by_cases hk : f c = k
      · simp [hk, Nat.add_comm]
      · simp [hk]
    simp only [hstep]
    rw [List.sum_map_add, sum_indicator_one keys hnd _ (h c (List.mem_cons_self _ _)),
      ih (fun d hd => h d (List.mem_cons_of_mem _ hd)), List.length_cons, Nat.add_comm]

/-! ## Lemmas: what `generateConnections` returns -/

theorem foldlM_invariant {α β : Type} (P : List β → Prop)
    (step : List β → α → Except Error (List β)) (xs : List α)
    (h : ∀ x ∈ xs, ∀ acc out, P acc → step acc x = .ok out → P out) :
    ∀ acc out, P acc → xs.foldlM step acc = .ok out → P out := by
  induction xs with
  | nil =>
    intro acc out hP hf
    simp only [List.foldlM, pure, Except.pure, Except.ok.injEq] at hf
    rw [← hf]
    exact hP
  | cons x xs ih =>
    intro acc out hP hf
    rw [List.foldlM_cons] at hf
    cases hs : step acc x with
    | error e =>
      rw [hs] at hf
      exact Except.noConfusion hf
    | ok mid =>
      rw [hs, except_bind_ok] at hf
      exact ih (fun y hy => h y (List.mem_cons_of_mem _ hy)) mid out
        (h x (List.mem_cons_self _ _) acc mid hP hs) hf

theorem sizeLoop_mem (lo hi : Nat) (l : List Nat) (h : sizeLoop lo hi = .ok l) :
    ∀ x ∈ l, lo ≤ x ∧ x ≤ hi := by
  unfold sizeLoop at h
  by_cases hm : hi = SIZE_MAX
  · rw [if_pos hm] at h
    exact Except.noConfusion h
  · rw [if_neg hm] at h
    simp only [Except.ok.injEq] at h
    subst h
    intro x hx
    rw [List.mem_range'_1] at hx
    omega

theorem visitCell_mem (grid : EclipseGrid) (record : AquconRecord) (actnum : List Int)
    (k j i : Nat) (acc out : List NumAquiferCon)
    (h : NumAquiferCon.visitCell grid record actnum k j acc i = .ok out) :
    ∀ c ∈ out, c ∈ acc ∨ c = NumAquiferCon.ofCell grid record i j k := by
  unfold NumAquiferCon.visitCell at h
  cases hv : vecGet actnum (grid.getGlobalIndex i j k) with
  | error e =>
    rw [hv] at h
    exact Except.noConfusion h
  | ok a =>
    rw [hv, except_bind_ok] at h
    by_cases ha : a = 0
    · rw [if_pos ha] at h
      simp only [pure, Except.pure, Except.ok.injEq] at h
      subst h
      exact fun c hc => Or.inl hc
    · rw [if_neg ha] at h
      split at h
      · simp only [pure, Except.pure, Except.ok.injEq] at h
        subst h
        intro c hc
        rcases List.mem_append.mp hc with hc | hc
        · exact Or.inl hc
        · exact Or.inr (List.mem_singleton.mp hc)
      · simp only [pure, Except.pure, Except.ok.injEq] at h
        subst h
        exact fun c hc => Or.inl hc

theorem generateConnections_mem (grid : EclipseGrid) (record : AquconRecord)
    (actnum : List Int) (cons : List NumAquiferCon)
    (h : NumAquiferCon.generateConnections grid record actnum = .ok cons) :
    ∀ c ∈ cons, NumAquiferCon.FromRecord grid record c := by
  unfold NumAquiferCon.generateConnections at h
  simp only at h
  cases hk : sizeLoop (toSizeT (record.K1 - 1)) (toSizeT (record.K2 - 1)) with
  | error e =>
    rw [hk] at h
    exact Except.noConfusion h
  | ok ks =>
    rw [hk, except_bind_ok] at h
    refine foldlM_invariant
      (fun acc => ∀ c ∈ acc, NumAquiferCon.FromRecord grid record c) _ ks ?_ [] cons
      (fun c hc => absurd hc (List.not_mem_nil _)) h
    intro k hkm acc out hacc hstep
    have hkb := sizeLoop_mem _ _ ks hk k hkm
    cases hj : sizeLoop (toSizeT (record.J1 - 1)) (toSizeT (record.J2 - 1)) with
    | error e =>
      rw [hj] at hstep
      exact Except.noConfusion hstep
    | ok js =>
      rw [hj, except_bind_ok] at hstep
      refine foldlM_invariant
        (fun acc => ∀ c ∈ acc, NumAquiferCon.FromRecord grid record c) _ js ?_ acc out hacc hstep
      intro j hjm acc2 out2 hacc2 hstep2
      have hjb := sizeLoop_mem _ _ js hj j hjm
      cases hi : sizeLoop (toSizeT (record.I1 - 1)) (toSizeT (record.I2 - 1)) with
      | error e =>
        rw [hi] at hstep2
        exact Except.noConfusion hstep2
      | ok is =>
        rw [hi, except_bind_ok] at hstep2
        refine foldlM_invariant
          (fun acc => ∀ c ∈ acc, NumAquiferCon.FromRecord grid record c) _ is ?_ acc2 out2
          hacc2 hstep2
        intro i him acc3 out3 hacc3 hstep3
        have hib := sizeLoop_mem _ _ is hi i him
        intro c hc
        rcases visitCell_mem grid record actnum k j i acc3 out3 hstep3 c hc with hc | hc
        · exact hacc3 c hc
        · exact ⟨i, j, k, hib, hjb, hkb, hc⟩

/-! ## Lemmas: the frame of `updateCellProps` -/

theorem vecSet_inv {α : Type} (v out : List α) (a : Nat) (x : α)
    (h : vecSet v a x = .ok out) :
    out.length = v.length ∧ ∀ i, i ≠ a → out[i]? = v[i]? := by
  unfold vecSet at h
  by_cases hlt : a < v.length
  · rw [if_pos hlt] at h
    simp only [Except.ok.injEq] at h
    subst h
    exact ⟨List.length_set _ _ _, fun i hi => List.getElem?_set_ne (fun h2 => hi h2.symm)⟩
  · rw [if_neg hlt] at h
    exact Except.noConfusion h

theorem agreesOn_refl (keep : Nat → Prop) (props : CellProps) :
    CellProps.AgreesOn keep props props :=
  ⟨⟨rfl, rfl, rfl, rfl⟩, fun _ _ => ⟨rfl, rfl, rfl, rfl⟩⟩

theorem agreesOn_trans (keep1 keep2 : Nat → Prop) (a b c : CellProps)
    (h1 : CellProps.AgreesOn keep1 a b) (h2 : CellProps.AgreesOn keep2 b c) :
    CellProps.AgreesOn (fun i => keep1 i ∧ keep2 i) a c := by
  obtain ⟨⟨l1, l2, l3, l4⟩, f1⟩ := h1
  obtain ⟨⟨m1, m2, m3, m4⟩, f2⟩ := h2
  refine ⟨⟨m1.trans l1, m2.trans l2, m3.trans l3, m4.trans l4⟩, ?_⟩
  intro i hi
  obtain ⟨a1, a2, a3, a4⟩ := f1 i hi.1
  obtain ⟨b1, b2, b3, b4⟩ := f2 i hi.2
  exact ⟨b1.trans a1, b2.trans a2, b3.trans a3, b4.trans a4⟩

theorem updateCell_inv (grid : EclipseGrid) (props out : CellProps)
    (cell : NumericalAquiferCell)
    (h : SingleNumericalAquifer.updateCell grid props cell = .ok out) :
    CellProps.AgreesOn (fun i => grid.activeIndexOpt cell.global_index ≠ some i) props out := by
  unfold SingleNumericalAquifer.updateCell at h
  unfold EclipseGrid.activeIndex at h
  cases ha : grid.activeIndexOpt cell.global_index with
  | none =>
    rw [ha] at h
    exact Except.noConfusion h
  | some a =>
    rw [ha] at h
    simp only [except_bind_ok] at h
    cases h1 : vecSet props.pore_volume a cell.pore_volume with
    | error e =>
      rw [h1] at h
      exact Except.noConfusion h
    | ok v1 =>
      rw [h1, except_bind_ok] at h
      cases h2 : vecSet props.satnum a cell.sattable with
      | error e =>
        rw [h2] at h
        exact Except.noConfusion h
      | ok v2 =>
        rw [h2, except_bind_ok] at h
        cases h3 : vecSet props.pvtnum a cell.pvttable with
        | error e =>
          rw [h3] at h
          exact Except.noConfusion h
        | ok v3 =>
          rw [h3, except_bind_ok] at h
          cases h4 : vecSet props.cell_depth a cell.depth with
          | error e =>
            rw [h4] at h
            exact Except.noConfusion h
          | ok v4 =>
            rw [h4, except_bind_ok] at h
            simp only [pure, Except.pure, Except.ok.injEq] at h
            subst h
            obtain ⟨l1, f1⟩ := vecSet_inv _ _ _ _ h1
            obtain ⟨l2, f2⟩ := vecSet_inv _ _ _ _ h2
            obtain ⟨l3, f3⟩ := vecSet_inv _ _ _ _ h3
            obtain ⟨l4, f4⟩ := vecSet_inv _ _ _ _ h4
            refine ⟨⟨l1, l2, l3, l4⟩, ?_⟩
            intro i hi
            have hia : i ≠ a := fun heq => hi (by rw [heq])
            exact ⟨f1 i hia, f2 i hia, f3 i hia, f4 i hia⟩

theorem foldlM_updateCell_inv (grid : EclipseGrid) (cells : List NumericalAquiferCell) :
    ∀ props out : CellProps,
      cells.foldlM (SingleNumericalAquifer.updateCell grid) props = .ok out →
      CellProps.AgreesOn
        (fun i => ∀ c ∈ cells, grid.activeIndexOpt c.global_index ≠ some i) props out := by
  induction cells with
  | nil =>
    intro props out h
    simp only [List.foldlM, pure, Except.pure, Except.ok.injEq] at h
    subst h
    exact agreesOn_refl _ _
  | cons c cs ih =>
    intro props out h
    rw [List.foldlM_cons] at h
    cases hs : SingleNumericalAquifer.updateCell grid props c with
    | error e =>
      rw [hs] at h
      exact Except.noConfusion h
    | ok mid =>
      rw [hs, except_bind_ok] at h
      have h1 := updateCell_inv grid props mid c hs
      have h2 := ih mid out h
      obtain ⟨hl, hf⟩ := agreesOn_trans _ _ _ _ _ h1 h2
      refine ⟨hl, fun i hi => hf i ⟨hi c (List.mem_cons_self _ _),
        fun d hd => hi d (List.mem_cons_of_mem _ hd)⟩⟩

/-! ## Lemmas: the members of the sets of `transToRemove` -/

theorem construct_cellcpp_inactive (record : AqunumRecord) (grid : EclipseGrid)
    (field_props : FieldPropsManager)
    (h : grid.activeIndexOpt (grid.getGlobalIndex (toSizeT (record.I - 1))
      (toSizeT (record.J - 1)) (toSizeT (record.K - 1))) = none) :
    CellCpp.NumericalAquiferCell.construct record grid field_props =
      .error (.notActive (grid.getGlobalIndex (toSizeT (record.I - 1))
        (toSizeT (record.J - 1)) (toSizeT (record.K - 1)))) := by
  unfold CellCpp.NumericalAquiferCell.construct EclipseGrid.activeIndex
  simp only [h]
  rfl

theorem cellcpp_eq_true_iff (a b : CellCpp.NumericalAquiferCell) :
    a.eq b = true ↔ a = b := by
  unfold CellCpp.NumericalAquiferCell.eq
  simp only [Bool.and_eq_true, decide_eq_true_eq]
  constructor
  · intro h
    cases a
    cases b
    simp only at h
    obtain ⟨⟨⟨⟨⟨⟨⟨⟨⟨⟨⟨⟨⟨h1, h2⟩, h3⟩, h4⟩, h5⟩, h6⟩, h7⟩, h8⟩, h9⟩, h10⟩, h11⟩, h12⟩, h13⟩, h14⟩ := h
    subst h1 h2 h3 h4 h5 h6 h7 h8 h9 h10 h11 h12 h13 h14
    rfl
  · intro h
    subst h
    simp

/-! ## Lemmas: the message buffer of `AquiferData` -/

theorem write_eq (x : data.AquiferData) (buffer : data.MessageBuffer) :
    x.write buffer = buffer ++ x.values := by
  unfold data.AquiferData.write data.AquiferData.values
  cases x.aquFet <;> simp [data.MessageBuffer.writeInt, data.MessageBuffer.writeDouble]

theorem length_values (x : data.AquiferData) :
    x.values.length = if x.aquFet.isSome then 10 else 7 := by
  unfold data.AquiferData.values
  cases x.aquFet <;> rfl

theorem read_values (x target : data.AquiferData) (rest : data.MessageBuffer) :
    target.read (x.values ++ rest) = .ok (target.received x, rest) := by
  obtain ⟨id, p, q, v, ip, dd, ty, fet⟩ := x
  cases fet with
  | none => rfl
  | some f => rfl

theorem writeAll_eq (xs : List data.AquiferData) :
    ∀ buffer : data.MessageBuffer,
      data.writeAll xs buffer = buffer ++ xs.flatMap data.AquiferData.values := by
  induction xs with
  | nil => intro buffer; simp [data.writeAll]
  | cons x xs ih =>
    intro buffer
    have hstep : data.writeAll (x :: xs) buffer = data.writeAll xs (x.write buffer) := rfl
    rw [hstep, ih, write_eq, List.flatMap_cons, List.append_assoc]

theorem readAll_values (xs : List data.AquiferData) :
    ∀ (targets : List data.AquiferData) (rest : data.MessageBuffer),
      targets.length = xs.length →
      data.readAll targets (xs.flatMap data.AquiferData.values ++ rest) =
        .ok (List.zipWith data.AquiferData.received targets xs, rest) := by
  induction xs with
  | nil =>
    intro targets rest h
    cases targets with
    | nil => rfl
    | cons t ts => simp at h
  | cons x xs ih =>
    intro targets rest h
    cases targets with
    | nil => simp at h
    | cons t ts =>
      simp only [List.length_cons, Nat.add_right_cancel_iff] at h
      rw [List.flatMap_cons, List.append_assoc]
      unfold data.readAll
      rw [read_values]
      simp only [ih ts rest h]
      rfl

theorem readInt_ok (buffer rest : data.MessageBuffer) (v : Int)
    (h : data.MessageBuffer.readInt buffer = .ok (v, rest)) : buffer = .int v :: rest := by
  unfold data.MessageBuffer.readInt at h
  split at h
  · simp only [Except.ok.injEq, Prod.mk.injEq] at h
    rw [h.1, h.2]
  · exact Except.noConfusion h

theorem readDouble_ok (buffer rest : data.MessageBuffer) (v : ℚ)
    (h : data.MessageBuffer.readDouble buffer = .ok (v, rest)) : buffer = .double v :: rest := by
  unfold data.MessageBuffer.readDouble at h
  split at h
  · simp only [Except.ok.injEq, Prod.mk.injEq] at h
    rw [h.1, h.2]
  · exact Except.noConfusion h

theorem except_bind_ok_inv {ε α β : Type} (x : Except ε α) (f : α → Except ε β) (b : β)
    (h : (x >>= f) = .ok b) : ∃ a, x = .ok a ∧ f a = .ok b := by
  cases x with
  | error e => exact Except.noConfusion h
  | ok a => exact ⟨a, rfl, h⟩

theorem read_ok_inv (target out : data.AquiferData) (buffer rest : data.MessageBuffer)
    (h : target.read buffer = .ok (out, rest)) :
    ∃ (id : Int) (p q v ip dd : ℚ) (aqu : Int) (tail : data.MessageBuffer),
      buffer = .int id :: .double p :: .double q :: .double v :: .double ip :: .double dd ::
        .int aqu :: tail ∧
      ((aqu ≠ 1 ∧ tail = rest ∧
          out = { target with
            aquiferID := id, pressure := p, fluxRate := q, volume := v
            initPressure := ip, datumDepth := dd }) ∨
        (aqu = 1 ∧ ∃ a b c : ℚ, tail = .double a :: .double b :: .double c :: rest ∧
          out = { target with
            aquiferID := id, pressure := p, fluxRate := q, volume := v
            initPressure := ip, datumDepth := dd
            aquFet := some { initVolume := a, prodIndex := b, timeConstant := c } })) := by
  unfold data.AquiferData.read at h
  obtain ⟨⟨id, b1⟩, h1, k1⟩ := except_bind_ok_inv _ _ _ h
  obtain ⟨⟨p, b2⟩, h2, k2⟩ := except_bind_ok_inv _ _ _ k1
  obtain ⟨⟨q, b3⟩, h3, k3⟩ := except_bind_ok_inv _ _ _ k2
  obtain ⟨⟨v, b4⟩, h4, k4⟩ := except_bind_ok_inv _ _ _ k3
  obtain ⟨⟨ip, b5⟩, h5, k5⟩ := except_bind_ok_inv _ _ _ k4
  obtain ⟨⟨dd, b6⟩, h6, k6⟩ := except_bind_ok_inv _ _ _ k5
  obtain ⟨⟨aqu, b7⟩, h7, k7⟩ := except_bind_ok_inv _ _ _ k6
  clear h k1 k2 k3 k4 k5 k6
  have e1 := readInt_ok _ _ _ h1
  have e2 := readDouble_ok _ _ _ h2
  have e3 := readDouble_ok _ _ _ h3
  have e4 := readDouble_ok _ _ _ h4
  have e5 := readDouble_ok _ _ _ h5
  have e6 := readDouble_ok _ _ _ h6
  have e7 := readInt_ok _ _ _ h7
  clear h1 h2 h3 h4 h5 h6 h7
  subst e7 e6 e5 e4 e3 e2 e1
  refine ⟨id, p, q, v, ip, dd, aqu, b7, rfl, ?_⟩
  dsimp only at k7
  by_cases ha : aqu = 1
  · right
    rw [if_pos ha] at k7
    obtain ⟨⟨a, c1⟩, g1, m1⟩ := except_bind_ok_inv _ _ _ k7
    obtain ⟨⟨b, c2⟩, g2, m2⟩ := except_bind_ok_inv _ _ _ m1
    obtain ⟨⟨c, c3⟩, g3, m3⟩ := except_bind_ok_inv _ _ _ m2
    clear k7 m1 m2
    have f1 := readDouble_ok _ _ _ g1
    have f2 := readDouble_ok _ _ _ g2
    have f3 := readDouble_ok _ _ _ g3
    clear g1 g2 g3
    subst f3 f2 f1
    simp only [pure, Except.pure, Except.ok.injEq, Prod.mk.injEq] at m3
    exact ⟨ha, a, b, c, by rw [m3.2], m3.1.symm⟩
  · left
    rw [if_neg ha] at k7
    simp only [pure, Except.pure, Except.ok.injEq, Prod.mk.injEq] at k7
    exact ⟨ha, k7.2, k7.1.symm⟩

/-! ## Lemmas: the number of cells of a range, records and cells, the last record of an id -/

theorem length_flatMap_const {α β : Type} (f : α → List β) (n : Nat) :
    ∀ l : List α, (∀ a ∈ l, (f a).length = n) → (l.flatMap f).length = l.length * n := by
  intro l
  induction l with
  | nil => intro _; simp
  | cons a l ih =>
    intro h
    rw [List.flatMap_cons, List.length_append, h a (List.mem_cons_self _ _),
      ih (fun b hb => h b (List.mem_cons_of_mem _ hb)), List.length_cons]
    ring

theorem length_rangeCells (i1 i2 j1 j2 k1 k2 : Nat) :
    (rangeCells i1 i2 j1 j2 k1 k2).length =
      (k2 + 1 - k1) * ((j2 + 1 - j1) * (i2 + 1 - i1)) := by
  unfold rangeCells
  rw [length_flatMap_const _ ((j2 + 1 - j1) * (i2 + 1 - i1)), List.length_range']
  intro k _
  rw [length_flatMap_const _ (i2 + 1 - i1), List.length_range']
  intro j _
  rw [List.length_map, List.length_range']

theorem forall₂_exists_left {α β : Type} (R : α → β → Prop) :
    ∀ (l1 : List α) (l2 : List β), List.Forall₂ R l1 l2 → ∀ b ∈ l2, ∃ a ∈ l1, R a b := by
  intro l1 l2 h
  induction h with
  | nil => intro b hb; exact absurd hb (List.not_mem_nil _)
  | cons hab _ ih =>
    intro b hb
    rcases List.mem_cons.mp hb with rfl | hb
    · exact ⟨_, List.mem_cons_self _ _, hab⟩
    · obtain ⟨a, ha, hr⟩ := ih b hb
      exact ⟨a, List.mem_cons_of_mem _ ha, hr⟩

theorem forall₂_exists_right {α β : Type} (R : α → β → Prop) :
    ∀ (l1 : List α) (l2 : List β), List.Forall₂ R l1 l2 → ∀ a ∈ l1, ∃ b ∈ l2, R a b := by
  intro l1 l2 h
  induction h with
  | nil => intro a ha; exact absurd ha (List.not_mem_nil _)
  | cons hab _ ih =>
    intro a ha
    rcases List.mem_cons.mp ha with rfl | ha
    · exact ⟨_, List.mem_cons_self _ _, hab⟩
    · obtain ⟨b, hb, hr⟩ := ih a ha
      exact ⟨b, List.mem_cons_of_mem _ hb, hr⟩

theorem construct_without_keyword (deck : Deck) (grid : EclipseGrid)
    (field_props : FieldPropsManager) (actnum : List Int) (h : deck.AQUNUM = []) :
    NumericalAquifers.construct deck grid field_props actnum = .ok ⟨[]⟩ := by
  unfold NumericalAquifers.construct NumericalAquifers.run
  rw [h]
  rfl

theorem find?_foldl_handleAQUFLUX (records : List AqufluxRecord) (self : AquiferConstantFlux)
    (id : Int) :
    UnorderedMap.find? (records.foldl AquiferConstantFlux.handleAQUFLUX self).m_aquifers id =
      match (records.filter fun r => decide (r.AQUIFER_ID = id)).getLast? with
      | some r => some (SingleAquiferConstantFlux.construct r)
      | none => UnorderedMap.find? self.m_aquifers id := by
  induction records using List.reverseRecOn with
  | nil => rfl
  | append_singleton rs r ih =>
    rw [List.foldl_append, List.foldl_cons, List.foldl_nil]
    have hm : ((rs.foldl AquiferConstantFlux.handleAQUFLUX self).handleAQUFLUX r).m_aquifers =
        UnorderedMap.insert_or_assign
          (rs.foldl AquiferConstantFlux.handleAQUFLUX self).m_aquifers r.AQUIFER_ID
          (SingleAquiferConstantFlux.construct r) := rfl
    rw [hm, UnorderedMap.find?_insert_or_assign, List.filter_append]
    by_cases hid : id = r.AQUIFER_ID
    · have hid2 : r.AQUIFER_ID = id := hid.symm
      rw [if_pos hid]
      simp [List.filter_cons, hid2]
    · have hid2 : ¬ r.AQUIFER_ID = id := fun h => hid h.symm
      rw [if_neg hid, ih]
      simp [List.filter_cons, hid2]

/-! ## Lemmas: two records for one cell -/

theorem toInt_eq_iff (a b : Nat) : toInt a = toInt b ↔ a % 2 ^ 32 = b % 2 ^ 32 := by
  unfold toInt
  omega

theorem construct_duplicate_cell (deck : Deck) (grid : EclipseGrid)
    (field_props : FieldPropsManager) (actnum : List Int) (cells : List NumericalAquiferCell)
    (hres : resolvedCells grid field_props deck.AQUNUM.flatten = .ok cells)
    (p q : Nat) (a b : NumericalAquiferCell) (hpq : p < q)
    (ha : cells[p]? = some a) (hb : cells[q]? = some b)
    (heq : toInt a.global_index = toInt b.global_index) :
    NumericalAquifers.run deck grid field_props actnum = (⟨[]⟩, .error .rethrow) ∧
    NumericalAquifers.construct deck grid field_props actnum = .error .rethrow := by
  have hnd : ¬ (cells.map fun c => toInt c.global_index).Nodup :=
    (not_nodup_map_iff _ cells).mpr ⟨p, q, a, b, hpq, ha, hb, heq⟩
  have hcollect := (collectCells_eq grid field_props deck.AQUNUM.flatten cells ∅ [] hres).2
    (fun hgood => hnd hgood.1)
  have hne : deck.AQUNUM.isEmpty = false := by
    cases hd : deck.AQUNUM with
    | nil =>
      rw [hd] at hres
      simp only [List.flatten_nil, resolvedCells, Except.ok.injEq] at hres
      subst hres
      simp at ha
    | cons _ _ => rfl
  have hrun : NumericalAquifers.run deck grid field_props actnum = (⟨[]⟩, .error .rethrow) := by
    unfold NumericalAquifers.run
    simp only [hne, Bool.false_eq_true, if_false, hcollect]
  refine ⟨hrun, ?_⟩
  unfold NumericalAquifers.construct
  rw [hrun]
/-! ## Claims -/

/-- C1. `NumAquiferCon::generateConnections`: for a record whose range lies inside the grid, the
call returns a list whose cells are exactly the cells of the inclusive range
`I1..I2 × J1..J2 × K1..K2`, enumerated with `k` outermost and `i` innermost, that are active and
for which `allow_internal_cells` holds or the neighbour across the declared face is not an active
cell of the grid; each such cell occurs once and no other cell occurs.  A cell with an active
face neighbour is left out when `allow_internal_cells` is false and kept when it is true. -/
theorem generateConnections_spec (grid : EclipseGrid) (record : AquconRecord)
    (actnum : List Int) (h : record.InGrid grid actnum) :
    ∃ cons : List NumAquiferCon,
      NumAquiferCon.generateConnections grid record actnum = .ok cons ∧
      cons = (record.cells.filter (record.selects grid actnum)).map
        (fun c => NumAquiferCon.ofCell grid record c.1 c.2.1 c.2.2) ∧
      cons.map NumAquiferCon.coords = record.cells.filter (record.selects grid actnum) ∧
      (∀ i j k : Nat, (i, j, k) ∈ record.cells ↔
        (record.I1 ≤ i + 1 ∧ (i : Int) + 1 ≤ record.I2) ∧
        (record.J1 ≤ j + 1 ∧ (j : Int) + 1 ≤ record.J2) ∧
        (record.K1 ≤ k + 1 ∧ (k : Int) + 1 ≤ record.K2)) ∧
      record.cells.Pairwise cellBefore ∧
      (cons.map NumAquiferCon.coords).Pairwise cellBefore ∧
      (cons.map NumAquiferCon.coords).Nodup ∧
      (∀ c : Nat × Nat × Nat, c ∈ cons.map NumAquiferCon.coords ↔
        c ∈ record.cells ∧ actnum.getD (grid.getGlobalIndex c.1 c.2.1 c.2.2) 0 ≠ 0 ∧
          (record.ALLOW_INTERNAL_CELLS = true ∨
            AquiferHelpers.neighborCellInsideReservoirAndActive grid c.1 c.2.1 c.2.2
              record.CONNECT_FACE actnum = false)) ∧
      (∀ c ∈ record.cells, actnum.getD (grid.getGlobalIndex c.1 c.2.1 c.2.2) 0 ≠ 0 →
        AquiferHelpers.neighborCellInsideReservoirAndActive grid c.1 c.2.1 c.2.2
          record.CONNECT_FACE actnum = true →
        (record.ALLOW_INTERNAL_CELLS = false → c ∉ cons.map NumAquiferCon.coords) ∧
        (record.ALLOW_INTERNAL_CELLS = true → c ∈ cons.map NumAquiferCon.coords)) := by
  have hcoords := map_coords_ofCell grid record (record.cells.filter (record.selects grid actnum))
  have hpw : record.cells.Pairwise cellBefore := pairwise_rangeCells _ _ _ _ _ _
  have hmem : ∀ c : Nat × Nat × Nat,
      c ∈ record.cells.filter (record.selects grid actnum) ↔
        c ∈ record.cells ∧ actnum.getD (grid.getGlobalIndex c.1 c.2.1 c.2.2) 0 ≠ 0 ∧
          (record.ALLOW_INTERNAL_CELLS = true ∨
            AquiferHelpers.neighborCellInsideReservoirAndActive grid c.1 c.2.1 c.2.2
              record.CONNECT_FACE actnum = false) := by
    intro c
    rw [List.mem_filter]
    unfold AquconRecord.selects AquiferHelpers.neighborCellInsideReservoirAndActive
    simp
  refine ⟨_, generateConnections_eq grid record actnum h, rfl, hcoords, ?_, hpw, ?_, ?_, ?_, ?_⟩
  · intro i j k
    unfold AquconRecord.cells
    rw [mem_rangeCells]
    have := h.hI1.1
    have := h.hJ1.1
    have := h.hK1.1
    have := h.hI2.1
    have := h.hJ2.1
    have := h.hK2.1
    simp only
    omega
  · rw [hcoords]
    exact hpw.filter _
  · rw [hcoords]
    exact (nodup_of_pairwise_cellBefore _ hpw).filter _
  · intro c
    rw [hcoords]
    exact hmem c
  · intro c hc hact hnb
    rw [hcoords, hmem c]
    constructor
    · intro hallow hin
      rcases hin.2.2 with h1 | h1
      · rw [hallow] at h1
        exact Bool.noConfusion h1
      · rw [hnb] at h1
        exact Bool.noConfusion h1
    · intro hallow
      exact ⟨hc, hact, Or.inl hallow⟩

/-- C1, at a row of three active cells and the record `1 1 3 1 1 1 1 I+` without internal
cells: only the last cell of the row has no active neighbour across its `I+` face. -/
theorem generateConnections_spec_witness :
    (aquconRecord 1 1 3 1 1 1 1 .XPlus false).InGrid (cartesianGrid 3 1 1 [1, 1, 1]) [1, 1, 1] ∧
    ∃ cons : List NumAquiferCon,
      NumAquiferCon.generateConnections (cartesianGrid 3 1 1 [1, 1, 1])
        (aquconRecord 1 1 3 1 1 1 1 .XPlus false) [1, 1, 1] = .ok cons ∧
      cons.map NumAquiferCon.coords = [(2, 0, 0)] := by
  have hin : (aquconRecord 1 1 3 1 1 1 1 .XPlus false).InGrid
      (cartesianGrid 3 1 1 [1, 1, 1]) [1, 1, 1] := by
    refine ⟨by decide, by decide, by decide, by decide, by decide, by decide,
      by decide, by decide, by decide, ?_⟩
    intro i j k hi hj hk
    simp only [cartesianGrid] at hi hj hk ⊢
    simp only [List.length_cons, List.length_nil]
    omega
  obtain ⟨cons, h1, -, h3, -⟩ :=
    generateConnections_spec (cartesianGrid 3 1 1 [1, 1, 1])
      (aquconRecord 1 1 3 1 1 1 1 .XPlus false) [1, 1, 1] hin
  exact ⟨hin, cons, h1, by rw [h3]; decide⟩

/-- C3. `NumericalAquiferConnections::NumericalAquiferConnections`: with `cons` the connections
that the records of all `AQUCON` occurrences generate, in order, the constructor fails exactly
when two connections of `cons` have the same aquifer id and the same global index, and it then
fails with the error "declared more than once" for one of the generated connections; when it
returns, the map of each aquifer consists of exactly the entries `(global_index, connection)` of
the generated connections of that aquifer, in ascending key order. -/
theorem connections_construct_spec (deck : Deck) (grid : EclipseGrid) (actnum : List Int)
    (cons : List NumAquiferCon)
    (hgen : generatedConnections grid actnum deck.AQUCON.flatten = .ok cons) :
    ((∃ e, NumericalAquiferConnections.construct deck grid actnum = .error e) ↔
      ∃ (p q : Nat) (a b : NumAquiferCon), p < q ∧ cons[p]? = some a ∧ cons[q]? = some b ∧
        a.aquifer_id = b.aquifer_id ∧ a.global_index = b.global_index) ∧
    ((∃ e, NumericalAquiferConnections.construct deck grid actnum = .error e) →
      ∃ c ∈ cons, NumericalAquiferConnections.construct deck grid actnum =
        .error (.declaredTwice (c.I + 1) (c.J + 1) (c.K + 1) c.aquifer_id)) ∧
    (∀ self, NumericalAquiferConnections.construct deck grid actnum = .ok self →
      ∀ aqu_id,
        (NumericalAquiferConnections.entries self.connections_ aqu_id).Perm
          (entriesOf cons aqu_id) ∧
        ((NumericalAquiferConnections.entries self.connections_ aqu_id).map
          Prod.fst).Pairwise (· < ·) ∧
        (∀ g c, (g, c) ∈ NumericalAquiferConnections.entries self.connections_ aqu_id ↔
          c ∈ cons ∧ c.aquifer_id = aqu_id ∧ g = c.global_index)) := by
  have hkey : (¬ (cons.map NumAquiferCon.key).Nodup) ↔
      ∃ (p q : Nat) (a b : NumAquiferCon), p < q ∧ cons[p]? = some a ∧ cons[q]? = some b ∧
        a.aquifer_id = b.aquifer_id ∧ a.global_index = b.global_index := by
    rw [not_nodup_map_iff]
    simp only [NumAquiferCon.key, Prod.mk.injEq]
  have hfail : (∃ e, NumericalAquiferConnections.construct deck grid actnum = .error e) ↔
      ¬ (cons.map NumAquiferCon.key).Nodup := by
    constructor
    · rintro ⟨e, he⟩ hnd
      obtain ⟨self, hs, -⟩ := connections_construct_ok deck grid actnum cons hgen hnd
      rw [hs] at he
      exact Except.noConfusion he
    · intro hnd
      obtain ⟨c, -, hc⟩ := connections_construct_dup deck grid actnum cons hgen hnd
      exact ⟨_, hc⟩
  refine ⟨hfail.trans hkey, ?_, ?_⟩
  · intro he
    exact connections_construct_dup deck grid actnum cons hgen (hfail.mp he)
  · intro self hs aqu_id
    have hnd : (cons.map NumAquiferCon.key).Nodup := by
      by_contra hnd
      obtain ⟨e, he⟩ := hfail.mpr hnd
      rw [hs] at he
      exact Except.noConfusion he
    obtain ⟨self2, hs2, hh⟩ := connections_construct_ok deck grid actnum cons hgen hnd
    rw [hs] at hs2
    cases hs2
    exact ⟨hh.perm aqu_id, hh.sorted aqu_id, fun g c => mem_entries_iff _ _ hh aqu_id g c⟩

/-- C2, at the failing input: the two `AQUNUM` occurrences of the deck `clashDeck` give the
middle cell of the row to the aquifers 1 and 2.  The constructor reaches its bare `throw;` with
the map `aquifers_` still empty; no exception is being handled there, so the statement calls
`std::terminate`, and the caller receives no configuration error. -/
theorem duplicate_cell_reaches_bare_throw :
    ∃ cells a b, resolvedCells rowGrid (uniformProps 3) clashDeck.AQUNUM.flatten = .ok cells ∧
      cells[0]? = some a ∧ cells[1]? = some b ∧ a.global_index = b.global_index ∧
      a.aquifer_id ≠ b.aquifer_id ∧
      NumericalAquifers.run clashDeck rowGrid (uniformProps 3) [1, 1, 1]
        = (⟨[]⟩, .error .rethrow) ∧
      NumericalAquifers.construct clashDeck rowGrid (uniformProps 3) [1, 1, 1]
        = .error .rethrow :=
  ⟨_, _, _, rfl, rfl, rfl, rfl, by decide, rfl, rfl⟩

/-- C3, at the deck `rowDeck`, whose two `AQUCON` occurrences generate the cells 2 and 0 for
aquifer 1: the constructor returns and the map of aquifer 1 holds the two entries. -/
theorem connections_construct_spec_witness :
    generatedConnections rowGrid [1, 1, 1] rowDeck.AQUCON.flatten =
      .ok [NumAquiferCon.ofCell rowGrid (aquconRecord 1 3 3 1 1 1 1 .XPlus false) 2 0 0,
        NumAquiferCon.ofCell rowGrid (aquconRecord 1 1 1 1 1 1 1 .XMinus false) 0 0 0] ∧
    ∃ self, NumericalAquiferConnections.construct rowDeck rowGrid [1, 1, 1] = .ok self ∧
      (NumericalAquiferConnections.entries self.connections_ 1).Perm
        (entriesOf [NumAquiferCon.ofCell rowGrid (aquconRecord 1 3 3 1 1 1 1 .XPlus false) 2 0 0,
          NumAquiferCon.ofCell rowGrid (aquconRecord 1 1 1 1 1 1 1 .XMinus false) 0 0 0] 1) :=
  ⟨rfl, _, rfl,
    ((connections_construct_spec rowDeck rowGrid [1, 1, 1] _ rfl).2.2 _ rfl 1).1⟩

/-- C4, as the claim states it, fails at the deck `rowDeck`: its records generate the cell with
global index 2 before the cell with global index 0, and the connection sequence of aquifer 1
lists the cell 0 before the cell 2. -/
theorem connection_order_counterexample :
    ∃ reg aq, NumericalAquifers.construct rowDeck rowGrid (uniformProps 3) [1, 1, 1] = .ok reg ∧
      StdMap.find? reg.aquifers_ 1 = some aq ∧
      generatedConnections rowGrid [1, 1, 1] rowDeck.AQUCON.flatten =
        .ok [NumAquiferCon.ofCell rowGrid (aquconRecord 1 3 3 1 1 1 1 .XPlus false) 2 0 0,
          NumAquiferCon.ofCell rowGrid (aquconRecord 1 1 1 1 1 1 1 .XMinus false) 0 0 0] ∧
      aq.connections_ =
        [NumAquiferCon.ofCell rowGrid (aquconRecord 1 1 1 1 1 1 1 .XMinus false) 0 0 0,
          NumAquiferCon.ofCell rowGrid (aquconRecord 1 3 3 1 1 1 1 .XPlus false) 2 0 0] ∧
      aq.connections_.map (fun c => c.global_index) = [0, 2] ∧
      aq.connections_.map (fun c => c.global_index) ≠ [2, 0] :=
  ⟨_, _, rfl, rfl, rfl, rfl, by decide, by decide⟩

/-- C4, amended. In every registry that `NumericalAquifers::NumericalAquifers` builds, the
connection sequence of each aquifer is in strictly ascending order of `global_index`, the order
of the aquifer's map in `NumericalAquiferConnections`, and each of its members is a connection
that the records generated for that aquifer. -/
theorem connections_ascending (deck : Deck) (grid : EclipseGrid)
    (field_props : FieldPropsManager) (actnum : List Int) (reg : NumericalAquifers)
    (h : NumericalAquifers.construct deck grid field_props actnum = .ok reg) :
    ∀ p ∈ reg.aquifers_,
      (p.2.connections_.map fun c => c.global_index).Pairwise (· < ·) ∧
      ∃ cons, generatedConnections grid actnum deck.AQUCON.flatten = .ok cons ∧
        ∀ con ∈ p.2.connections_, con ∈ cons ∧ con.aquifer_id = toSizeT p.1 := by
  intro p hp
  obtain ⟨cons, inner, hgen, hmem, hsorted, hcon⟩ :=
    construct_ok_entries deck grid field_props actnum reg h p hp
  have hkeys : inner.map (fun e => e.2.global_index) = inner.map Prod.fst := by
    apply List.map_congr_left
    intro e he
    exact (((hmem e.1 e.2).mp he).2.2).symm
  constructor
  · rw [hcon]
    have hsub : (((inner.map Prod.snd).filter fun con =>
        !p.2.cells_.any fun cell => cell.sameCoordinates con.I con.J con.K).map
          fun c => c.global_index).Sublist ((inner.map Prod.snd).map fun c => c.global_index) :=
      (List.filter_sublist _).map _
    refine List.Pairwise.sublist hsub ?_
    rw [List.map_map]
    exact hkeys ▸ hsorted
  · refine ⟨cons, hgen, ?_⟩
    intro con hc
    rw [hcon] at hc
    have hc2 := (List.mem_filter.mp hc).1
    rw [List.mem_map] at hc2
    obtain ⟨e, he, rfl⟩ := hc2
    have := (hmem e.1 e.2).mp he
    exact ⟨this.1, this.2.1⟩

/-- C4, amended, at the deck `rowDeck`. -/
theorem connections_ascending_witness :
    ∃ reg, NumericalAquifers.construct rowDeck rowGrid (uniformProps 3) [1, 1, 1] = .ok reg ∧
      ∀ p ∈ reg.aquifers_,
        (p.2.connections_.map fun c => c.global_index).Pairwise (· < ·) ∧
        ∃ cons, generatedConnections rowGrid [1, 1, 1] rowDeck.AQUCON.flatten = .ok cons ∧
          ∀ con ∈ p.2.connections_, con ∈ cons ∧ con.aquifer_id = toSizeT p.1 :=
  ⟨_, rfl, connections_ascending rowDeck rowGrid (uniformProps 3) [1, 1, 1] _ rfl⟩

/-- C5, at the failing input: in a row of two active cells the aquifer that the deck `pairDeck`
builds owns the cell `(0, 0, 0)`, whose neighbour across `I+` is an active cell of the grid and
which has no neighbour across `I-`; `transToRemove` returns the empty set for every axis, where
the claim has the global index 0 in the set of the axis `X`. -/
theorem transToRemove_misses_neighbour :
    ∃ reg aq, NumericalAquifers.construct pairDeck pairGrid (uniformProps 2) [1, 1] = .ok reg ∧
      StdMap.find? reg.aquifers_ 1 = some aq ∧
      aq.cells_.map (fun c => (c.I, c.J, c.K, c.global_index)) = [(0, 0, 0, 0)] ∧
      AquiferHelpers.neighborCellInsideReservoirAndActiveGrid pairGrid 0 0 0 .XPlus = true ∧
      AquiferHelpers.neighborCellInsideReservoirAndActiveGrid pairGrid 0 0 0 .XMinus = false ∧
      aq.transToRemove pairGrid = (∅, ∅, ∅) :=
  ⟨_, _, rfl, rfl, by decide, by decide, by decide, by decide⟩

/-- C8, as the claim states it, fails at the deck `interiorDeck`: its one `AQUNUM` cell and its
`AQUCON` record resolve without any duplicate, the only declared connection cell is filtered out
as an interior cell, and the constructor ends in the error "does not have any connections". -/
theorem construct_fails_without_connections :
    (∃ cells, resolvedCells rowGrid (uniformProps 3) interiorDeck.AQUNUM.flatten = .ok cells ∧
      (cells.map fun c => c.global_index).Nodup) ∧
    (∃ cons, generatedConnections rowGrid [1, 1, 1] interiorDeck.AQUCON.flatten = .ok cons ∧
      (cons.map NumAquiferCon.key).Nodup ∧ cons = []) ∧
    NumericalAquifers.construct interiorDeck rowGrid (uniformProps 3) [1, 1, 1]
      = .error (.noConnections 1) :=
  ⟨⟨_, rfl, by decide⟩, ⟨_, rfl, by decide, rfl⟩, rfl⟩

/-- C8, amended. For a deck whose `AQUNUM` records resolve to global indices that are pairwise
distinct as `int` values, that is modulo `2^32`, and whose `AQUCON` records generate no cell
twice for one aquifer, the constructor returns exactly when every aquifer that owns a cell has
at least one generated connection, however many declared connection cells were filtered out;
when every declared connection cell of an aquifer is filtered out, it ends in the error "does
not have any connections" for such an aquifer. -/
theorem construct_succeeds_iff (deck : Deck) (grid : EclipseGrid)
    (field_props : FieldPropsManager) (actnum : List Int)
    (cells : List NumericalAquiferCell) (cons : List NumAquiferCon)
    (hres : resolvedCells grid field_props deck.AQUNUM.flatten = .ok cells)
    (hcells : (cells.map fun c => toInt c.global_index).Nodup)
    (hgen : generatedConnections grid actnum deck.AQUCON.flatten = .ok cons)
    (hcons : (cons.map NumAquiferCon.key).Nodup) :
    ((∃ reg, NumericalAquifers.construct deck grid field_props actnum = .ok reg) ↔
      ∀ cell ∈ cells, ∃ con ∈ cons, con.aquifer_id = toSizeT cell.aquifer_id) ∧
    (∀ e, NumericalAquifers.construct deck grid field_props actnum = .error e →
      ∃ cell ∈ cells, e = .noConnections (toSizeT cell.aquifer_id) ∧
        ∀ con ∈ cons, con.aquifer_id ≠ toSizeT cell.aquifer_id) := by
  by_cases hne : deck.AQUNUM.isEmpty = true
  · have hrun : NumericalAquifers.run deck grid field_props actnum = (⟨[]⟩, .ok ()) := by
      unfold NumericalAquifers.run
      simp only [hne, if_true]
    have hc := construct_of_run_ok deck grid field_props actnum _ hrun
    have hnil : cells = [] := by
      have hd : deck.AQUNUM = [] := List.isEmpty_iff.mp hne
      rw [hd] at hres
      simp only [List.flatten_nil, resolvedCells, Except.ok.injEq] at hres
      exact hres.symm
    subst hnil
    refine ⟨⟨fun _ cell hcell => absurd hcell (List.not_mem_nil _), fun _ => ⟨_, hc⟩⟩, ?_⟩
    intro e he
    rw [hc] at he
    exact Except.noConfusion he
  · have hne2 : deck.AQUNUM.isEmpty = false := by simpa using hne
    obtain ⟨conns, hh, hrun⟩ :=
      run_of_resolved deck grid field_props actnum cells cons hres hcells hgen hcons hne2
    have hkeys := (foldl_addAquiferCell cells ⟨[]⟩ (by simp)).2
    have hkey : ∀ id : Int,
        id ∈ (cells.foldl NumericalAquifers.addAquiferCell ⟨[]⟩).aquifers_.map Prod.fst ↔
          ∃ c ∈ cells, c.aquifer_id = id := by
      intro id
      rw [hkeys id]
      simp
    by_cases hall : ∀ p ∈ (cells.foldl NumericalAquifers.addAquiferCell ⟨[]⟩).aquifers_,
        StdMap.find? conns.connections_ (toSizeT p.1) ≠ none
    · have hb := bindConnections_ok conns _ hall
      rw [hb] at hrun
      have hc := construct_of_run_ok deck grid field_props actnum _ hrun
      refine ⟨⟨fun _ cell hcell => ?_, fun _ => ⟨_, hc⟩⟩, ?_⟩
      · have hk := (hkey cell.aquifer_id).mpr ⟨cell, hcell, rfl⟩
        rw [List.mem_map] at hk
        obtain ⟨p, hp, hp1⟩ := hk
        have hsome := hall p hp
        rw [Ne, hh.none_iff, hp1] at hsome
        push_neg at hsome
        exact hsome
      · intro e he
        rw [hc] at he
        exact Except.noConfusion he
    · push_neg at hall
      obtain ⟨m2, p, hp, hpn, hb⟩ := bindConnections_error conns _ hall
      rw [hb] at hrun
      have hc := construct_of_run_error deck grid field_props actnum _ _ hrun
      obtain ⟨cell, hcell, hid⟩ := (hkey p.1).mp (List.mem_map.mpr ⟨p, hp, rfl⟩)
      have hnone := (hh.none_iff (toSizeT p.1)).mp hpn
      refine ⟨⟨fun ⟨reg, hreg⟩ => ?_, fun hex => ?_⟩, ?_⟩
      · rw [hc] at hreg
        exact Except.noConfusion hreg
      · obtain ⟨con, hcon, hcid⟩ := hex cell hcell
        rw [hid] at hcid
        exact absurd hcid (hnone con hcon)
      · intro e he
        rw [hc] at he
        simp only [Except.error.injEq] at he
        refine ⟨cell, hcell, ?_, ?_⟩
        · rw [hid, ← he]
        · rw [hid]
          exact hnone

/-- C8, amended, at the deck `ownCellDeck`: one of the three declared connection cells is
dropped, the aquifer keeps a generated connection, and the constructor returns. -/
theorem construct_succeeds_iff_witness :
    ∃ cells cons, resolvedCells rowGrid (uniformProps 3) ownCellDeck.AQUNUM.flatten = .ok cells ∧
      (cells.map fun c => toInt c.global_index).Nodup ∧
      generatedConnections rowGrid [1, 1, 1] ownCellDeck.AQUCON.flatten = .ok cons ∧
      ((∃ reg, NumericalAquifers.construct ownCellDeck rowGrid (uniformProps 3) [1, 1, 1]
          = .ok reg) ↔
        ∀ cell ∈ cells, ∃ con ∈ cons, con.aquifer_id = toSizeT cell.aquifer_id) :=
  ⟨_, _, rfl, by decide, rfl,
    (construct_succeeds_iff ownCellDeck rowGrid (uniformProps 3) [1, 1, 1] _ _ rfl
      (by decide) rfl (by decide)).1⟩

/-- C9, at the failing input: in the row `gapGrid` the cell with global index 1 has the active
index 0.  For the `AQUNUM` record of that cell with every optional item defaulted, the constructor
of NumericalAquifer.cpp reads the arrays `PORO`, `PVTNUM`, `SATNUM` and the depth array at the
global index 1, which are the entries of the cell with active index 1, while the constructor of
NumericalAquiferCell.cpp reads them at the active index 0 and takes the depth from the grid. -/
theorem cell_defaults_read_at_global_index :
    ∃ (c : NumericalAquiferCell) (d : CellCpp.NumericalAquiferCell),
      NumericalAquiferCell.construct (aqunumRecord 1 2 1 1) gapGrid gapProps = .ok c ∧
      CellCpp.NumericalAquiferCell.construct (aqunumRecord 1 2 1 1) gapGrid gapProps = .ok d ∧
      c.global_index = 1 ∧ d.global_index = 1 ∧ gapGrid.activeIndex 1 = .ok 0 ∧
      (gapProps.get_double "PORO")[0]? = some (1 / 4) ∧ c.porosity = 1 / 2 ∧ d.porosity = 1 / 4 ∧
      (gapProps.get_int "PVTNUM")[0]? = some 1 ∧ c.pvttable = 2 ∧ d.pvttable = 1 ∧
      (gapProps.get_int "SATNUM")[0]? = some 1 ∧ c.sattable = 2 ∧ d.sattable = 1 ∧
      gapGrid.getCellDepth 1 = 100 ∧ c.depth = 200 ∧ d.depth = 100 ∧
      c.init_pressure = none ∧ d.init_pressure = none := by
  refine ⟨_, _, rfl, rfl, rfl, rfl, rfl, rfl, rfl, rfl, rfl, rfl, rfl, rfl, rfl, rfl, ?_, rfl, ?_,
    rfl, rfl⟩
  · show (100 : ℚ) * ((1 : Nat) : ℚ) = 100
    norm_num
  · show (100 : ℚ) * ((1 : Nat) : ℚ) = 100
    norm_num

/-- C10. For a record with a length other than zero, a cell that either constructor returns has
`transmissibility = 2 * permeability * area / length`; the cell of NumericalAquifer.cpp stores
`pore_volume = porosity * area * length`, and for the cell of NumericalAquiferCell.cpp
`cellVolume()` is `area * length` and `poreVolume()` is `porosity * area * length`, with the
resolved porosity and with area, length and permeability the values of the record. -/
theorem cell_derived_quantities (record : AqunumRecord) (grid : EclipseGrid)
    (field_props : FieldPropsManager) (hlen : record.LENGTH ≠ 0) :
    (∀ c, NumericalAquiferCell.construct record grid field_props = .ok c →
      c.area = record.CROSS_SECTION ∧ c.length = record.LENGTH ∧ c.permeability = record.PERM ∧
      c.length ≠ 0 ∧
      c.transmissibility = 2 * c.permeability * c.area / c.length ∧
      c.transmissibility * c.length = 2 * c.permeability * c.area ∧
      c.pore_volume = c.porosity * c.area * c.length) ∧
    (∀ d, CellCpp.NumericalAquiferCell.construct record grid field_props = .ok d →
      d.area = record.CROSS_SECTION ∧ d.length = record.LENGTH ∧ d.permeability = record.PERM ∧
      d.length ≠ 0 ∧
      d.transmissibility = 2 * d.permeability * d.area / d.length ∧
      d.transmissibility * d.length = 2 * d.permeability * d.area ∧
      d.cellVolume = d.area * d.length ∧
      d.poreVolume = d.porosity * d.area * d.length) := by
  constructor
  · intro c h
    obtain ⟨porosity, depth, pvttable, sattable, -, -, -, -, rfl⟩ :=
      construct_cell_ok record grid field_props c h
    refine ⟨rfl, rfl, rfl, hlen, rfl, ?_, ?_⟩
    · show 2 * record.PERM * record.CROSS_SECTION / record.LENGTH * record.LENGTH = _
      rw [div_mul_cancel₀ _ hlen]
    · show record.LENGTH * record.CROSS_SECTION * porosity = _
      ring
  · intro d h
    obtain ⟨a, porosity, pvttable, sattable, -, -, -, -, rfl⟩ :=
      construct_cellcpp_ok record grid field_props d h
    refine ⟨rfl, rfl, rfl, hlen, rfl, ?_, rfl, ?_⟩
    · show 2 * record.PERM * record.CROSS_SECTION / record.LENGTH * record.LENGTH = _
      rw [div_mul_cancel₀ _ hlen]
    · show porosity * (record.CROSS_SECTION * record.LENGTH) = _
      ring

/-- C10, at the record of the middle cell of `rowGrid`, of unit area, length and permeability:
both constructors return a cell, of transmissibility 2. -/
theorem cell_derived_quantities_witness :
    (aqunumRecord 1 2 1 1).LENGTH ≠ 0 ∧
    ∃ (c : NumericalAquiferCell) (d : CellCpp.NumericalAquiferCell),
      NumericalAquiferCell.construct (aqunumRecord 1 2 1 1) rowGrid (uniformProps 3) = .ok c ∧
      CellCpp.NumericalAquiferCell.construct (aqunumRecord 1 2 1 1) rowGrid (uniformProps 3)
        = .ok d ∧
      c.transmissibility * c.length = 2 * c.permeability * c.area ∧
      c.pore_volume = c.porosity * c.area * c.length ∧
      d.poreVolume = d.porosity * d.area * d.length := by
  have hlen : (aqunumRecord 1 2 1 1).LENGTH ≠ 0 := by
    show (1 : ℚ) ≠ 0
    exact one_ne_zero
  have h := cell_derived_quantities (aqunumRecord 1 2 1 1) rowGrid (uniformProps 3) hlen
  exact ⟨hlen, _, _, rfl, rfl, (h.1 _ rfl).2.2.2.2.2.1, (h.1 _ rfl).2.2.2.2.2.2,
    (h.2 _ rfl).2.2.2.2.2.2.2⟩

/-- C11. `NumericalAquifers::updateCellProps`: when every aquifer cell has an active index that
lies inside the four arrays and the active indices of the cells are pairwise distinct, the call
returns, and afterwards each aquifer cell `c` with active index `a` has `pore_volume[a]` equal to
its pore volume, `satnum[a]` to its SAT table, `pvtnum[a]` to its PVT table and `cell_depth[a]`
to its depth, whatever the arrays held at `a` before. -/
theorem updateCellProps_spec (reg : NumericalAquifers) (grid : EclipseGrid) (props : CellProps)
    (hin : ∀ c ∈ reg.cells, ∃ a, grid.activeIndexOpt c.global_index = some a ∧
      a < props.pore_volume.length ∧ a < props.satnum.length ∧
      a < props.pvtnum.length ∧ a < props.cell_depth.length)
    (hnd : (reg.cells.map grid.activeOf).Nodup) :
    ∃ out, reg.updateCellProps grid props = .ok out ∧
      ∀ c ∈ reg.cells, ∀ a, grid.activeIndex c.global_index = .ok a →
        out.pore_volume[a]? = some c.pore_volume ∧ out.satnum[a]? = some c.sattable ∧
        out.pvtnum[a]? = some c.pvttable ∧ out.cell_depth[a]? = some c.depth := by
  have hrun : reg.updateCellProps grid props = _ :=
    (updateCellProps_eq grid reg.aquifers_ props).trans
      (foldlM_updateCell grid reg.cells props hin)
  refine ⟨_, hrun, ?_⟩
  · intro c hc a ha
    obtain ⟨b, hb, h1, h2, h3, h4⟩ := hin c hc
    have hab : grid.activeOf c = a := by
      unfold EclipseGrid.activeIndex at ha
      unfold EclipseGrid.activeOf
      rw [hb] at ha ⊢
      simp only [Except.ok.injEq] at ha
      exact ha
    have hba : b = a := by
      unfold EclipseGrid.activeIndex at ha
      rw [hb] at ha
      simp only [Except.ok.injEq] at ha
      exact ha
    subst hba
    rw [← hab]
    rw [← hab] at h1 h2 h3 h4
    exact ⟨overwritten_at _ _ _ hnd c hc _ h1, overwritten_at _ _ _ hnd c hc _ h2,
      overwritten_at _ _ _ hnd c hc _ h3, overwritten_at _ _ _ hnd c hc _ h4⟩

/-- C11, at the registry of the deck `rowDeck`, whose one cell has the active index 1, and four
arrays of three zeros. -/
theorem updateCellProps_spec_witness :
    ∃ reg, NumericalAquifers.construct rowDeck rowGrid (uniformProps 3) [1, 1, 1] = .ok reg ∧
      reg.cells.map rowGrid.activeOf = [1] ∧
      ∃ out, reg.updateCellProps rowGrid (zeroProps 3) = .ok out ∧
        ∀ c ∈ reg.cells, ∀ a, rowGrid.activeIndex c.global_index = .ok a →
          out.pore_volume[a]? = some c.pore_volume ∧ out.satnum[a]? = some c.sattable ∧
          out.pvtnum[a]? = some c.pvttable ∧ out.cell_depth[a]? = some c.depth :=
  ⟨_, rfl, by decide,
    updateCellProps_spec _ rowGrid (zeroProps 3)
      (fun c hc => by
        have h1 := List.mem_singleton.mp hc
        subst h1
        exact ⟨1, rfl, by decide, by decide, by decide, by decide⟩)
      (by decide)⟩

/-- C12. In every registry that `NumericalAquifers::NumericalAquifers` builds, the global
indices of the storage cells of all aquifers together are pairwise distinct: no two cell entries,
of the same or of different aquifers, have the same `global_index`. -/
theorem cells_distinct (deck : Deck) (grid : EclipseGrid) (field_props : FieldPropsManager)
    (actnum : List Int) (reg : NumericalAquifers)
    (h : NumericalAquifers.construct deck grid field_props actnum = .ok reg) :
    (reg.cells.map fun c => c.global_index).Nodup ∧
    ∀ (i j : Nat) (a b : NumericalAquiferCell), i < j → reg.cells[i]? = some a →
      reg.cells[j]? = some b → a.global_index ≠ b.global_index := by
  obtain ⟨cells, -, hnd, hsorted, hcells, -⟩ :=
    construct_ok_cells deck grid field_props actnum reg h
  have hmain : (reg.cells.map fun c => c.global_index).Nodup := by
    unfold NumericalAquifers.cells
    rw [List.map_flatMap, List.nodup_flatMap]
    constructor
    · intro p hp
      rw [(hcells p hp).1]
      exact List.Nodup.sublist ((List.filter_sublist _).map _) hnd
    · rw [List.pairwise_map] at hsorted
      refine hsorted.imp_of_mem ?_
      intro p q hp hq hlt x hx hy
      have hx : x ∈ List.map (fun c => c.global_index) p.2.cells_ := hx
      have hy : x ∈ List.map (fun c => c.global_index) q.2.cells_ := hy
      rw [(hcells p hp).1] at hx
      rw [(hcells q hq).1] at hy
      obtain ⟨c, hc, rfl⟩ := List.mem_map.mp hx
      obtain ⟨d, hd, hdc⟩ := List.mem_map.mp hy
      unfold cellsOf at hc hd
      rw [List.mem_filter] at hc hd
      have hcd : d = c := List.inj_on_of_nodup_map hnd hd.1 hc.1 hdc
      subst hcd
      have h1 : d.aquifer_id = p.1 := by simpa using hc.2
      have h2 : d.aquifer_id = q.1 := by simpa using hd.2
      rw [← h1, ← h2] at hlt
      exact lt_irrefl _ hlt
  refine ⟨hmain, ?_⟩
  intro i j a b hij ha hb heq
  exact (not_nodup_map_iff (fun c : NumericalAquiferCell => c.global_index) reg.cells).mpr
    ⟨i, j, a, b, hij, ha, hb, heq⟩ hmain

/-- C19. When `NumericalAquifers::NumericalAquifers` returns, with `cells` the cells built from
the records of all `AQUNUM` occurrences in deck order, the cell sequence of the aquifer `A` is
the subsequence of `cells` of the cells whose aquifer id is `A`; every stored cell has the id of
the aquifer that stores it, every cell of `cells` is stored, and the number of stored cells is
the number of records. -/
theorem cells_cumulative (deck : Deck) (grid : EclipseGrid) (field_props : FieldPropsManager)
    (actnum : List Int) (reg : NumericalAquifers)
    (h : NumericalAquifers.construct deck grid field_props actnum = .ok reg) :
    ∃ cells,
      List.Forall₂ (fun r c => NumericalAquiferCell.construct r grid field_props = .ok c ∧
        c.aquifer_id = r.AQUIFER_ID) deck.AQUNUM.flatten cells ∧
      (∀ p ∈ reg.aquifers_,
        p.2.cells_ = cells.filter (fun c => decide (c.aquifer_id = p.1)) ∧
        ∀ c ∈ p.2.cells_, c.aquifer_id = p.1 ∧ c.aquifer_id = p.2.id_) ∧
      (∀ c ∈ cells, ∃ p ∈ reg.aquifers_, p.1 = c.aquifer_id ∧ c ∈ p.2.cells_) ∧
      (reg.aquifers_.map fun p => p.2.cells_.length).sum = deck.AQUNUM.flatten.length ∧
      reg.cells.length = deck.AQUNUM.flatten.length := by
  obtain ⟨cells, hres, -, hsorted, hcells, hkeys⟩ :=
    construct_ok_cells deck grid field_props actnum reg h
  have hf := resolvedCells_forall₂ grid field_props _ _ hres
  have hsum : (reg.aquifers_.map fun p => p.2.cells_.length).sum = deck.AQUNUM.flatten.length := by
    have h1 : (reg.aquifers_.map fun p => p.2.cells_.length) =
        (reg.aquifers_.map Prod.fst).map fun k => (cellsOf cells k).length := by
      rw [List.map_map]
      apply List.map_congr_left
      intro p hp
      show p.2.cells_.length = _
      rw [(hcells p hp).1]
      rfl
    rw [h1, sum_length_cellsOf _ (hsorted.imp fun hab => ne_of_lt hab) cells, hf.length_eq]
    intro c hc
    obtain ⟨p, hp, hid⟩ := hkeys c hc
    exact List.mem_map.mpr ⟨p, hp, hid⟩
  refine ⟨cells, hf, ?_, ?_, hsum, ?_⟩
  · intro p hp
    refine ⟨(hcells p hp).1, ?_⟩
    intro c hc
    rw [(hcells p hp).1] at hc
    unfold cellsOf at hc
    have h1 : c.aquifer_id = p.1 := by simpa using (List.mem_filter.mp hc).2
    exact ⟨h1, by rw [(hcells p hp).2.1]; exact h1⟩
  · intro c hc
    obtain ⟨p, hp, hid⟩ := hkeys c hc
    refine ⟨p, hp, hid, ?_⟩
    rw [(hcells p hp).1]
    unfold cellsOf
    exact List.mem_filter.mpr ⟨hc, by simp [hid]⟩
  · unfold NumericalAquifers.cells
    rw [List.length_flatMap]
    exact hsum

/-- C12, at the registry of the deck `sharedDeck`: its two aquifers store the cells with the
global indices 0 and 2. -/
theorem cells_distinct_witness :
    ∃ reg, NumericalAquifers.construct sharedDeck rowGrid (uniformProps 3) [1, 1, 1] = .ok reg ∧
      reg.cells.map (fun c => c.global_index) = [0, 2] ∧
      (reg.cells.map fun c => c.global_index).Nodup :=
  ⟨_, rfl, by decide,
    (cells_distinct sharedDeck rowGrid (uniformProps 3) [1, 1, 1] _ rfl).1⟩

/-- C19, at the registry of the deck `sharedDeck`, whose two `AQUNUM` occurrences hold one
record each: the two cells are stored, one in each aquifer. -/
theorem cells_cumulative_witness :
    ∃ reg, NumericalAquifers.construct sharedDeck rowGrid (uniformProps 3) [1, 1, 1] = .ok reg ∧
      reg.aquifers_.map (fun p => (p.1, p.2.cells_.map fun c => c.global_index))
        = [(1, [0]), (2, [2])] ∧
      ∃ cells,
        List.Forall₂ (fun r c =>
          NumericalAquiferCell.construct r rowGrid (uniformProps 3) = .ok c ∧
            c.aquifer_id = r.AQUIFER_ID) sharedDeck.AQUNUM.flatten cells ∧
        (∀ p ∈ reg.aquifers_,
          p.2.cells_ = cells.filter (fun c => decide (c.aquifer_id = p.1)) ∧
          ∀ c ∈ p.2.cells_, c.aquifer_id = p.1 ∧ c.aquifer_id = p.2.id_) ∧
        (∀ c ∈ cells, ∃ p ∈ reg.aquifers_, p.1 = c.aquifer_id ∧ c ∈ p.2.cells_) ∧
        (reg.aquifers_.map fun p => p.2.cells_.length).sum = sharedDeck.AQUNUM.flatten.length ∧
        reg.cells.length = sharedDeck.AQUNUM.flatten.length :=
  ⟨_, rfl, by decide,
    cells_cumulative sharedDeck rowGrid (uniformProps 3) [1, 1, 1] _ rfl⟩

/-- C13. For the object that `NumericalAquiferConnections::NumericalAquiferConnections` builds,
with `cons` the connections that the records generate: `getConnections(id)` fails exactly when
no member of `cons` belongs to the aquifer `id`, and then with the error "does not have any
connections"; otherwise it returns the map stored for `id`, which is not empty and in which
every key is the `global_index` of the connection it maps to, a generated connection of `id`. -/
theorem getConnections_spec (deck : Deck) (grid : EclipseGrid) (actnum : List Int)
    (self : NumericalAquiferConnections)
    (h : NumericalAquiferConnections.construct deck grid actnum = .ok self) :
    ∃ cons, generatedConnections grid actnum deck.AQUCON.flatten = .ok cons ∧
      ∀ aqu_id,
        ((∃ e, self.getConnections aqu_id = .error e) ↔ ∀ c ∈ cons, c.aquifer_id ≠ aqu_id) ∧
        ((∃ e, self.getConnections aqu_id = .error e) →
          self.getConnections aqu_id = .error (.noConnections aqu_id)) ∧
        (∀ m, self.getConnections aqu_id = .ok m →
          StdMap.find? self.connections_ aqu_id = some m ∧ m ≠ [] ∧
          ∀ g c, (g, c) ∈ m → g = c.global_index ∧ c.aquifer_id = aqu_id ∧ c ∈ cons) := by
  obtain ⟨cons, hgen, hh⟩ := connections_construct_holds deck grid actnum self h
  refine ⟨cons, hgen, fun aqu_id => ?_⟩
  unfold NumericalAquiferConnections.getConnections
  cases hf : StdMap.find? self.connections_ aqu_id with
  | none =>
    refine ⟨⟨fun _ => (hh.none_iff aqu_id).mp hf, fun _ => ⟨_, rfl⟩⟩, fun _ => rfl, ?_⟩
    intro m hm
    exact Except.noConfusion hm
  | some inner =>
    have hent : NumericalAquiferConnections.entries self.connections_ aqu_id = inner := by
      unfold NumericalAquiferConnections.entries
      rw [hf]
      rfl
    have hex : ¬ ∀ c ∈ cons, c.aquifer_id ≠ aqu_id := by
      intro hall
      rw [(hh.none_iff aqu_id).mpr hall] at hf
      exact Option.noConfusion hf
    refine ⟨⟨fun ⟨e, he⟩ => Except.noConfusion he, fun hall => absurd hall hex⟩,
      fun ⟨e, he⟩ => Except.noConfusion he, ?_⟩
    intro m hm
    simp only [Except.ok.injEq] at hm
    subst hm
    refine ⟨rfl, ?_, ?_⟩
    · intro hnil
      apply hex
      intro c hc hid
      have hmem := (mem_entries_iff _ _ hh aqu_id c.global_index c).mpr ⟨hc, hid, rfl⟩
      rw [hent, hnil] at hmem
      simp at hmem
    · intro g c hgc
      rw [← hent] at hgc
      have := (mem_entries_iff _ _ hh aqu_id g c).mp hgc
      exact ⟨this.2.2, this.2.1, this.1⟩

/-- C13, at the deck `rowDeck`, which generates connections for aquifer 1 only: the lookup for
aquifer 2 fails, the lookup for aquifer 1 returns the stored map. -/
theorem getConnections_spec_witness :
    ∃ self, NumericalAquiferConnections.construct rowDeck rowGrid [1, 1, 1] = .ok self ∧
      self.getConnections 2 = .error (.noConnections 2) ∧
      (∃ m, self.getConnections 1 = .ok m ∧ m.map Prod.fst = [0, 2]) ∧
      ∃ cons, generatedConnections rowGrid [1, 1, 1] rowDeck.AQUCON.flatten = .ok cons ∧
        ∀ aqu_id,
          ((∃ e, self.getConnections aqu_id = .error e) ↔ ∀ c ∈ cons, c.aquifer_id ≠ aqu_id) ∧
          ((∃ e, self.getConnections aqu_id = .error e) →
            self.getConnections aqu_id = .error (.noConnections aqu_id)) ∧
          (∀ m, self.getConnections aqu_id = .ok m →
            StdMap.find? self.connections_ aqu_id = some m ∧ m ≠ [] ∧
            ∀ g c, (g, c) ∈ m → g = c.global_index ∧ c.aquifer_id = aqu_id ∧ c ∈ cons) :=
  ⟨_, rfl, rfl, ⟨_, rfl, by decide⟩,
    getConnections_spec rowDeck rowGrid [1, 1, 1] _ rfl⟩

/-- C14. `NumericalAquifers::transToRemove`: for each of the three axes an index is in the
returned set exactly when it is in the set that `SingleNumericalAquifer::transToRemove` returns
for that axis for some aquifer of the registry; the result is a set, so an index marked by
several aquifers occurs once, and a registry without aquifers yields three empty sets. -/
theorem transToRemove_union (reg : NumericalAquifers) (grid : EclipseGrid) :
    (∀ i, i ∈ (reg.transToRemove grid).1 ↔
      ∃ p ∈ reg.aquifers_, i ∈ (p.2.transToRemove grid).1) ∧
    (∀ i, i ∈ (reg.transToRemove grid).2.1 ↔
      ∃ p ∈ reg.aquifers_, i ∈ (p.2.transToRemove grid).2.1) ∧
    (∀ i, i ∈ (reg.transToRemove grid).2.2 ↔
      ∃ p ∈ reg.aquifers_, i ∈ (p.2.transToRemove grid).2.2) ∧
    (⟨[]⟩ : NumericalAquifers).transToRemove grid = (∅, ∅, ∅) := by
  obtain ⟨h1, h2, h3⟩ := foldl_transToRemove grid reg.aquifers_ (∅, ∅, ∅)
  refine ⟨fun i => ?_, fun i => ?_, fun i => ?_, rfl⟩
  · exact (h1 i).trans (by simp)
  · exact (h2 i).trans (by simp)
  · exact (h3 i).trans (by simp)

/-- C15. `AquiferConfig::serializeOp`: when the `serializeOp` of each of the four members
round-trips, so does the one of `AquiferConfig`: for every configuration `c`, packing `c` into an
empty buffer leaves `c` as it is, and unpacking into any target from the buffer that was written
yields a configuration that `operator==` finds equal to `c`, with the buffer consumed.  This
holds for the value of `serializeObject()` as for every other configuration. -/
theorem serializeOp_round_trip {Tok Aquancon : Type} [DecidableEq Aquancon]
    (opFetp : SerializeOp Tok Aquifetp) (opCt : SerializeOp Tok AquiferCT)
    (opConn : SerializeOp Tok Aquancon) (opNum : SerializeOp Tok NumericalAquifers)
    (hFetp : opFetp.RoundTrips) (hCt : opCt.RoundTrips) (hConn : opConn.RoundTrips)
    (hNum : opNum.RoundTrips) :
    (AquiferConfig.serializeOp opFetp opCt opConn opNum).RoundTrips ∧
    (∀ c target : AquiferConfig Aquancon, ∃ written read,
      AquiferConfig.serializeOp opFetp opCt opConn opNum c (.packing [])
        = some (c, .packing written) ∧
      AquiferConfig.serializeOp opFetp opCt opConn opNum target (.unpacking written)
        = some (read, .unpacking []) ∧
      read.eq c = true) ∧
    (∀ (fetp : Aquifetp) (ct : AquiferCT) (conn : Aquancon) (num : NumericalAquifers)
      (target : AquiferConfig Aquancon), ∃ written read,
      AquiferConfig.serializeOp opFetp opCt opConn opNum
        (AquiferConfig.serializeObject fetp ct conn num) (.packing [])
        = some (AquiferConfig.serializeObject fetp ct conn num, .packing written) ∧
      AquiferConfig.serializeOp opFetp opCt opConn opNum target (.unpacking written)
        = some (read, .unpacking []) ∧
      read.eq (AquiferConfig.serializeObject fetp ct conn num) = true) := by
  have hrt := serializeOp_roundTrips opFetp opCt opConn opNum hFetp hCt hConn hNum
  have hall : ∀ c target : AquiferConfig Aquancon, ∃ written read,
      AquiferConfig.serializeOp opFetp opCt opConn opNum c (.packing [])
        = some (c, .packing written) ∧
      AquiferConfig.serializeOp opFetp opCt opConn opNum target (.unpacking written)
        = some (read, .unpacking []) ∧
      read.eq c = true := by
    obtain ⟨encode, hp, hu⟩ := hrt
    intro c target
    refine ⟨encode c, c, ?_, ?_, ?_⟩
    · have := hp c []
      rw [List.nil_append] at this
      exact this
    · have := hu c target []
      rw [List.append_nil] at this
      exact this
    · exact (eq_true_iff c c).mpr ⟨rfl, rfl, rfl, rfl⟩
  exact ⟨hrt, hall, fun fetp ct conn num target => hall _ target⟩

/-- C15, at the token serializer and the configuration `analyticConfig`, unpacked into a default
constructed configuration. -/
theorem serializeOp_round_trip_witness :
    ∃ written read,
      tokenSerializeOp analyticConfig (.packing []) = some (analyticConfig, .packing written) ∧
      tokenSerializeOp (AquiferConfig.default 0) (.unpacking written)
        = some (read, .unpacking []) ∧
      read.eq analyticConfig = true :=
  (serializeOp_round_trip fetpOp ctOp connOp numOp
    (tokenOp_roundTrips _ _ fun _ => rfl) (tokenOp_roundTrips _ _ fun _ => rfl)
    (tokenOp_roundTrips _ _ fun _ => rfl) (tokenOp_roundTrips _ _ fun _ => rfl)).2.1
    analyticConfig (AquiferConfig.default 0)

/-- C16. `AquiferConfig::operator==` returns true exactly when the Fetkovich set, the
Carter-Tracy set, the connection geometry and the numerical-aquifer registry of the two
configurations are equal, that is when the two configurations are equal; configurations that
differ in one of the four members compare unequal. -/
theorem operator_eq_spec {Aquancon : Type} [DecidableEq Aquancon]
    (c d : AquiferConfig Aquancon) :
    (c.eq d = true ↔
      c.aquifetp = d.aquifetp ∧ c.aquiferct = d.aquiferct ∧ c.aqconn = d.aqconn ∧
        c.numerical_aquifers = d.numerical_aquifers) ∧
    (c.eq d = true ↔ c = d) ∧
    (c.aquifetp ≠ d.aquifetp ∨ c.aquiferct ≠ d.aquiferct ∨ c.aqconn ≠ d.aqconn ∨
      c.numerical_aquifers ≠ d.numerical_aquifers → c.eq d = false) := by
  have h1 := eq_true_iff c d
  refine ⟨h1, ?_, ?_⟩
  · rw [h1]
    constructor
    · rintro ⟨ha, hb, hc, hd⟩
      cases c
      cases d
      simp only at ha hb hc hd
      subst ha hb hc hd
      rfl
    · intro h
      subst h
      exact ⟨rfl, rfl, rfl, rfl⟩
  · intro hne
    cases hb : c.eq d with
    | false => rfl
    | true =>
      obtain ⟨ha, hb2, hc, hd⟩ := h1.mp hb
      rcases hne with h | h | h | h
      · exact absurd ha h
      · exact absurd hb2 h
      · exact absurd hc h
      · exact absurd hd h

/-- C16, at `analyticConfig` and the same configuration with another connection geometry. -/
theorem operator_eq_spec_witness :
    analyticConfig.eq analyticConfig = true ∧
    analyticConfig.eq { analyticConfig with aqconn := 8 } = false :=
  ⟨(operator_eq_spec analyticConfig analyticConfig).2.1.mpr rfl,
    (operator_eq_spec analyticConfig { analyticConfig with aqconn := 8 }).2.2
      (Or.inr (Or.inr (Or.inl (by decide))))⟩

/-- C17. `AquiferConfig::active` is false exactly when the configuration has no Fetkovich
aquifer, no Carter-Tracy aquifer and no numerical aquifer; a default constructed configuration is
not active, and `active()` is `hasAnalyticalAquifer() || hasNumericalAquifer()`. -/
theorem active_spec {Aquancon : Type} (c : AquiferConfig Aquancon) (conn : Aquancon) :
    (c.active = false ↔
      c.aquifetp.size = 0 ∧ c.aquiferct.size = 0 ∧ c.numerical_aquifers.size = 0) ∧
    (c.active = true ↔
      0 < c.aquifetp.size ∨ 0 < c.aquiferct.size ∨ 0 < c.numerical_aquifers.size) ∧
    (AquiferConfig.default conn).active = false ∧
    c.active = (c.hasAnalyticalAquifer || c.hasNumericalAquifer) := by
  have htrue : c.active = true ↔
      0 < c.aquifetp.size ∨ 0 < c.aquiferct.size ∨ 0 < c.numerical_aquifers.size := by
    unfold AquiferConfig.active AquiferConfig.hasAnalyticalAquifer
      AquiferConfig.hasNumericalAquifer
    simp only [Bool.or_eq_true, decide_eq_true_eq, gt_iff_lt]
    tauto
  refine ⟨?_, htrue, rfl, rfl⟩
  rw [← Bool.not_eq_true, htrue]
  omega

/-- C18. `AquiferConfig::hasAquifer(id)` is true exactly when the Fetkovich set, the
Carter-Tracy set or the numerical-aquifer registry recognises `id`; in `analyticConfig` the id 1
is a Fetkovich and a Carter-Tracy aquifer and is accepted; a configuration that has an aquifer
is active. -/
theorem hasAquifer_spec {Aquancon : Type} (c : AquiferConfig Aquancon) (aquID : Int) :
    (c.hasAquifer aquID = true ↔
      c.aquifetp.hasAquifer aquID = true ∨ c.aquiferct.hasAquifer aquID = true ∨
        c.numerical_aquifers.hasAquifer aquID = true) ∧
    (analyticConfig.aquifetp.hasAquifer 1 = true ∧ analyticConfig.aquiferct.hasAquifer 1 = true ∧
      analyticConfig.hasAquifer 1 = true) ∧
    (c.hasAquifer aquID = true → c.active = true) := by
  have hiff : c.hasAquifer aquID = true ↔
      c.aquifetp.hasAquifer aquID = true ∨ c.aquiferct.hasAquifer aquID = true ∨
        c.numerical_aquifers.hasAquifer aquID = true := by
    unfold AquiferConfig.hasAquifer
    simp only [Bool.or_eq_true, or_assoc]
  refine ⟨hiff, ⟨by decide, by decide, by decide⟩, ?_⟩
  intro h
  unfold AquiferConfig.active AquiferConfig.hasAnalyticalAquifer
    AquiferConfig.hasNumericalAquifer
  simp only [Bool.or_eq_true, decide_eq_true_eq]
  rcases hiff.mp h with h1 | h1 | h1
  · exact Or.inl (Or.inr (any_id_pos _ _ h1))
  · exact Or.inl (Or.inl (any_id_pos _ _ h1))
  · exact Or.inr (numerical_hasAquifer_pos _ _ h1)

/-- C18, at `analyticConfig` and the id 2, which only the Carter-Tracy set recognises. -/
theorem hasAquifer_spec_witness :
    analyticConfig.hasAquifer 2 = true ∧ analyticConfig.active = true :=
  ⟨by decide, (hasAquifer_spec analyticConfig 2).2.2 (by decide)⟩

/-- C20. `AquiferConstantFlux`: after the constructor and any sequence of `handleAQUFLUX` calls
the collection holds at most one entry per id, and the key of an entry is the id of its aquifer.
`handleAQUFLUX` makes the aquifer of the record the entry of the record's id, whether or not the
id was present; it leaves the entries of every other id as they are, keeps the number of entries
when the id was present and adds one entry when it was not. -/
theorem constant_flux_ids_unique :
    (∀ (deck : Deck) (calls : List AqufluxRecord),
      (((calls.foldl AquiferConstantFlux.handleAQUFLUX
          (AquiferConstantFlux.construct deck)).m_aquifers.map Prod.fst).Nodup) ∧
      ∀ p ∈ (calls.foldl AquiferConstantFlux.handleAQUFLUX
          (AquiferConstantFlux.construct deck)).m_aquifers, p.1 = p.2.id) ∧
    (∀ (self : AquiferConstantFlux) (record : AqufluxRecord),
      UnorderedMap.find? (self.handleAQUFLUX record).m_aquifers record.AQUIFER_ID =
        some (SingleAquiferConstantFlux.construct record) ∧
      (∀ q, q ≠ record.AQUIFER_ID →
        UnorderedMap.find? (self.handleAQUFLUX record).m_aquifers q =
          UnorderedMap.find? self.m_aquifers q) ∧
      (∀ p : Int × SingleAquiferConstantFlux, p.1 ≠ record.AQUIFER_ID →
        (p ∈ (self.handleAQUFLUX record).m_aquifers ↔ p ∈ self.m_aquifers)) ∧
      (record.AQUIFER_ID ∈ self.m_aquifers.map Prod.fst →
        (self.handleAQUFLUX record).m_aquifers.length = self.m_aquifers.length) ∧
      (record.AQUIFER_ID ∉ self.m_aquifers.map Prod.fst →
        (self.handleAQUFLUX record).m_aquifers.length = self.m_aquifers.length + 1) ∧
      ((self.m_aquifers.map Prod.fst).Nodup →
        ((self.handleAQUFLUX record).m_aquifers.map Prod.fst).Nodup ∧
        ∀ p ∈ (self.handleAQUFLUX record).m_aquifers, p.1 = record.AQUIFER_ID →
          p.2 = SingleAquiferConstantFlux.construct record)) := by
  constructor
  · intro deck calls
    apply foldl_handleAQUFLUX_inv
    rw [constantFlux_construct_eq]
    apply foldl_handleAQUFLUX_inv
    exact ⟨List.nodup_nil, fun p hp => absurd hp (List.not_mem_nil _)⟩
  · intro self record
    have hm : (self.handleAQUFLUX record).m_aquifers =
        UnorderedMap.insert_or_assign self.m_aquifers record.AQUIFER_ID
          (SingleAquiferConstantFlux.construct record) := rfl
    refine ⟨?_, ?_, ?_, ?_, ?_, handleAQUFLUX_keys self record⟩
    · rw [hm, UnorderedMap.find?_insert_or_assign, if_pos rfl]
    · intro q hq
      rw [hm, UnorderedMap.find?_insert_or_assign, if_neg hq]
    · intro p hp
      rw [hm]
      exact UnorderedMap.mem_insert_or_assign_of_ne _ _ _ p hp
    · intro hk
      rw [hm, UnorderedMap.length_insert_or_assign, if_pos hk]
    · intro hk
      rw [hm, UnorderedMap.length_insert_or_assign, if_neg hk]

/-- C20, at the deck `fluxDeck`, whose records name aquifer 1, aquifer 2 and aquifer 1 again,
followed by a call for aquifer 2: two entries, each holding the last record of its id. -/
theorem constant_flux_ids_unique_witness :
    ([aqufluxRecord 2 40].foldl AquiferConstantFlux.handleAQUFLUX
        (AquiferConstantFlux.construct fluxDeck)).m_aquifers.map
      (fun p => (p.1, p.2.id)) = [(1, 1), (2, 2)] ∧
    UnorderedMap.find? ((AquiferConstantFlux.construct fluxDeck).handleAQUFLUX
        (aqufluxRecord 2 40)).m_aquifers 2 =
      some (SingleAquiferConstantFlux.construct (aqufluxRecord 2 40)) ∧
    ((AquiferConstantFlux.construct fluxDeck).handleAQUFLUX
        (aqufluxRecord 2 40)).m_aquifers.length =
      (AquiferConstantFlux.construct fluxDeck).m_aquifers.length ∧
    (([aqufluxRecord 2 40].foldl AquiferConstantFlux.handleAQUFLUX
        (AquiferConstantFlux.construct fluxDeck)).m_aquifers.map Prod.fst).Nodup :=
  ⟨by decide,
    (constant_flux_ids_unique.2 (AquiferConstantFlux.construct fluxDeck)
      (aqufluxRecord 2 40)).1,
    (constant_flux_ids_unique.2 (AquiferConstantFlux.construct fluxDeck)
      (aqufluxRecord 2 40)).2.2.2.1 (by decide),
    (constant_flux_ids_unique.1 fluxDeck [aqufluxRecord 2 40]).1⟩

/-- C21. `Valve::fromWSEGVAVLV`: in the map that the function returns for a keyword, the list
of a well is the list of the pairs (segment number, valve built from the record) of the records
of that well, in record order; a well without a record has no entry, no well has two entries,
and the lengths of the lists add up to the number of records. -/
theorem fromWSEGVAVLV_spec (keyword : List WsegvalvRecord) :
    (∀ well, (∃ r ∈ keyword, r.WELL = well) →
      StdMap.find? (Valve.fromWSEGVAVLV keyword) well =
        some ((keyword.filter fun r => decide (r.WELL = well)).map fun r =>
          (r.SEGMENT_NUMBER, Valve.construct r))) ∧
    (∀ well, (∀ r ∈ keyword, r.WELL ≠ well) →
      StdMap.find? (Valve.fromWSEGVAVLV keyword) well = none ∧
      well ∉ (Valve.fromWSEGVAVLV keyword).map Prod.fst) ∧
    ((Valve.fromWSEGVAVLV keyword).map Prod.fst).Nodup ∧
    (∀ p ∈ Valve.fromWSEGVAVLV keyword,
      p.2 = (keyword.filter fun r => decide (r.WELL = p.1)).map fun r =>
        (r.SEGMENT_NUMBER, Valve.construct r)) ∧
    ((Valve.fromWSEGVAVLV keyword).map fun p => p.2.length).sum = keyword.length := by
  have hh := valve_holds_foldl keyword [] [] valve_holds_nil
  rw [List.nil_append] at hh
  have hres : keyword.foldl Valve.addRecord [] = Valve.fromWSEGVAVLV keyword := rfl
  rw [hres] at hh
  have hnd : ((Valve.fromWSEGVAVLV keyword).map Prod.fst).Nodup :=
    hh.sorted.imp fun hab => ne_of_lt hab
  have hentry : ∀ p ∈ Valve.fromWSEGVAVLV keyword,
      (∃ r ∈ keyword, r.WELL = p.1) ∧ p.2 = valvesOf keyword p.1 := by
    intro p hp
    have hf := StdMap.find?_of_mem _ hnd p.1 p.2 hp
    have hex : ∃ r ∈ keyword, r.WELL = p.1 := by
      by_contra hcon
      rw [hh.absent p.1 (fun r hr heq => hcon ⟨r, hr, heq⟩)] at hf
      exact Option.noConfusion hf
    rw [hh.present p.1 hex] at hf
    exact ⟨hex, (Option.some.inj hf).symm⟩
  refine ⟨hh.present, ?_, hnd, fun p hp => (hentry p hp).2, ?_⟩
  · intro well hall
    have hnone := hh.absent well hall
    exact ⟨hnone, (StdMap.find?_eq_none_iff _ _).mp hnone⟩
  · have h1 : ((Valve.fromWSEGVAVLV keyword).map fun p => p.2.length) =
        ((Valve.fromWSEGVAVLV keyword).map Prod.fst).map fun k =>
          (keyword.filter fun r => decide (r.WELL = k)).length := by
      rw [List.map_map]
      apply List.map_congr_left
      intro p hp
      show p.2.length = _
      rw [(hentry p hp).2]
      unfold valvesOf
      rw [List.length_map]
      rfl
    rw [h1]
    apply sum_length_filter (fun r : WsegvalvRecord => r.WELL) _ hnd
    intro r hr
    by_contra hcon
    have hnone := (StdMap.find?_eq_none_iff _ _).mpr hcon
    rw [hh.present r.WELL ⟨r, hr, rfl⟩] at hnone
    exact Option.noConfusion hnone

/-- C21, at the keyword `valveKeyword`: the well `W2` has the pairs of its two records in record
order, the well `W3` has no entry. -/
theorem fromWSEGVAVLV_spec_witness :
    StdMap.find? (Valve.fromWSEGVAVLV valveKeyword) "W2" =
      some [(5, Valve.construct (wsegvalvRecord "W2" 5)),
        (2, Valve.construct (wsegvalvRecord "W2" 2))] ∧
    StdMap.find? (Valve.fromWSEGVAVLV valveKeyword) "W3" = none :=
  ⟨(fromWSEGVAVLV_spec valveKeyword).1 "W2" ⟨wsegvalvRecord "W2" 5, List.Mem.head _, rfl⟩,
    ((fromWSEGVAVLV_spec valveKeyword).2.1 "W3" (by decide)).1⟩

/-- C22, at the failing input: in the row `gapGrid` the first cell is inactive and has no
active index.  For the `AQUNUM` record of that cell the constructor of NumericalAquifer.cpp
returns a cell, with zero-based coordinates, the global index 0 and the porosity of another
cell, while the constructor of NumericalAquiferCell.cpp fails in `grid.activeIndex`. -/
theorem cell_of_inactive_cell_is_built :
    gapGrid.activeIndex 0 = .error (.notActive 0) ∧
    (∃ c : NumericalAquiferCell,
      NumericalAquiferCell.construct (aqunumRecord 1 1 1 1) gapGrid gapProps = .ok c ∧
      c.I = 0 ∧ c.J = 0 ∧ c.K = 0 ∧ c.global_index = 0 ∧ c.porosity = 1 / 4) ∧
    CellCpp.NumericalAquiferCell.construct (aqunumRecord 1 1 1 1) gapGrid gapProps =
      .error (.notActive 0) :=
  ⟨rfl, ⟨_, rfl, rfl, rfl, rfl, rfl, rfl⟩, rfl⟩

/-- C23. Every connection that `NumAquiferCon::generateConnections` returns has the aquifer id,
the face direction, the transmissibility multiplier and option, the allow-internal-cells flag
and the two VE fractions of the record, coordinates inside the zero-based range of the record,
and the global index that the grid gives for its coordinates. -/
theorem generateConnections_attributes (grid : EclipseGrid) (record : AquconRecord)
    (actnum : List Int) (cons : List NumAquiferCon)
    (h : NumAquiferCon.generateConnections grid record actnum = .ok cons) :
    ∀ c ∈ cons,
      c.aquifer_id = toSizeT record.ID ∧ c.face_dir = record.CONNECT_FACE ∧
      c.trans_multi = record.TRANS_MULT ∧ c.trans_option = record.TRANS_OPTION ∧
      c.connect_active_cell = record.ALLOW_INTERNAL_CELLS ∧
      c.ve_frac_relperm = record.VEFRAC ∧ c.ve_frac_cappress = record.VEFRACP ∧
      (toSizeT (record.I1 - 1) ≤ c.I ∧ c.I ≤ toSizeT (record.I2 - 1)) ∧
      (toSizeT (record.J1 - 1) ≤ c.J ∧ c.J ≤ toSizeT (record.J2 - 1)) ∧
      (toSizeT (record.K1 - 1) ≤ c.K ∧ c.K ≤ toSizeT (record.K2 - 1)) ∧
      c.global_index = grid.getGlobalIndex c.I c.J c.K := by
  intro c hc
  obtain ⟨i, j, k, hi, hj, hk, rfl⟩ := generateConnections_mem grid record actnum cons h c hc
  exact ⟨rfl, rfl, rfl, rfl, rfl, rfl, rfl, hi, hj, hk, rfl⟩

/-- C23, at the row `rowGrid` and the record `1 1 3 1 1 1 1 I+` with internal cells allowed,
which returns the three cells of the row. -/
theorem generateConnections_attributes_witness :
    ∃ cons, NumAquiferCon.generateConnections rowGrid
        (aquconRecord 1 1 3 1 1 1 1 .XPlus true) [1, 1, 1] = .ok cons ∧
      cons.map NumAquiferCon.coords = [(0, 0, 0), (1, 0, 0), (2, 0, 0)] ∧
      ∀ c ∈ cons, c.aquifer_id = 1 ∧ c.face_dir = .XPlus ∧
        c.global_index = rowGrid.getGlobalIndex c.I c.J c.K :=
  ⟨_, rfl, by decide, fun c hc =>
    have h := generateConnections_attributes rowGrid (aquconRecord 1 1 3 1 1 1 1 .XPlus true)
      [1, 1, 1] _ rfl c hc
    ⟨h.1, h.2.1, h.2.2.2.2.2.2.2.2.2.2⟩⟩

/-- C24. `AquiferConfig::load_connections` replaces the connection geometry only: the
Fetkovich set, the Carter-Tracy set and the numerical-aquifer registry are the ones before the
call, and so are `active()` and `hasAquifer(id)` for every id. -/
theorem load_connections_frame {Aquancon : Type} (aquancon : EclipseGrid → Deck → Aquancon)
    (self : AquiferConfig Aquancon) (deck : Deck) (grid : EclipseGrid) :
    (self.load_connections aquancon deck grid).aquifetp = self.aquifetp ∧
    (self.load_connections aquancon deck grid).aquiferct = self.aquiferct ∧
    (self.load_connections aquancon deck grid).numerical_aquifers = self.numerical_aquifers ∧
    (self.load_connections aquancon deck grid).aqconn = aquancon grid deck ∧
    (self.load_connections aquancon deck grid).active = self.active ∧
    ∀ aquID, (self.load_connections aquancon deck grid).hasAquifer aquID =
      self.hasAquifer aquID :=
  ⟨rfl, rfl, rfl, rfl, rfl, fun _ => rfl⟩

/-- C25. `SingleAquiferConstantFlux::SingleAquiferConstantFlux`: the id, the flux and the salt
concentration are the values of the record; the temperature is set exactly when the record has
a `TEMP` value, and then to that value, and the datum pressure is set exactly when the record
has a `PRESSURE` value, and then to that value. -/
theorem constant_flux_construct_spec (record : AqufluxRecord) :
    (SingleAquiferConstantFlux.construct record).id = record.AQUIFER_ID ∧
    (SingleAquiferConstantFlux.construct record).aquifer_flux = record.FLUX ∧
    (SingleAquiferConstantFlux.construct record).salt_concentration = record.SC_0 ∧
    ((SingleAquiferConstantFlux.construct record).temperature.isSome = record.TEMP.isSome) ∧
    (SingleAquiferConstantFlux.construct record).temperature = record.TEMP ∧
    ((SingleAquiferConstantFlux.construct record).datum_pressure.isSome
      = record.PRESSURE.isSome) ∧
    (SingleAquiferConstantFlux.construct record).datum_pressure = record.PRESSURE :=
  ⟨rfl, rfl, rfl, rfl, rfl, rfl, rfl⟩

/-- C26. `Valve::Valve`: each of the accessors `additionalLength`, `pipeDiameter`,
`absRoughness`, `pipeCrossArea` and `maxCrossArea` returns the negative constant `-1e100` when
its item was defaulted and the value of the record otherwise; `flowCoefficient` and `crossArea`
return `CV` and `AREA`. -/
theorem valve_construct_spec (record : WsegvalvRecord) :
    Valve.value_for_default = -(10 ^ 100) ∧ Valve.value_for_default < 0 ∧
    (Valve.construct record).flowCoefficient = record.CV ∧
    (Valve.construct record).crossArea = record.AREA ∧
    ((record.EXTRA_LENGTH = none →
        (Valve.construct record).additionalLength = Valve.value_for_default) ∧
      ∀ v, record.EXTRA_LENGTH = some v → (Valve.construct record).additionalLength = v) ∧
    ((record.PIPE_D = none →
        (Valve.construct record).pipeDiameter = Valve.value_for_default) ∧
      ∀ v, record.PIPE_D = some v → (Valve.construct record).pipeDiameter = v) ∧
    ((record.ROUGHNESS = none →
        (Valve.construct record).absRoughness = Valve.value_for_default) ∧
      ∀ v, record.ROUGHNESS = some v → (Valve.construct record).absRoughness = v) ∧
    ((record.PIPE_A = none →
        (Valve.construct record).pipeCrossArea = Valve.value_for_default) ∧
      ∀ v, record.PIPE_A = some v → (Valve.construct record).pipeCrossArea = v) ∧
    ((record.MAX_A = none →
        (Valve.construct record).maxCrossArea = Valve.value_for_default) ∧
      ∀ v, record.MAX_A = some v → (Valve.construct record).maxCrossArea = v) := by
  have hdef : ∀ item : Option ℚ, (item = none → Valve.orDefault item = Valve.value_for_default) ∧
      ∀ v, item = some v → Valve.orDefault item = v := by
    intro item
    constructor
    · intro h
      rw [h]
      rfl
    · intro v h
      rw [h]
      rfl
  refine ⟨rfl, ?_, rfl, rfl, hdef _, hdef _, hdef _, hdef _, hdef _⟩
  unfold Valve.value_for_default
  norm_num

/-- C26, at a record with a pipe diameter of `1/5` and a defaulted roughness. -/
theorem valve_construct_spec_witness :
    (Valve.construct (wsegvalvRecord "W1" 3)).pipeDiameter = 1 / 5 ∧
    (Valve.construct (wsegvalvRecord "W1" 3)).absRoughness = -(10 ^ 100) :=
  ⟨(valve_construct_spec (wsegvalvRecord "W1" 3)).2.2.2.2.2.1.2 _ rfl,
    (valve_construct_spec (wsegvalvRecord "W1" 3)).2.2.2.2.2.2.1.1 rfl⟩

/-- C27. `NumericalAquiferCell::operator==` of NumericalAquiferCell.cpp returns true exactly
when the two cells agree on each of their fourteen attributes, an unset initial pressure being
equal only to an unset one; it is reflexive, symmetric and transitive. -/
theorem cell_operator_eq_spec (a b c : CellCpp.NumericalAquiferCell) :
    (a.eq b = true ↔
      a.aquifer_id = b.aquifer_id ∧ a.I = b.I ∧ a.J = b.J ∧ a.K = b.K ∧
      a.global_index = b.global_index ∧ a.area = b.area ∧ a.length = b.length ∧
      a.permeability = b.permeability ∧ a.porosity = b.porosity ∧ a.depth = b.depth ∧
      a.init_pressure = b.init_pressure ∧ a.pvttable = b.pvttable ∧
      a.sattable = b.sattable ∧ a.transmissibility = b.transmissibility) ∧
    (a.eq b = true ↔ a = b) ∧
    a.eq a = true ∧
    (a.eq b = true → b.eq a = true) ∧
    (a.eq b = true → b.eq c = true → a.eq c = true) := by
  have hiff := cellcpp_eq_true_iff
  refine ⟨?_, hiff a b, (hiff a a).mpr rfl, ?_, ?_⟩
  · rw [hiff a b]
    constructor
    · intro h
      subst h
      exact ⟨rfl, rfl, rfl, rfl, rfl, rfl, rfl, rfl, rfl, rfl, rfl, rfl, rfl, rfl⟩
    · rintro ⟨h1, h2, h3, h4, h5, h6, h7, h8, h9, h10, h11, h12, h13, h14⟩
      cases a
      cases b
      simp only at h1 h2 h3 h4 h5 h6 h7 h8 h9 h10 h11 h12 h13 h14
      subst h1 h2 h3 h4 h5 h6 h7 h8 h9 h10 h11 h12 h13 h14
      rfl
  · intro h
    rw [hiff] at h ⊢
    exact h.symm
  · intro h1 h2
    rw [hiff] at h1 h2 ⊢
    exact h1.trans h2

/-- C27, at two cells that differ in the initial pressure only, one unset and one set to 5:
each is equal to itself and the two are not equal. -/
theorem cell_operator_eq_spec_witness :
    (storageCell none).eq (storageCell none) = true ∧
    ((storageCell none).eq (storageCell none) = true →
      (storageCell none).eq (storageCell none) = true) ∧
    (storageCell (some 5)).eq (storageCell (some 5)) = true ∧
    ¬ (storageCell none).eq (storageCell (some 5)) = true :=
  ⟨(cell_operator_eq_spec (storageCell none) (storageCell none) (storageCell none)).2.2.1,
    (cell_operator_eq_spec (storageCell none) (storageCell none) (storageCell none)).2.2.2.2
      (cell_operator_eq_spec (storageCell none) (storageCell none) (storageCell none)).2.2.1,
    (cell_operator_eq_spec (storageCell (some 5)) (storageCell none) (storageCell none)).2.2.1,
    fun h =>
      Option.noConfusion
        ((cell_operator_eq_spec (storageCell none) (storageCell (some 5))
          (storageCell none)).1.mp h).2.2.2.2.2.2.2.2.2.2.1⟩

/-- C28. `NumericalAquifers::updateCellProps` writes at the active indices of aquifer cells
only: when the call returns, the four arrays have the lengths they had, and every entry of
`pore_volume`, `satnum`, `pvtnum` and `cell_depth` at an index that is not the active index of an
aquifer cell of the registry is the entry before the call; a registry without aquifers returns
the four arrays as they are. -/
theorem updateCellProps_frame (reg : NumericalAquifers) (grid : EclipseGrid)
    (props out : CellProps) (h : reg.updateCellProps grid props = .ok out) :
    (out.pore_volume.length = props.pore_volume.length ∧
      out.satnum.length = props.satnum.length ∧
      out.pvtnum.length = props.pvtnum.length ∧
      out.cell_depth.length = props.cell_depth.length) ∧
    (∀ i, (∀ c ∈ reg.cells, grid.activeIndex c.global_index ≠ .ok i) →
      out.pore_volume[i]? = props.pore_volume[i]? ∧ out.satnum[i]? = props.satnum[i]? ∧
      out.pvtnum[i]? = props.pvtnum[i]? ∧ out.cell_depth[i]? = props.cell_depth[i]?) ∧
    (⟨[]⟩ : NumericalAquifers).updateCellProps grid props = .ok props := by
  have hrun : reg.cells.foldlM (SingleNumericalAquifer.updateCell grid) props = .ok out :=
    (updateCellProps_eq grid reg.aquifers_ props).symm.trans h
  obtain ⟨hl, hf⟩ := foldlM_updateCell_inv grid reg.cells props out hrun
  refine ⟨hl, ?_, rfl⟩
  intro i hi
  apply hf i
  intro c hc hci
  apply hi c hc
  unfold EclipseGrid.activeIndex
  rw [hci]

/-- C28, at the registry of the deck `rowDeck`, whose one cell has the active index 1, and four
arrays of three zeros: the call returns `satnum = [0, 1, 0]`, so the entries at the indices 0
and 2 are the ones before the call. -/
theorem updateCellProps_frame_witness :
    ∃ reg, NumericalAquifers.construct rowDeck rowGrid (uniformProps 3) [1, 1, 1] = .ok reg ∧
      reg.cells.map rowGrid.activeOf = [1] ∧
      ∃ out, reg.updateCellProps rowGrid (zeroProps 3) = .ok out ∧
        out.satnum = [0, 1, 0] ∧
        (out.pore_volume.length = (zeroProps 3).pore_volume.length ∧
          out.satnum.length = (zeroProps 3).satnum.length ∧
          out.pvtnum.length = (zeroProps 3).pvtnum.length ∧
          out.cell_depth.length = (zeroProps 3).cell_depth.length) ∧
        (∀ i, (∀ c ∈ reg.cells, rowGrid.activeIndex c.global_index ≠ .ok i) →
          out.pore_volume[i]? = (zeroProps 3).pore_volume[i]? ∧
          out.satnum[i]? = (zeroProps 3).satnum[i]? ∧
          out.pvtnum[i]? = (zeroProps 3).pvtnum[i]? ∧
          out.cell_depth[i]? = (zeroProps 3).cell_depth[i]?) ∧
        (⟨[]⟩ : NumericalAquifers).updateCellProps rowGrid (zeroProps 3) = .ok (zeroProps 3) :=
  ⟨_, rfl, by decide, _, rfl, by decide,
    updateCellProps_frame _ rowGrid (zeroProps 3) _ rfl⟩

/-- C30. `NumericalAquiferConnections::NumericalAquiferConnections` looks for duplicates inside
one aquifer only: when no target cell is generated twice for one aquifer id and two generated
connections of different aquifer ids have the same target cell, the construction succeeds and
the cell is a connection in the map of each of the two aquifers. -/
theorem connections_shared_cell (deck : Deck) (grid : EclipseGrid) (actnum : List Int)
    (cons : List NumAquiferCon)
    (hgen : generatedConnections grid actnum deck.AQUCON.flatten = .ok cons)
    (hnd : (cons.map NumAquiferCon.key).Nodup)
    (a b : NumAquiferCon) (ha : a ∈ cons) (hb : b ∈ cons)
    (hcell : a.global_index = b.global_index) (_hid : a.aquifer_id ≠ b.aquifer_id) :
    ∃ self, NumericalAquiferConnections.construct deck grid actnum = .ok self ∧
      ∃ ma mb, self.getConnections a.aquifer_id = .ok ma ∧
        self.getConnections b.aquifer_id = .ok mb ∧
        (a.global_index, a) ∈ ma ∧ (a.global_index, b) ∈ mb := by
  obtain ⟨self, hself, hh⟩ := connections_construct_ok deck grid actnum cons hgen hnd
  have hget : ∀ c ∈ cons, ∃ m, self.getConnections c.aquifer_id = .ok m ∧
      (c.global_index, c) ∈ m := by
    intro c hc
    have hmem := (mem_entries_iff self.connections_ cons hh c.aquifer_id c.global_index c).mpr
      ⟨hc, rfl, rfl⟩
    unfold NumericalAquiferConnections.entries at hmem
    unfold NumericalAquiferConnections.getConnections
    cases hf : StdMap.find? self.connections_ c.aquifer_id with
    | none =>
      rw [hf] at hmem
      exact absurd hmem (List.not_mem_nil _)
    | some m =>
      rw [hf] at hmem
      exact ⟨m, rfl, hmem⟩
  obtain ⟨ma, hma, h1⟩ := hget a ha
  obtain ⟨mb, hmb, h2⟩ := hget b hb
  rw [← hcell] at h2
  exact ⟨self, hself, ma, mb, hma, hmb, h1, h2⟩

/-- C30, at the deck `sharedDeck`, whose two `AQUCON` records connect the middle cell of the row
`rowGrid` to aquifer 1 and to aquifer 2. -/
theorem connections_shared_cell_witness :
    ∃ a b : NumAquiferCon, a.global_index = 1 ∧ b.global_index = 1 ∧
      a.aquifer_id = 1 ∧ b.aquifer_id = 2 ∧
      ∃ self, NumericalAquiferConnections.construct sharedDeck rowGrid [1, 1, 1] = .ok self ∧
        ∃ ma mb, self.getConnections a.aquifer_id = .ok ma ∧
          self.getConnections b.aquifer_id = .ok mb ∧
          (a.global_index, a) ∈ ma ∧ (a.global_index, b) ∈ mb :=
  ⟨NumAquiferCon.ofCell rowGrid (aquconRecord 1 2 2 1 1 1 1 .XMinus true) 1 0 0,
    NumAquiferCon.ofCell rowGrid (aquconRecord 2 2 2 1 1 1 1 .XPlus true) 1 0 0,
    rfl, rfl, rfl, rfl,
    connections_shared_cell sharedDeck rowGrid [1, 1, 1]
      [NumAquiferCon.ofCell rowGrid (aquconRecord 1 2 2 1 1 1 1 .XMinus true) 1 0 0,
        NumAquiferCon.ofCell rowGrid (aquconRecord 2 2 2 1 1 1 1 .XPlus true) 1 0 0]
      rfl (by decide) _ _ (List.Mem.head _) (List.Mem.tail _ (List.Mem.head _)) rfl (by decide)⟩

/-- C31. In every registry that `NumericalAquifers::NumericalAquifers` builds, `hasAquifer(id)`
holds exactly when an `AQUNUM` record has the aquifer id `id`.  Every connection stored in the
registry is stored in an aquifer that an `AQUNUM` record names and has that aquifer's id, so
the connections of an `AQUCON` record whose id no `AQUNUM` record names are stored nowhere.  A
deck without the keyword `AQUNUM` yields the empty registry. -/
theorem hasAquifer_iff_cell_record (deck : Deck) (grid : EclipseGrid)
    (field_props : FieldPropsManager) (actnum : List Int) (reg : NumericalAquifers)
    (h : NumericalAquifers.construct deck grid field_props actnum = .ok reg) :
    (∀ id, reg.hasAquifer id = true ↔ ∃ r ∈ deck.AQUNUM.flatten, r.AQUIFER_ID = id) ∧
    (∀ p ∈ reg.aquifers_, ∀ c ∈ p.2.connections_,
      c.aquifer_id = toSizeT p.1 ∧ ∃ r ∈ deck.AQUNUM.flatten, r.AQUIFER_ID = p.1) ∧
    (deck.AQUNUM = [] → reg = ⟨[]⟩) ∧
    (∀ other : Deck, other.AQUNUM = [] →
      NumericalAquifers.construct other grid field_props actnum = .ok ⟨[]⟩) := by
  obtain ⟨cells, hres, -, -, hreg, hcells⟩ :=
    construct_ok_cells deck grid field_props actnum reg h
  have hall := resolvedCells_forall₂ grid field_props _ _ hres
  have hkey : ∀ p ∈ reg.aquifers_, ∃ r ∈ deck.AQUNUM.flatten, r.AQUIFER_ID = p.1 := by
    intro p hp
    obtain ⟨-, -, hne⟩ := hreg p hp
    obtain ⟨c, hc⟩ := List.exists_mem_of_ne_nil _ hne
    unfold cellsOf at hc
    rw [List.mem_filter, decide_eq_true_eq] at hc
    obtain ⟨r, hr, -, hid⟩ := forall₂_exists_left _ _ _ hall c hc.1
    exact ⟨r, hr, by rw [← hid, hc.2]⟩
  refine ⟨fun id => ?_, fun p hp c hc => ⟨?_, hkey p hp⟩, fun hd => ?_,
    fun other ho => construct_without_keyword other grid field_props actnum ho⟩
  · unfold NumericalAquifers.hasAquifer
    rw [StdMap.find?_isSome_iff, List.mem_map]
    constructor
    · rintro ⟨p, hp, rfl⟩
      exact hkey p hp
    · rintro ⟨r, hr, rfl⟩
      obtain ⟨c, hc, -, hid⟩ := forall₂_exists_right _ _ _ hall r hr
      obtain ⟨p, hp, hpid⟩ := hcells c hc
      exact ⟨p, hp, by rw [hpid, hid]⟩
  · obtain ⟨cons, inner, -, hinner, -, hconn⟩ :=
      construct_ok_entries deck grid field_props actnum reg h p hp
    rw [hconn, List.mem_filter, List.mem_map] at hc
    obtain ⟨⟨e, he, rfl⟩, -⟩ := hc
    exact ((hinner e.1 e.2).mp he).2.1
  · have h0 := construct_without_keyword deck grid field_props actnum hd
    rw [h0] at h
    exact (Except.ok.inj h).symm

/-- C31, at the deck `orphanDeck`, whose `AQUCON` records name the aquifers 1 and 7 and whose one
`AQUNUM` record names aquifer 1: the registry has aquifer 1 and not aquifer 7, and its one
connection is one of aquifer 1. -/
theorem hasAquifer_iff_cell_record_witness :
    ∃ reg, NumericalAquifers.construct orphanDeck rowGrid (uniformProps 3) [1, 1, 1] = .ok reg ∧
      reg.hasAquifer 1 = true ∧ reg.hasAquifer 7 = false ∧
      (reg.aquifers_.map fun p => (p.1, p.2.connections_.map fun c => c.aquifer_id)) =
        [(1, [1])] ∧
      (∀ id, reg.hasAquifer id = true ↔ ∃ r ∈ orphanDeck.AQUNUM.flatten, r.AQUIFER_ID = id) ∧
      (∀ p ∈ reg.aquifers_, ∀ c ∈ p.2.connections_,
        c.aquifer_id = toSizeT p.1 ∧ ∃ r ∈ orphanDeck.AQUNUM.flatten, r.AQUIFER_ID = p.1) ∧
      (orphanDeck.AQUNUM = [] → reg = ⟨[]⟩) ∧
      (∀ other : Deck, other.AQUNUM = [] →
        NumericalAquifers.construct other rowGrid (uniformProps 3) [1, 1, 1] = .ok ⟨[]⟩) :=
  ⟨_, rfl, rfl, rfl, by decide,
    hasAquifer_iff_cell_record orphanDeck rowGrid (uniformProps 3) [1, 1, 1] _ rfl⟩

/-- C32. `NumAquiferCon::generateConnections` returns for every record whose six one-based
bounds are at least one and inside the grid, the bitmap having an entry for every cell of the
grid: it returns at most `(I2-I1+1) * (J2-J1+1) * (K2-K1+1)` connections when `I1 ≤ I2`,
`J1 ≤ J2` and `K1 ≤ K2`, and the empty list when `I2 < I1` or `J2 < J1` or `K2 < K1`. -/
theorem generateConnections_terminates (grid : EclipseGrid) (record : AquconRecord)
    (actnum : List Int) (h : record.InGrid grid actnum) :
    ∃ cons : List NumAquiferCon,
      NumAquiferCon.generateConnections grid record actnum = .ok cons ∧
      (record.I1 ≤ record.I2 → record.J1 ≤ record.J2 → record.K1 ≤ record.K2 →
        (cons.length : Int) ≤ (record.I2 - record.I1 + 1) * (record.J2 - record.J1 + 1) *
          (record.K2 - record.K1 + 1)) ∧
      (record.I2 < record.I1 ∨ record.J2 < record.J1 ∨ record.K2 < record.K1 → cons = []) := by
  refine ⟨_, generateConnections_eq grid record actnum h, ?_, ?_⟩
  · intro hi hj hk
    have hle : ((record.cells.filter (record.selects grid actnum)).map
        fun c => NumAquiferCon.ofCell grid record c.1 c.2.1 c.2.2).length ≤
        record.cells.length := by
      rw [List.length_map]
      exact List.length_filter_le _ _
    have hlen := length_rangeCells (record.I1 - 1).toNat (record.I2 - 1).toNat
      (record.J1 - 1).toNat (record.J2 - 1).toNat (record.K1 - 1).toNat (record.K2 - 1).toNat
    have hI1 := h.hI1.1
    have hJ1 := h.hJ1.1
    have hK1 := h.hK1.1
    have ha : (((record.I2 - 1).toNat + 1 - (record.I1 - 1).toNat : Nat) : Int) =
        record.I2 - record.I1 + 1 := by omega
    have hb : (((record.J2 - 1).toNat + 1 - (record.J1 - 1).toNat : Nat) : Int) =
        record.J2 - record.J1 + 1 := by omega
    have hc : (((record.K2 - 1).toNat + 1 - (record.K1 - 1).toNat : Nat) : Int) =
        record.K2 - record.K1 + 1 := by omega
    have hcells : (record.cells.length : Int) =
        (record.I2 - record.I1 + 1) * (record.J2 - record.J1 + 1) *
          (record.K2 - record.K1 + 1) := by
      unfold AquconRecord.cells
      rw [hlen, Nat.cast_mul, Nat.cast_mul, ha, hb, hc]
      ring
    rw [← hcells]
    exact_mod_cast hle
  · intro hlt
    have hI1 := h.hI1.1
    have hJ1 := h.hJ1.1
    have hK1 := h.hK1.1
    have hI2 := h.hI2.1
    have hJ2 := h.hJ2.1
    have hK2 := h.hK2.1
    have hzero : record.cells.length = 0 := by
      unfold AquconRecord.cells
      rw [length_rangeCells]
      rcases hlt with h1 | h1 | h1
      · have : (record.I2 - 1).toNat + 1 - (record.I1 - 1).toNat = 0 := by omega
        rw [this, Nat.mul_zero, Nat.mul_zero]
      · have : (record.J2 - 1).toNat + 1 - (record.J1 - 1).toNat = 0 := by omega
        rw [this, Nat.zero_mul, Nat.mul_zero]
      · have : (record.K2 - 1).toNat + 1 - (record.K1 - 1).toNat = 0 := by omega
        rw [this, Nat.zero_mul]
    rw [List.length_eq_zero.mp hzero]
    rfl

/-- C32, at the row `rowGrid` and the record `1 1 3 1 1 1 1 I+`, whose range has three cells
and which returns the last cell of the row. -/
theorem generateConnections_terminates_witness :
    (aquconRecord 1 1 3 1 1 1 1 .XPlus false).InGrid rowGrid [1, 1, 1] ∧
    ∃ cons : List NumAquiferCon,
      NumAquiferCon.generateConnections rowGrid (aquconRecord 1 1 3 1 1 1 1 .XPlus false)
        [1, 1, 1] = .ok cons ∧
      cons.length = 1 ∧ (cons.length : Int) ≤ (3 - 1 + 1) * (1 - 1 + 1) * (1 - 1 + 1) := by
  have hin : (aquconRecord 1 1 3 1 1 1 1 .XPlus false).InGrid rowGrid [1, 1, 1] := by
    refine ⟨by decide, by decide, by decide, by decide, by decide, by decide,
      by decide, by decide, by decide, ?_⟩
    intro i j k hi hj hk
    simp only [rowGrid, cartesianGrid] at hi hj hk ⊢
    simp only [List.length_cons, List.length_nil]
    omega
  obtain ⟨cons, h1, h2, -⟩ :=
    generateConnections_terminates rowGrid (aquconRecord 1 1 3 1 1 1 1 .XPlus false)
      [1, 1, 1] hin
  have h3 : NumAquiferCon.generateConnections rowGrid
      (aquconRecord 1 1 3 1 1 1 1 .XPlus false) [1, 1, 1] =
      .ok [NumAquiferCon.ofCell rowGrid (aquconRecord 1 1 3 1 1 1 1 .XPlus false) 2 0 0] := rfl
  have h4 : cons = [NumAquiferCon.ofCell rowGrid
      (aquconRecord 1 1 3 1 1 1 1 .XPlus false) 2 0 0] := by
    rw [h1] at h3
    exact Except.ok.inj h3
  exact ⟨hin, cons, h1, by rw [h4]; rfl, h2 (by decide) (by decide) (by decide)⟩

/-- C33. `AquiferData::write` and `AquiferData::read`: when an object without Fetkovich data, as
a default-constructed one is, reads the values that `x.write` put in a buffer, the read returns
and the object has the `aquiferID`, `pressure`, `fluxRate`, `volume`, `initPressure` and
`datumDepth` of `x`; it has Fetkovich data exactly when `x` has, and then with the `initVolume`,
`prodIndex` and `timeConstant` of `x`.  The values behind those of `x` stay in the buffer. -/
theorem aquiferData_round_trip (x target : data.AquiferData) (rest : data.MessageBuffer)
    (htarget : target.aquFet = none) :
    ∃ out, target.read (x.write [] ++ rest) = .ok (out, rest) ∧
      out.aquiferID = x.aquiferID ∧ out.pressure = x.pressure ∧ out.fluxRate = x.fluxRate ∧
      out.volume = x.volume ∧ out.initPressure = x.initPressure ∧
      out.datumDepth = x.datumDepth ∧
      (out.aquFet.isSome ↔ x.aquFet.isSome) ∧
      (∀ fet, x.aquFet = some fet → ∃ got, out.aquFet = some got ∧
        got.initVolume = fet.initVolume ∧ got.prodIndex = fet.prodIndex ∧
        got.timeConstant = fet.timeConstant) := by
  refine ⟨target.received x, ?_, rfl, rfl, rfl, rfl, rfl, rfl, ?_, ?_⟩
  · rw [write_eq, List.nil_append, read_values]
  · unfold data.AquiferData.received
    cases hx : x.aquFet with
    | none => simp [htarget]
    | some fet => simp
  · intro fet hfet
    refine ⟨fet, ?_, rfl, rfl, rfl⟩
    unfold data.AquiferData.received
    simp only [hfet]

/-- C33, at an aquifer with Fetkovich data that a default-constructed object reads. -/
theorem aquiferData_round_trip_witness :
    (data.AquiferData.default .Numerical).aquFet = none ∧
    ∃ out, (data.AquiferData.default .Numerical).read ((aquiferData 3 true).write [] ++ []) =
        .ok (out, []) ∧
      out.aquiferID = 3 ∧ out.pressure = (aquiferData 3 true).pressure ∧
      out.fluxRate = (aquiferData 3 true).fluxRate ∧ out.volume = (aquiferData 3 true).volume ∧
      out.initPressure = (aquiferData 3 true).initPressure ∧
      out.datumDepth = (aquiferData 3 true).datumDepth ∧
      (out.aquFet.isSome ↔ (aquiferData 3 true).aquFet.isSome) ∧
      (∀ fet, (aquiferData 3 true).aquFet = some fet → ∃ got, out.aquFet = some got ∧
        got.initVolume = fet.initVolume ∧ got.prodIndex = fet.prodIndex ∧
        got.timeConstant = fet.timeConstant) :=
  ⟨rfl, aquiferData_round_trip (aquiferData 3 true) (data.AquiferData.default .Numerical) [] rfl⟩

/-- C34. `AquiferData::write` appends 7 values for an aquifer without Fetkovich data and 10 for
one with; `AquiferData::read` on a buffer that starts with the values that `x.write` appended
returns and leaves exactly the values behind them, whatever the reading object held.  So when
aquifers are written one after the other and as many objects read one after the other, every
read returns, the `i`-th object holds the six numbers of the `i`-th aquifer written and its
Fetkovich data when it has them, and the values behind the last aquifer stay in the buffer. -/
theorem read_consumes_what_write_appends :
    (∀ (x : data.AquiferData) (buffer : data.MessageBuffer),
      x.write buffer = buffer ++ x.write [] ∧
      (x.aquFet = none → (x.write []).length = 7) ∧
      (x.aquFet.isSome → (x.write []).length = 10)) ∧
    (∀ (x target : data.AquiferData) (rest : data.MessageBuffer),
      ∃ out, target.read (x.write [] ++ rest) = .ok (out, rest)) ∧
    (∀ (xs targets : List data.AquiferData) (rest : data.MessageBuffer),
      targets.length = xs.length →
      data.readAll targets (data.writeAll xs [] ++ rest) =
        .ok (List.zipWith data.AquiferData.received targets xs, rest)) ∧
    (∀ target x : data.AquiferData,
      (target.received x).aquiferID = x.aquiferID ∧ (target.received x).pressure = x.pressure ∧
      (target.received x).fluxRate = x.fluxRate ∧ (target.received x).volume = x.volume ∧
      (target.received x).initPressure = x.initPressure ∧
      (target.received x).datumDepth = x.datumDepth ∧
      (x.aquFet.isSome → (target.received x).aquFet = x.aquFet)) := by
  refine ⟨fun x buffer => ⟨?_, ?_, ?_⟩, fun x target rest => ⟨target.received x, ?_⟩,
    fun xs targets rest h => ?_, fun target x => ⟨rfl, rfl, rfl, rfl, rfl, rfl, ?_⟩⟩
  · rw [write_eq, write_eq x [], List.nil_append]
  · intro h
    rw [write_eq, List.nil_append, length_values, h]
    rfl
  · intro h
    rw [write_eq, List.nil_append, length_values, if_pos h]
  · rw [write_eq, List.nil_append, read_values]
  · rw [writeAll_eq, List.nil_append]
    exact readAll_values xs targets rest h
  · intro h
    unfold data.AquiferData.received
    cases hx : x.aquFet with
    | none =>
      rw [hx] at h
      exact absurd h (by decide)
    | some fet => rfl

/-- C34, at a buffer that holds an aquifer with Fetkovich data and one without, read by two
default-constructed objects. -/
theorem read_consumes_what_write_appends_witness :
    (data.writeAll [aquiferData 1 true, aquiferData 2 false] []).length = 17 ∧
    data.readAll [data.AquiferData.default .Numerical, data.AquiferData.default .Numerical]
        (data.writeAll [aquiferData 1 true, aquiferData 2 false] [] ++ []) =
      .ok (List.zipWith data.AquiferData.received
        [data.AquiferData.default .Numerical, data.AquiferData.default .Numerical]
        [aquiferData 1 true, aquiferData 2 false], []) ∧
    (List.zipWith data.AquiferData.received
        [data.AquiferData.default .Numerical, data.AquiferData.default .Numerical]
        [aquiferData 1 true, aquiferData 2 false]).map (fun out => out.aquiferID) = [1, 2] ∧
    ((aquiferData 1 true).write []).length = 10 :=
  ⟨rfl,
    read_consumes_what_write_appends.2.2.1 [aquiferData 1 true, aquiferData 2 false]
      [data.AquiferData.default .Numerical, data.AquiferData.default .Numerical] [] rfl,
    rfl,
    (read_consumes_what_write_appends.1 (aquiferData 1 true) []).2.2 rfl⟩

/-- C35. `AquiferData::read`: when the read returns, the object has the aquifer type it had
before.  When the flag, the seventh value of the buffer, is not 1, the object has the Fetkovich
data it had before, or none if it had none, and seven values are consumed; when the flag is 1,
the object has Fetkovich data that hold the eighth, ninth and tenth value of the buffer, and
ten values are consumed. -/
theorem read_frame (target out : data.AquiferData) (buffer rest : data.MessageBuffer)
    (h : target.read buffer = .ok (out, rest)) :
    out.type = target.type ∧
    ∃ aqu : Int, buffer[6]? = some (.int aqu) ∧
      (aqu ≠ 1 → out.aquFet = target.aquFet ∧ rest = buffer.drop 7) ∧
      (aqu = 1 → ∃ a b c : ℚ, buffer[7]? = some (.double a) ∧
        buffer[8]? = some (.double b) ∧ buffer[9]? = some (.double c) ∧
        out.aquFet = some { initVolume := a, prodIndex := b, timeConstant := c } ∧
        rest = buffer.drop 10) := by
  obtain ⟨id, p, q, v, ip, dd, aqu, tail, hb, hcase⟩ := read_ok_inv target out buffer rest h
  subst hb
  rcases hcase with ⟨ha, ht, ho⟩ | ⟨ha, a, b, c, ht, ho⟩
  · subst ht ho
    exact ⟨rfl, aqu, by simp, fun _ => ⟨rfl, rfl⟩, fun h1 => absurd h1 ha⟩
  · subst ht ho
    exact ⟨rfl, aqu, by simp, fun h1 => absurd ha h1,
      fun _ => ⟨a, b, c, by simp, by simp, by simp, rfl, rfl⟩⟩

/-- C35, at an object of the type `Fetkovich` with Fetkovich data that reads an aquifer written
without: the flag is 0, and the object keeps its type and its Fetkovich data. -/
theorem read_frame_witness :
    ∃ out, (aquiferData 9 true).read ((aquiferData 1 false).write []) = .ok (out, []) ∧
      ((aquiferData 1 false).write [])[6]? = some (.int 0) ∧
      out.aquiferID = 1 ∧ out.type = (aquiferData 9 true).type ∧
      out.aquFet = (aquiferData 9 true).aquFet := by
  refine ⟨_, rfl, rfl, rfl, ?_⟩
  obtain ⟨ht, aqu, h6, h0, -⟩ :=
    read_frame (aquiferData 9 true) _ ((aquiferData 1 false).write []) [] rfl
  have h6b : some (data.BufferValue.int 0) = some (data.BufferValue.int aqu) := h6
  have ha : aqu ≠ 1 := by
    injection h6b with h6c
    injection h6c with h6d
    rw [← h6d]
    decide
  exact ⟨ht, (h0 ha).1⟩

/-- C36. `AquiferData::get`: the key `AAQR` or `ANQR` returns `fluxRate`, the key `AAQT` or
`ANQT` returns `volume`, the key `AAQP` or `ANQP` returns `pressure`, and every other key,
one that differs in case included, returns 0.  The function is total and returns the number
only. -/
theorem get_spec (self : data.AquiferData) (key : String) :
    (key = "AAQR" ∨ key = "ANQR" → self.get key = self.fluxRate) ∧
    (key = "AAQT" ∨ key = "ANQT" → self.get key = self.volume) ∧
    (key = "AAQP" ∨ key = "ANQP" → self.get key = self.pressure) ∧
    (key ≠ "AAQR" → key ≠ "ANQR" → key ≠ "AAQT" → key ≠ "ANQT" → key ≠ "AAQP" →
      key ≠ "ANQP" → self.get key = 0) := by
  unfold data.AquiferData.get
  refine ⟨?_, ?_, ?_, ?_⟩
  · intro h
    rw [if_pos h]
  · intro h
    have h1 : ¬ (key = "AAQR" ∨ key = "ANQR") := by
      rcases h with h | h <;> rw [h] <;> decide
    rw [if_neg h1, if_pos h]
  · intro h
    have h1 : ¬ (key = "AAQR" ∨ key = "ANQR") := by
      rcases h with h | h <;> rw [h] <;> decide
    have h2 : ¬ (key = "AAQT" ∨ key = "ANQT") := by
      rcases h with h | h <;> rw [h] <;> decide
    rw [if_neg h1, if_neg h2, if_pos h]
  · intro h1 h2 h3 h4 h5 h6
    rw [if_neg (by tauto), if_neg (by tauto), if_neg (by tauto)]

/-- C36, at an aquifer with the flux rate `3/2`, the volume 40 and the pressure 200: the key
`ANQR` returns the flux rate and the key `aaqr` returns 0. -/
theorem get_spec_witness :
    (aquiferData 1 false).get "ANQR" = 3 / 2 ∧ (aquiferData 1 false).get "ANQT" = 40 ∧
    (aquiferData 1 false).get "AAQP" = 200 ∧ (aquiferData 1 false).get "aaqr" = 0 :=
  ⟨(get_spec (aquiferData 1 false) "ANQR").1 (Or.inr rfl),
    (get_spec (aquiferData 1 false) "ANQT").2.1 (Or.inr rfl),
    (get_spec (aquiferData 1 false) "AAQP").2.2.1 (Or.inl rfl),
    (get_spec (aquiferData 1 false) "aaqr").2.2.2 (by decide) (by decide) (by decide)
      (by decide) (by decide) (by decide)⟩

/-- C37. `AquiferConstantFlux::AquiferConstantFlux(deck)` reads the first occurrence of the
keyword `AQUFLUX` only: the collection is the one that the records of the first occurrence leave
when they are applied in order to the empty collection, the entry of an id being the aquifer of
the last record of the first occurrence with that id; a deck that has the first occurrence only
yields the same collection, and a deck without the keyword yields the empty collection. -/
theorem construct_reads_first_occurrence :
    (∀ (deck : Deck) (first : List AqufluxRecord) (rest : List (List AqufluxRecord)),
      deck.AQUFLUX = first :: rest →
      AquiferConstantFlux.construct deck =
        first.foldl AquiferConstantFlux.handleAQUFLUX ⟨[]⟩ ∧
      (∀ id, UnorderedMap.find? (AquiferConstantFlux.construct deck).m_aquifers id =
        ((first.filter fun r => decide (r.AQUIFER_ID = id)).getLast?).map
          SingleAquiferConstantFlux.construct) ∧
      (∀ other : Deck, other.AQUFLUX = [first] →
        AquiferConstantFlux.construct other = AquiferConstantFlux.construct deck)) ∧
    (∀ deck : Deck, deck.AQUFLUX = [] → AquiferConstantFlux.construct deck = ⟨[]⟩) := by
  constructor
  · intro deck first rest hd
    have hc : AquiferConstantFlux.construct deck =
        first.foldl AquiferConstantFlux.handleAQUFLUX ⟨[]⟩ := by
      rw [constantFlux_construct_eq, hd]
      rfl
    refine ⟨hc, fun id => ?_, fun other ho => ?_⟩
    · rw [hc, find?_foldl_handleAQUFLUX]
      cases (first.filter fun r => decide (r.AQUIFER_ID = id)).getLast? with
      | none => rfl
      | some r => rfl
    · rw [hc, constantFlux_construct_eq, ho]
      rfl
  · intro deck hd
    rw [constantFlux_construct_eq, hd]
    rfl

/-- C37, at the deck `twoFluxDeck`: the collection has the aquifer of the second record of the
first occurrence for the id 1, and no entry for the id 2, which the second occurrence names. -/
theorem construct_reads_first_occurrence_witness :
    UnorderedMap.find? (AquiferConstantFlux.construct twoFluxDeck).m_aquifers 1 =
      some (SingleAquiferConstantFlux.construct (aqufluxRecord 1 30)) ∧
    UnorderedMap.find? (AquiferConstantFlux.construct twoFluxDeck).m_aquifers 2 = none ∧
    AquiferConstantFlux.construct twoFluxDeck =
      [aqufluxRecord 1 10, aqufluxRecord 1 30].foldl AquiferConstantFlux.handleAQUFLUX ⟨[]⟩ :=
  ⟨((construct_reads_first_occurrence.1 twoFluxDeck _ _ rfl).2.1 1).trans rfl,
    ((construct_reads_first_occurrence.1 twoFluxDeck _ _ rfl).2.1 2).trans rfl,
    (construct_reads_first_occurrence.1 twoFluxDeck _ _ rfl).1⟩

end Opm
